import Mathlib

/-!
# ebftpd: a shallow embedding of the client session and its helpers

The definitions below follow `src/ftp/clientimpl.cpp` function by function,
and after it `ftp/speedcontrol.hpp`, `util/net/tlssocket.cpp` and
`cmd/dirlist.cpp`.
A session is a record of the member variables the functions read and write.
Calls on collaborators whose code is outside the repository part under study
(login counter, logger, control channel, cscripts, command handlers) are
recorded, in call order, in the `trace` field, and the values they return are
taken from an environment record.

`std::string` is `String`; the byte-wise helpers of `util/string.cpp` work on
the character list, which coincides with the byte sequence for ASCII text.
Points in time and durations are whole seconds (`Int`).
-/

namespace ftp

/-! ## Data model -/

/-- Protocol states of `ClientState`, with the two pseudo-values that only
command descriptors use as a requirement. -/
inductive ClientState where
  | LoggedOut
  | WaitingPassword
  | LoggedIn
  | Finished
  | AnyState
  | NotBeforeAuth
  deriving DecidableEq, Repr

/-- Result of `Counter::Login().Start`. -/
inductive CounterResult where
  | PersonalFail
  | GlobalFail
  | Okay
  deriving DecidableEq, Repr

/-- Reply codes are the three-digit numbers sent on the control channel. -/
abbrev ReplyCode := Nat

/-- Modelled from the spec: `ftp/replycodes.hpp` is not part of the sources at
hand; the spec gives 530 for a login-state mismatch. -/
def NotLoggedIn : ReplyCode := 530

/-- Modelled from the spec: `ftp/replycodes.hpp` is not part of the sources at
hand; the spec gives 503 for `AUTH command must be issued first`. -/
def BadCommandSequence : ReplyCode := 503

/-- Modelled from the spec: `ftp/replycodes.hpp` is not part of the sources at
hand; RFC 959 value 500. -/
def CommandUnrecognised : ReplyCode := 500

/-- Modelled from the spec: `ftp/replycodes.hpp` is not part of the sources at
hand; the spec gives `501 Syntax: ...`. -/
def SyntaxErrorCode : ReplyCode := 501

/-- Modelled from the spec: `ftp/replycodes.hpp` is not part of the sources at
hand; RFC 959 value 502. -/
def NotImplemented : ReplyCode := 502

/-- Modelled from the spec: `ftp/replycodes.hpp` is not part of the sources at
hand; RFC 959 value 550. -/
def ActionNotOkay : ReplyCode := 550

/-- The observations `ClientImpl` makes of an `acl::User`. -/
structure User where
  ID : Int := 0
  Name : String := ""
  PrimaryGroup : String := ""
  Tagline : String := ""
  NumLogins : Int := 0
  Exempt : Bool := false
  IdleTime : Int := -1
  /-- Answer of `HasFlag(acl::Flag::Deleted)`. -/
  Deleted : Bool := false
  deriving DecidableEq, Repr

/-- Kind of cscript hook, `exec::CscriptType`. -/
inductive CscriptType where
  | PRE
  | POST
  deriving DecidableEq, Repr

/-- Calls on collaborators, as they appear in a session trace. -/
inductive Effect where
  /-- Call of `Counter::Login().Start(uid, limit, kicked, exempt)` with its result. -/
  | LoginStart (uid : Int) (limit : Int) (kicked : Bool) (exempt : Bool)
      (result : CounterResult)
  /-- Call of `Counter::Login().Stop(uid)`. -/
  | LoginStop (uid : Int)
  /-- Call of `logs::Event(what, key, value, ...)`. -/
  | Event (what : String) (fields : List (String × String))
  /-- Call of `logs::Security(what, message)`. -/
  | Security (what : String) (message : String)
  /-- Call of `control.Reply(code, message)`. -/
  | Reply (code : ReplyCode) (message : String)
  /-- Call of `exec::Cscripts(parent, verb, fullCommand, type, failCode)`. -/
  | Cscript (verb : String) (fullCommand : String) (type : CscriptType)
      (failCode : ReplyCode)
  /-- Call of `def->Create(parent, argStr, args)`. -/
  | Create (argStr : String) (args : List String)
  /-- Call of `command->Execute()`. -/
  | Execute
  /-- Call of `Stop()` of the session thread. -/
  | ThreadStop
  /-- Call of `control.Interrupt()`. -/
  | ControlInterrupt
  /-- Call of `data.Interrupt()`. -/
  | DataInterrupt
  /-- Call of `child.Interrupt()`. -/
  | ChildInterrupt
  /-- Call of `pthread_kill(thread, SIGUSR1)`. -/
  | KillSIGUSR1
  /-- Call of `user->VerifyPassword(password)`. -/
  | VerifyPassword (uid : Int) (password : String)
  /-- Call of `db::stats::ProtocolUpdate(uid, sendBytes, receiveBytes)`. -/
  | ProtocolUpdate (uid : Int) (sendBytes : Int) (receiveBytes : Int)
  /-- Call of `logs::Error(format, ...)`, with the text of the format. -/
  | Error (message : String)
  /-- Call of `logs::Debug(format, ...)`, with the text of the format. -/
  | Debug (message : String)
  /-- Call of `control.NextCommand(timeout)`; no timeout is a null pointer. -/
  | NextCommand (timeout : Option Int)
  /-- Call of `cfg::UpdateLocal()`. -/
  | UpdateLocal
  deriving DecidableEq, Repr

/-- Member variables of `ClientImpl` together with the trace of the calls the
session has made on its collaborators. -/
structure ClientImpl where
  user : Option User := none
  userUpdated : Bool := false
  state : ClientState := ClientState.LoggedOut
  passwordAttemps : Nat := 0
  kickLogin : Bool := false
  idleTimeout : Int := 0
  idleTime : Int := 0
  idleExpires : Int := 0
  loggedInAt : Int := 0
  ident : String := "*"
  ip : String := ""
  hostname : String := ""
  currentCommand : String := ""
  confirmCommand : String := ""
  /-- What `control.IsTLS()` answers. -/
  controlTLS : Bool := false
  trace : List Effect := []
  /-- What `control.BytesRead()` answers. The declarations of the four byte
  counters are not among the sources; they are read as `long long`, the type
  in which `db::stats::ProtocolUpdate` takes the totals. -/
  controlBytesRead : Int := 0
  /-- What `control.BytesWrite()` answers. -/
  controlBytesWrite : Int := 0
  /-- What `data.BytesRead()` answers. -/
  dataBytesRead : Int := 0
  /-- What `data.BytesWrite()` answers. -/
  dataBytesWrite : Int := 0
  deriving DecidableEq, Repr

/-- Exceptions that cross the functions modelled here. -/
inductive Exn where
  | RuntimeError (message : String)
  | ProtocolError (message : String)
  | NetworkError (message : String)
  | SyntaxError
  | NoPostScriptError
  deriving DecidableEq, Repr

/-- How a call on a session ends: it returns a value, it leaves by an
exception, or the process is aborted (a failed `assert`, or `user->` on an
unbound user). In the first two cases the session is as the call left it. -/
inductive Result (α : Type) where
  | ok (value : α) (c : ClientImpl)
  | threw (e : Exn) (c : ClientImpl)
  | aborted
  deriving DecidableEq, Repr

/-- The session after the call, when the process is still alive. -/
def Result.client {α : Type} : Result α → Option ClientImpl
  | Result.ok _ c => some c
  | Result.threw _ c => some c
  | Result.aborted => none

/-- The value the call returned, when it returned. -/
def Result.value {α : Type} : Result α → Option α
  | Result.ok a _ => some a
  | Result.threw _ _ => none
  | Result.aborted => none

/-- Append one collaborator call to the session trace. -/
def ClientImpl.emit (c : ClientImpl) (e : Effect) : ClientImpl :=
  { c with trace := c.trace ++ [e] }

/-- The fields of the `LOGIN` and `LOGOUT` events after the first key. -/
def eventFields (c : ClientImpl) (u : User) (identKey : String) :
    List (String × String) :=
  [(identKey, c.ident ++ "@" ++ c.hostname), ("ip", c.ip), ("user", u.Name),
   ("group", u.PrimaryGroup), ("tagline", u.Tagline)]

/-! ## State setters (`clientimpl.cpp` lines 68-136) -/

/-- Source function `ClientImpl::SetState`. The two leading `assert`s abort
the process; the logout branch dereferences `user`. -/
def SetState (c : ClientImpl) (state : ClientState) : Result Unit :=
  if state = ClientState.LoggedIn then Result.aborted
  else if state = ClientState.WaitingPassword then Result.aborted
  else
    let logout := state == ClientState.Finished && c.state == ClientState.LoggedIn
    let c1 := { c with state := state }
    if logout then
      match c1.user with
      | none => Result.aborted
      | some u =>
        Result.ok () ((c1.emit (Effect.LoginStop u.ID)).emit
          (Effect.Event "LOGOUT" (eventFields c1 u "ident_address")))
    else Result.ok () c1

/-- Modelled from the spec: `ClientImpl::SetIdleTimeout` is defined in the
header, which is not among the sources at hand; it stores the idle timeout of
the session, as the constructor does. -/
def SetIdleTimeout (c : ClientImpl) (idleTimeout : Int) : ClientImpl :=
  { c with idleTimeout := idleTimeout }

/-- Source function `ClientImpl::SetLoggedIn`. `result` is what
`Counter::Login().Start` returns, `cfgTimeout` is `cfg::Get().IdleTimeout().Timeout()` and `now` the
reading of the clock. -/
def SetLoggedIn (c : ClientImpl) (kicked : Bool) (result : CounterResult)
    (cfgTimeout : Int) (now : Int) : Result Unit :=
  match c.user with
  | none => Result.aborted
  | some u =>
    let c1 := c.emit (Effect.LoginStart u.ID u.NumLogins kicked u.Exempt result)
    match result with
    | CounterResult.PersonalFail =>
      Result.threw (Exn.RuntimeError
        ("You've reached your maximum of " ++ toString u.NumLogins ++ " login(s).")) c1
    | CounterResult.GlobalFail =>
      Result.threw (Exn.RuntimeError
        "The server has reached it's maximum number of logged in users.") c1
    | CounterResult.Okay =>
      let c2 := if u.IdleTime = -1 then SetIdleTimeout c1 cfgTimeout
                else SetIdleTimeout c1 u.IdleTime
      let c3 := { c2 with state := ClientState.LoggedIn, loggedInAt := now }
      Result.ok () (c3.emit (Effect.Event "LOGIN" (eventFields c3 u "ident address")))

/-- Source function `ClientImpl::SetWaitingPassword`. -/
def SetWaitingPassword (c : ClientImpl) (user : User) (kickLogin : Bool) :
    Result Unit :=
  Result.ok () { c with state := ClientState.WaitingPassword, user := some user,
                        kickLogin := kickLogin }

/-- Source function `ClientImpl::CheckState`. The trailing `assert` aborts the
process when a failed check finds the session `Finished`. -/
def CheckState (c : ClientImpl) (reqdState : ClientState) : Result Bool :=
  if c.state = reqdState ∨ reqdState = ClientState.AnyState then Result.ok true c
  else
    let finish (c1 : ClientImpl) : Result Bool :=
      if c1.state = ClientState.Finished then Result.aborted else Result.ok false c1
    if c.state = ClientState.LoggedIn then
      finish (c.emit (Effect.Reply NotLoggedIn "Already logged in."))
    else if c.state = ClientState.WaitingPassword then
      finish (c.emit (Effect.Reply BadCommandSequence "Expecting PASS comamnd."))
    else if c.state = ClientState.LoggedOut ∧ reqdState = ClientState.WaitingPassword then
      finish (c.emit (Effect.Reply BadCommandSequence "Expecting USER command first."))
    else if reqdState = ClientState.NotBeforeAuth then
      if !c.controlTLS then
        finish (c.emit (Effect.Reply BadCommandSequence "AUTH command must be issued first."))
      else Result.ok true c
    else if c.state = ClientState.LoggedOut then
      finish (c.emit (Effect.Reply NotLoggedIn "Not logged in."))
    else finish c

/-- Source function `ClientImpl::Interrupt`. -/
def Interrupt (c : ClientImpl) : Result Unit :=
  match SetState c ClientState.Finished with
  | Result.ok _ c1 =>
    Result.ok () (((((c1.emit Effect.ThreadStop).emit Effect.ControlInterrupt).emit
      Effect.DataInterrupt).emit Effect.ChildInterrupt).emit Effect.KillSIGUSR1)
  | Result.threw e c1 => Result.threw e c1
  | Result.aborted => Result.aborted

/-! ## String helpers (`util/string.cpp`) -/

/-- Library function `std::isspace` in the C locale. -/
def isspace (ch : Char) : Bool :=
  ch = ' ' || (9 ≤ ch.toNat && ch.toNat ≤ 13)

/-- Worker of `Split`: `cur` is the token being read, in reverse, and `inRun`
tells that the character before was a delimiter. -/
def Split.go (delims : List Char) (tokenCompress : Bool) :
    List Char → List Char → Bool → List String
  | [], cur, _ => [String.mk cur.reverse]
  | ch :: rest, cur, inRun =>
    if delims.contains ch then
      if tokenCompress && inRun then Split.go delims tokenCompress rest cur true
      else String.mk cur.reverse :: Split.go delims tokenCompress rest [] true
    else Split.go delims tokenCompress rest (ch :: cur) false

/-- Source function `util::Split`, that is `boost::split` with
`is_any_of(delims)`: the tokens between delimiters, a run of delimiters
counting as one when `tokenCompress` is set. There is always at least one
token, and a delimiter at either end of the string gives an empty token. -/
def Split (s : String) (delims : String) (tokenCompress : Bool) : List String :=
  Split.go delims.data tokenCompress s.data [] false

/-- Source function `util::Trim`, that is `boost::trim`: drops white space at
both ends. -/
def Trim (s : String) : String :=
  String.mk ((s.data.dropWhile isspace).reverse.dropWhile isspace).reverse

/-- Source function `util::ToUpper`, that is `boost::to_upper`. -/
def ToUpper (s : String) : String :=
  String.mk (s.data.map Char.toUpper)

/-- Library function `std::string::substr(pos)`. -/
def substr (s : String) (pos : Nat) : String :=
  String.mk (s.data.drop pos)

/-! ## Command dispatch (`clientimpl.cpp` lines 206-271) -/

/-- A command descriptor, `cmd::rfc::CommandDef`. `Create` yields the handler
bound to the argument string and vector, or nothing when the command is not
implemented; the handler is what `command->Execute()` does to the session. -/
structure CommandDef where
  CheckArgs : List String → Bool
  Syntax : String
  RequiredState : ClientState
  FailCode : ReplyCode
  Create : String → List String → Option (ClientImpl → Result Unit)

/-- The observations the lister makes of a `util::path::Status`. -/
structure Status where
  IsSymLink : Bool := false
  IsDirectory : Bool := false
  st_mode : Nat := 0
  st_nlink : Nat := 1
  Size : Nat := 0
  st_mtime : Int := 0
  deriving DecidableEq, Repr

/-- An entry of a `fs::DirEnumerator`. -/
structure DirEntry where
  Path : String := ""
  Status : Status := {}
  UID : Int := 0
  GID : Int := 0
  deriving DecidableEq, Repr

/-- What the collaborators answer. -/
structure Env where
  /-- Call of `cmd::rfc::Factory::Lookup`. -/
  Lookup : String → Option CommandDef := fun _ => none
  /-- What `exec::Cscripts(parent, verb, fullCommand, type, failCode)` returns. -/
  Cscripts : String → String → CscriptType → ReplyCode → Bool := fun _ _ _ _ => true
  /-- Value of `cfg::Get().IdleCommands()`. -/
  IdleCommands : List String := []
  /-- Call of `util::WildcardMatch(mask, str, iCase)`, that is `fnmatch`. -/
  WildcardMatch : String → String → Bool → Bool := fun _ _ _ => false
  /-- Value of `boost::posix_time::second_clock::local_time()`. -/
  now : Int := 0
  /-- Value of `cfg::Get().IdleTimeout().Timeout()`. -/
  cfgIdleTimeout : Int := 0
  /-- Call of `acl::IPAllowed`. -/
  IPAllowed : String → Bool := fun _ => false
  /-- Call of `acl::IdentIPAllowed`. -/
  IdentIPAllowed : Int → String → Bool := fun _ _ => false
  /-- Call of `util::net::ReverseResolve`; nothing stands for a `NetworkError`. -/
  ReverseResolve : String → Option String := fun _ => none
  /-- Default of the `tokenCompress` argument of `util::Split`, which the
  declaration in `util/string.hpp` gives. -/
  SplitTokenCompress : Bool := false
  /-- The constructor `util::net::IPAddress(ip)` accepts the text; otherwise it
  throws `InvalidIPAddressError`. -/
  IPValid : String → Bool := fun _ => false
  /-- For an address that `IsMappedv4()`, the text of `ToUnmappedv4()`. -/
  Unmappedv4 : String → Option String := fun _ => none
  /-- Answer of `acl::User::VerifyPassword(password)`. -/
  UserVerifyPassword : User → String → Bool := fun _ _ => false
  /-- The constant `maxPasswordAttemps` of the class declaration. -/
  maxPasswordAttemps : Nat := 3
  /-- Answer of `cfg::Get().IsBouncer(ip)`. -/
  IsBouncer : String → Bool := fun _ => false
  /-- Value of `cfg::Get().BouncerOnly()`. -/
  BouncerOnly : Bool := false
  /-- Answer of `control.RemoteEndpoint().IP().IsLoopback()`. -/
  RemoteIsLoopback : Bool := false
  /-- What `control.WaitForIdnt()` returns; empty on timeout. -/
  WaitForIdnt : String := ""
  /-- What `util::net::IdentClient(...).Ident()` returns; nothing stands for a
  `NetworkError`. -/
  IdentLookup : Option String := none
  /-- Value of `cfg::Get().Banner()`. -/
  Banner : String := ""
  /-- Call of `util::ReadFileToString(path, text)`; nothing when it fails. -/
  ReadFileToString : String → Option String := fun _ => none
  /-- Value of `cfg::Get().LoginPrompt()`. -/
  LoginPrompt : String := ""
  /-- Call of `acl::User::Load(uid)`. -/
  UserLoad : Int → Option User := fun _ => none
  /-- Call of `acl::UIDToName(uid)`. -/
  UIDToName : Int → String := fun _ => ""
  /-- Call of `acl::GIDToName(gid)`. -/
  GIDToName : Int → String := fun _ => ""
  /-- Text that `strftime` with the format `%b %d %H:%M` gives for the local
  time of a point in time. -/
  strftime : Int → String := fun _ => ""
  /-- Call of `util::path::Readlink` on the real path of an entry of a
  directory; nothing when it fails. -/
  Readlink : String → String → Option String := fun _ _ => none
  /-- Call of `fs::DirEnumerator::Readdir(user, path, loadOwners)`: the entries
  of the directory and their `TotalBytes()`; nothing stands for a
  `util::SystemError`. -/
  DirEnumeratorReaddir : String → Bool → Option (List DirEntry × Nat) := fun _ _ => none
  /-- Comparison `fs::DirEntrySizeLess`. -/
  DirEntrySizeLess : DirEntry → DirEntry → Bool :=
    fun a b => decide (a.Status.Size < b.Status.Size)
  /-- Comparison `fs::DirEntrySizeGreater`. -/
  DirEntrySizeGreater : DirEntry → DirEntry → Bool :=
    fun a b => decide (a.Status.Size > b.Status.Size)
  /-- Comparison `fs::DirEntryModTimeLess`. -/
  DirEntryModTimeLess : DirEntry → DirEntry → Bool :=
    fun a b => decide (a.Status.st_mtime < b.Status.st_mtime)
  /-- Comparison `fs::DirEntryModTimeGreater`. -/
  DirEntryModTimeGreater : DirEntry → DirEntry → Bool :=
    fun a b => decide (a.Status.st_mtime > b.Status.st_mtime)
  /-- Comparison `fs::DirEntryPathLess`. -/
  DirEntryPathLess : DirEntry → DirEntry → Bool := fun a b => decide (a.Path < b.Path)
  /-- Comparison `fs::DirEntryPathGreater`. -/
  DirEntryPathGreater : DirEntry → DirEntry → Bool := fun a b => decide (b.Path < a.Path)
  /-- Operator `/=` of `fs::VirtualPath`: the path of an entry of a directory. -/
  PathAppend : String → String → String := fun path name => path ++ "/" ++ name

/-- Source function `ClientImpl::IdleReset`. -/
def IdleReset (env : Env) (c : ClientImpl) (commandLine : String) : ClientImpl :=
  if env.IdleCommands.any (fun mask => env.WildcardMatch mask commandLine true) then c
  else { c with idleTime := env.now, idleExpires := env.now + c.idleTimeout }

/-- The text `ExecuteCommand` stores in `currentCommand`. -/
def commandText (verb argStr : String) : String :=
  if argStr = "" then verb else verb ++ (" " ++ argStr)

/-- Last statement of `ExecuteCommand`: clear `currentCommand` and return. -/
def ExecuteCommand.done (c : ClientImpl) : Result Unit :=
  Result.ok () { c with currentCommand := "" }

/-- The `try` block of `ExecuteCommand` with its two `catch` clauses and the
idle reset that follows, for a handler that was created. -/
def ExecuteCommand.run (env : Env) (d : CommandDef) (verb commandLine : String)
    (command : ClientImpl → Result Unit) (c : ClientImpl) : Result Unit :=
  match command (c.emit Effect.Execute) with
  | Result.aborted => Result.aborted
  | Result.ok _ c2 =>
    let c3 := if c2.state = ClientState.LoggedIn then
        c2.emit (Effect.Cscript verb c2.currentCommand CscriptType.POST ActionNotOkay)
      else c2
    ExecuteCommand.done (IdleReset env c3 commandLine)
  | Result.threw Exn.SyntaxError c2 =>
    ExecuteCommand.done (IdleReset env
      (c2.emit (Effect.Reply SyntaxErrorCode ("Syntax: " ++ d.Syntax))) commandLine)
  | Result.threw Exn.NoPostScriptError c2 =>
    ExecuteCommand.done (IdleReset env c2 commandLine)
  | Result.threw e c2 => Result.threw e c2

/-- Source function `ClientImpl::ExecuteCommand`. -/
def ExecuteCommand (env : Env) (c : ClientImpl) (commandLine : String) : Result Unit :=
  match Split commandLine " " true with
  | [] => Result.threw (Exn.ProtocolError "Empty command.") c
  | arg0 :: rest =>
    let argStr := Trim (substr commandLine arg0.length)
    let verb := ToUpper arg0
    let args := verb :: rest
    let c0 := { c with currentCommand := commandText verb argStr }
    match env.Lookup verb with
    | none =>
      ExecuteCommand.done
        (c0.emit (Effect.Reply CommandUnrecognised "Command not understood"))
    | some d =>
      if !d.CheckArgs args then
        ExecuteCommand.done
          (c0.emit (Effect.Reply SyntaxErrorCode ("Syntax: " ++ d.Syntax)))
      else
        match CheckState c0 d.RequiredState with
        | Result.aborted => Result.aborted
        | Result.threw e c1 => Result.threw e c1
        | Result.ok false c1 => ExecuteCommand.done c1
        | Result.ok true c1 =>
          let pre : Bool := c1.state != ClientState.LoggedIn ||
            env.Cscripts verb c1.currentCommand CscriptType.PRE d.FailCode
          let c2 := if c1.state != ClientState.LoggedIn then c1
            else c1.emit (Effect.Cscript verb c1.currentCommand CscriptType.PRE d.FailCode)
          if !pre then ExecuteCommand.done c2
          else
            let c3 := c2.emit (Effect.Create argStr args)
            match d.Create argStr args with
            | none =>
              ExecuteCommand.done
                (c3.emit (Effect.Reply NotImplemented "Command not implemented"))
            | some command => ExecuteCommand.run env d verb commandLine command c3

/-! ## Address checks (`clientimpl.cpp` lines 372-420) -/

/-- Source function `ClientImpl::HostnameAndIP`. -/
def HostnameAndIP (c : ClientImpl) : String :=
  if c.ip ≠ c.hostname then c.hostname ++ "(" ++ c.ip ++ ")" else c.hostname

/-- Source function `ClientImpl::PostCheckAddress`. -/
def PostCheckAddress (env : Env) (c : ClientImpl) : Result Bool :=
  match c.user with
  | none => Result.aborted
  | some u =>
    Result.ok (env.IdentIPAllowed u.ID (c.ident ++ "@" ++ c.ip) ||
      (c.ip != c.hostname && env.IdentIPAllowed u.ID (c.ident ++ "@" ++ c.hostname))) c

/-- Source function `ClientImpl::PreCheckAddress`. -/
def PreCheckAddress (env : Env) (c : ClientImpl) : Result Bool :=
  if !env.IPAllowed c.ip && (c.ip != c.hostname && !env.IPAllowed c.hostname) then
    Result.ok false (c.emit (Effect.Security "BADADDRESS"
      ("Refused connection from unknown address: " ++ HostnameAndIP c)))
  else Result.ok true c

/-- Source function `ClientImpl::HostnameLookup`. -/
def HostnameLookup (env : Env) (c : ClientImpl) : ClientImpl :=
  if c.hostname ≠ "" then c
  else
    match env.ReverseResolve c.ip with
    | some hostname => { c with hostname := hostname }
    | none => { c with hostname := c.ip }

/-! ## Bouncer identification (`clientimpl.cpp` lines 422-464) -/

/-- Library function `std::string::find_first_of(ch)`; nothing is `npos`. -/
def find_first_of (s : String) (ch : Char) : Option Nat :=
  if s.data.indexOf ch < s.data.length then some (s.data.indexOf ch) else none

/-- Library function `std::string::find_last_of(ch)`; nothing is `npos`. -/
def find_last_of (s : String) (ch : Char) : Option Nat :=
  if s.data.reverse.indexOf ch < s.data.length then
    some (s.data.length - 1 - s.data.reverse.indexOf ch)
  else none

/-- Library constructor `std::string(str, pos, n)`: at most `n` characters of
`str` from position `pos`. -/
def substring (s : String) (pos n : Nat) : String :=
  String.mk ((s.data.drop pos).take n)

/-- Source function `ClientImpl::IdntUpdate`. -/
def IdntUpdate (env : Env) (c : ClientImpl) (ident ip hostname : String) :
    Bool × ClientImpl :=
  if !env.IPValid ip then (false, c)
  else
    let ip1 := match env.Unmappedv4 ip with
      | some unmapped => unmapped
      | none => ip
    (true, { c with ident := ident, ip := ip1,
                    hostname := if ip1 ≠ hostname then hostname else c.hostname })

/-- Source function `ClientImpl::IdntParse`. -/
def IdntParse (env : Env) (c : ClientImpl) (command : String) : Bool × ClientImpl :=
  match Split command " " env.SplitTokenCompress with
  | [_, arg1] =>
    match find_first_of arg1 '@' with
    | none => (false, c)
    | some pos1 =>
      match find_last_of arg1 ':' with
      | none => (false, c)
      | some pos2 =>
        if pos2 ≤ pos1 then (false, c)
        else
          let ident := substring arg1 0 pos1
          let ip := substring arg1 (pos1 + 1) (pos2 - pos1 - 1)
          let hostname := substr arg1 (pos2 + 1)
          if ident = "" ∨ hostname = "" ∨ ip = "" then (false, c)
          else IdntUpdate env c ident ip hostname
  | _ => (false, c)

/-! ## Password attempts (`clientimpl.cpp` lines 161-170) -/

/-- Source function `ClientImpl::VerifyPassword`. -/
def VerifyPassword (env : Env) (c : ClientImpl) (password : String) : Result Bool :=
  let c1 := { c with passwordAttemps := c.passwordAttemps + 1 }
  match c1.user with
  | none => Result.aborted
  | some u =>
    Result.ok (env.UserVerifyPassword u password)
      (c1.emit (Effect.VerifyPassword u.ID password))

/-- Source function `ClientImpl::PasswordAttemptsExceeded`. -/
def PasswordAttemptsExceeded (env : Env) (c : ClientImpl) : Bool :=
  decide (c.passwordAttemps ≥ env.maxPasswordAttemps)

/-- One `VerifyPassword` call after the other, for each password of the list;
nothing when the process aborts. -/
def verifyPasswords (env : Env) : ClientImpl → List String → Option ClientImpl
  | c, [] => some c
  | c, password :: more =>
    match (VerifyPassword env c password).client with
    | none => none
    | some c1 => verifyPasswords env c1 more

/-- The effect is a call of the user's password verification. -/
def Effect.isVerifyPassword : Effect → Bool
  | Effect.VerifyPassword _ _ => true
  | _ => false

/-- Number of calls of the user's password verification in a trace. -/
def passwordChecks (t : List Effect) : Nat := t.countP Effect.isVerifyPassword

/-! ## Confirmation and traffic (`clientimpl.cpp` lines 352-370) -/

/-- First loop of `CompressWhitespace`: of every run of white space the first
character stays. `afterSpace` tells that the character before was white
space. -/
def CompressWhitespace.runs : Bool → List Char → List Char
  | _, [] => []
  | afterSpace, ch :: rest =>
    if isspace ch then
      if afterSpace then CompressWhitespace.runs true rest
      else ch :: CompressWhitespace.runs true rest
    else ch :: CompressWhitespace.runs false rest

/-- Source function `util::CompressWhitespace`: runs of white space shrink to
their first character, then one white space character is removed at the front
and one at the end. -/
def CompressWhitespace (str : String) : String :=
  let s1 := CompressWhitespace.runs false str.data
  match s1 with
  | [] => String.mk []
  | first :: rest =>
    let s2 := if isspace first then rest else s1
    match s2.getLast? with
    | none => String.mk []
    | some last => if isspace last then String.mk s2.dropLast else String.mk s2

/-- Source function `util::CompressWhitespaceCopy`. -/
def CompressWhitespaceCopy (str : String) : String := CompressWhitespace str

/-- Source function `ClientImpl::ConfirmCommand`. -/
def ConfirmCommand (c : ClientImpl) (argStr : String) : Bool × ClientImpl :=
  let command := CompressWhitespaceCopy argStr
  if command ≠ c.confirmCommand then (false, { c with confirmCommand := command })
  else (true, { c with confirmCommand := "" })

/-- The value that the 64 bits of a `long long` hold for the integer `n`: `n`
itself from -2^63 to 2^63 - 1, and `n` wrapped into that range otherwise. -/
def toLongLong (n : Int) : Int :=
  (n + 9223372036854775808) % 18446744073709551616 - 9223372036854775808

/-- Source function `ClientImpl::LogTraffic`. The sums are sums of
`long long`: one that leaves the range wraps, as the addition of the machine
does, and the division by 1024 rounds towards zero. -/
def LogTraffic (c : ClientImpl) : ClientImpl :=
  c.emit (Effect.ProtocolUpdate
    (match c.user with
      | some u => u.ID
      | none => -1)
    ((toLongLong (c.controlBytesWrite + c.dataBytesWrite)).tdiv 1024)
    ((toLongLong (c.controlBytesRead + c.dataBytesRead)).tdiv 1024))

/-- What `fnmatch` answers for a mask without wildcard characters: the mask
matches the string that equals it, up to case when `iCase` is set. -/
def literalMatch (mask str : String) (iCase : Bool) : Bool :=
  if iCase then ToUpper mask = ToUpper str else mask = str

/-! ## Session lifecycle (`clientimpl.cpp` lines 190-204 and 273-350, 466-505) -/

/-- Modelled from the spec: `ftp/replycodes.hpp` is not part of the sources at
hand; RFC 959 value 220. -/
def ServiceReady : ReplyCode := 220

/-- Source function `ClientImpl::DisplayBanner`. -/
def DisplayBanner (env : Env) (c : ClientImpl) : ClientImpl :=
  if env.Banner ≠ "" then
    match env.ReadFileToString env.Banner with
    | some banner => c.emit (Effect.Reply ServiceReady banner)
    | none => c.emit (Effect.Reply ServiceReady env.LoginPrompt)
  else c.emit (Effect.Reply ServiceReady env.LoginPrompt)

/-- Source function `ClientImpl::LookupIdent`. -/
def LookupIdent (env : Env) (c : ClientImpl) : ClientImpl :=
  if c.ident ≠ "*" then c
  else
    match env.IdentLookup with
    | some ident => { c with ident := ident }
    | none =>
      c.emit (Effect.Error "Unable to lookup ident for connection from %1%: %2%")

/-- Source function `ClientImpl::ReloadUser`. -/
def ReloadUser (env : Env) (c : ClientImpl) : Result Bool :=
  let c1 := { c with userUpdated := false }
  match c1.user with
  | none => Result.aborted
  | some u =>
    match env.UserLoad u.ID with
    | none =>
      match SetState (c1.emit (Effect.Error "Failed to reload user from cache for: %1%"))
          ClientState.Finished with
      | Result.ok _ c2 => Result.ok false c2
      | Result.threw e c2 => Result.threw e c2
      | Result.aborted => Result.aborted
    | some loaded =>
      if loaded.Deleted then
        match SetState c1 ClientState.Finished with
        | Result.ok _ c2 => Result.ok false c2
        | Result.threw e c2 => Result.threw e c2
        | Result.aborted => Result.aborted
      else
        Result.ok true
          { c1.emit (Effect.Debug "Reloaded user profile") with user := some loaded }

/-- What the control channel delivers to one `NextCommand` call: a command
line, together with the information whether a `UserUpdate` task has marked the
session since the last command, or an exception. A list of them is the input
of a session; at its end the connection is closed. -/
inductive Incoming where
  | line (command : String) (userUpdated : Bool)
  | fails (e : Exn)
  deriving DecidableEq, Repr

/-- The timeout that `Handle` passes to `NextCommand`: none unless the session
is `LoggedIn` with a user whose idle time is not zero. The outer nothing is
the abort of `user->` on an unbound user. -/
def Handle.timeout (env : Env) (c : ClientImpl) : Option (Option Int) :=
  if c.state ≠ ClientState.LoggedIn then some none
  else
    match c.user with
    | none => none
    | some u => if u.IdleTime = 0 then some none else some (some (c.idleExpires - env.now))

/-- Source function `ClientImpl::Handle`, on the input of the session. -/
def Handle (env : Env) : ClientImpl → List Incoming → Result Unit
  | c, [] =>
    if c.state = ClientState.Finished then Result.ok () c
    else
      match Handle.timeout env c with
      | none => Result.aborted
      | some timeout =>
        Result.threw (Exn.NetworkError "Connection closed")
          (c.emit (Effect.NextCommand timeout))
  | c, incoming :: rest =>
    if c.state = ClientState.Finished then Result.ok () c
    else
      match Handle.timeout env c with
      | none => Result.aborted
      | some timeout =>
        let c1 := c.emit (Effect.NextCommand timeout)
        match incoming with
        | Incoming.fails e => Result.threw e c1
        | Incoming.line command updated =>
          let c2 := if updated then { c1 with userUpdated := true } else c1
          let reloaded : Result Bool :=
            if c2.userUpdated then ReloadUser env c2 else Result.ok true c2
          match reloaded with
          | Result.aborted => Result.aborted
          | Result.threw e c3 => Result.threw e c3
          | Result.ok false c3 => Result.ok () c3
          | Result.ok true c3 =>
            match ExecuteCommand env c3 command with
            | Result.aborted => Result.aborted
            | Result.threw e c4 => Result.threw e c4
            | Result.ok _ c4 => Handle env (c4.emit Effect.UpdateLocal) rest

/-- The part of `InnerRun` after the bouncer test: hostname lookup, address
check, ident lookup, banner and command loop. -/
def InnerRun.serve (env : Env) (c : ClientImpl) (input : List Incoming) : Result Unit :=
  match PreCheckAddress env (HostnameLookup env c) with
  | Result.aborted => Result.aborted
  | Result.threw e c1 => Result.threw e c1
  | Result.ok false c1 => Result.ok () c1
  | Result.ok true c1 =>
    let c2 := LookupIdent env c1
    let c3 := c2.emit (Effect.Debug "Servicing client connected from %1%@%2%")
    Handle env (DisplayBanner env c3) input

/-- Source function `ClientImpl::InnerRun`, on the input of the session. -/
def InnerRun (env : Env) (c : ClientImpl) (input : List Incoming) : Result Unit :=
  if !env.IsBouncer c.ip then
    if env.BouncerOnly && !env.RemoteIsLoopback then
      Result.ok () (c.emit (Effect.Security "NONBOUNCER"
        ("Refused connection not from a bouncer address: " ++ HostnameAndIP c)))
    else InnerRun.serve env c input
  else
    if env.WaitForIdnt = "" then
      if env.BouncerOnly then
        Result.ok () (c.emit (Effect.Security "IDNTTIMEOUT"
          "Timeout while waiting for IDNT command from bouncer: "))
      else InnerRun.serve env c input
    else
      match IdntParse env c env.WaitForIdnt with
      | (false, c1) =>
        Result.ok () (c1.emit (Effect.Security "BADIDNT"
          "Malformed IDNT command from bouncer: "))
      | (true, c1) => InnerRun.serve env c1 input

/-! ## Speed control (`ftp/speedcontrol.hpp`) -/

/-- How a call outside the session ends: it returns a value or raises an
exception. -/
inductive Outcome (ε α : Type) where
  | returned (value : α)
  | raised (e : ε)
  deriving DecidableEq, Repr

/-- The exception `ftp::MinimumSpeedError(limit, speed)`. -/
structure MinimumSpeedError where
  limit : Int
  speed : ℚ
  deriving DecidableEq, Repr

/-- Modelled from the spec: `ftp::SpeedInfo` is declared in a header that is
not among the sources at hand; it is a speed sample, a (duration, bytes) pair,
with the rate `Speed()` computed from it, which is carried here as a field. -/
structure SpeedInfo where
  xfertime : Int
  bytes : Int
  Speed : ℚ
  deriving DecidableEq, Repr

/-- Member variables of `SpeedControl` that `Apply` reads and writes. Points in
time are microseconds, the resolution of `microsec_clock`; speeds are rational
numbers, on which the comparisons of the source are exact. -/
structure SpeedControl where
  minimumSpeed : Int := 0
  maximumSpeed : Int := 0
  /-- The vector `globalLimits` is not empty. -/
  hasGlobalLimits : Bool := false
  lastMinimumOk : Int := 0
  lastSpeedInfo : Option SpeedInfo := none
  deriving DecidableEq, Repr

/-- The constant `SpeedControl::minimumSpeedKickTime`. -/
def SpeedControl.minimumSpeedKickTime : Int := 5

/-- Library function `time_duration::total_seconds()` on a duration in
microseconds: the whole seconds, truncated toward zero. -/
def total_seconds (duration : Int) : Int := duration.tdiv 1000000

/-- Source function `SpeedControl::CheckMinimum`; `now` is the clock reading. -/
def SpeedControl.CheckMinimum (sc : SpeedControl) (speed : ℚ) (now : Int) :
    Outcome MinimumSpeedError SpeedControl :=
  if speed > (sc.minimumSpeed : ℚ) then
    Outcome.returned { sc with lastMinimumOk := now }
  else if total_seconds (now - sc.lastMinimumOk) > SpeedControl.minimumSpeedKickTime then
    Outcome.raised { limit := sc.minimumSpeed, speed := speed }
  else Outcome.returned sc

/-- Source function `SpeedControl::Apply`. `speedInfo` is the sample of the
transfer state, `limitSleep` what `stats::SpeedLimitSleep` answers and
`globalSleep` what `globalCounter.Update` answers; the result holds the time
slept, if the call gets that far. -/
def SpeedControl.Apply (sc : SpeedControl) (speedInfo : SpeedInfo) (now : Int)
    (limitSleep globalSleep : Int) :
    Outcome MinimumSpeedError (SpeedControl × Option Int) :=
  if sc.minimumSpeed = 0 ∧ sc.maximumSpeed = 0 ∧ sc.hasGlobalLimits = false then
    Outcome.returned (sc, none)
  else
    let checked := if sc.minimumSpeed > 0 then sc.CheckMinimum speedInfo.Speed now
      else Outcome.returned sc
    match checked with
    | Outcome.raised e => Outcome.raised e
    | Outcome.returned sc1 =>
      let sleep1 : Int := if sc1.maximumSpeed > 0 then limitSleep else 0
      let sleep2 : Int := if sc1.hasGlobalLimits then max sleep1 globalSleep else sleep1
      Outcome.returned ({ sc1 with lastSpeedInfo := some speedInfo }, some sleep2)

/-! ## TLS error translation (`util/net/tlssocket.cpp` lines 28-63) -/

/-- The exceptions that `TLSSocket::EvaluateResult` throws. -/
inductive TLSException where
  | TLSError
  | TLSProtocolError
  | TLSSystemError (errno : Int)
  | EndOfStream
  | TimeoutError
  deriving DecidableEq, Repr

/-- Library constant of OpenSSL. -/
def SSL_ERROR_SSL : Int := 1

/-- Library constant of OpenSSL. -/
def SSL_ERROR_WANT_READ : Int := 2

/-- Library constant of OpenSSL. -/
def SSL_ERROR_WANT_WRITE : Int := 3

/-- Library constant of OpenSSL. -/
def SSL_ERROR_WANT_X509_LOOKUP : Int := 4

/-- Library constant of OpenSSL. -/
def SSL_ERROR_SYSCALL : Int := 5

/-- Library constant of OpenSSL. -/
def SSL_ERROR_ZERO_RETURN : Int := 6

/-- Library constant of `errno.h` (Linux); `EWOULDBLOCK` has the same value. -/
def EAGAIN : Int := 11

/-- Library constant of `errno.h` (Linux). -/
def EWOULDBLOCK : Int := 11

/-- Library constant of `errno.h` (Linux). -/
def ETIMEDOUT : Int := 110

/-- Source function `TLSSocket::EvaluateResult`. `sslError` is what
`SSL_get_error(session, result)` answers, `queued` what `ERR_get_error()`
answers, and `errno` the value of the variable. The case of
`SSL_ERROR_SYSCALL` has no `break`: when none of its branches throws, control
falls into the default case. -/
def TLSSocket.EvaluateResult (sslError result : Int) (queued : Nat) (errno : Int) :
    Outcome TLSException Unit :=
  if sslError = SSL_ERROR_WANT_READ ∨ sslError = SSL_ERROR_WANT_WRITE then
    Outcome.returned ()
  else if sslError = SSL_ERROR_SSL then Outcome.raised TLSException.TLSProtocolError
  else if sslError = SSL_ERROR_ZERO_RETURN then Outcome.raised TLSException.EndOfStream
  else if sslError = SSL_ERROR_SYSCALL then
    if queued ≠ 0 then Outcome.raised TLSException.TLSProtocolError
    else if result = 0 then Outcome.raised TLSException.EndOfStream
    else if result = -1 then
      if errno = EWOULDBLOCK ∨ errno = EAGAIN ∨ errno = ETIMEDOUT then
        Outcome.raised TLSException.TimeoutError
      else Outcome.raised (TLSException.TLSSystemError errno)
    else Outcome.raised TLSException.TLSError
  else Outcome.raised TLSException.TLSError

/-! ## Directory listing (`cmd/dirlist.cpp`) -/

/-- The flags of `ListOptions`. -/
structure ListOptions where
  all : Bool := false
  longFormat : Bool := false
  slashDirs : Bool := false
  reverse : Bool := false
  recursive : Bool := false
  sizeSort : Bool := false
  modTimeSort : Bool := false
  noGroup : Bool := false
  sizeName : Bool := false
  noOwners : Bool := false
  deriving DecidableEq, Repr

/-- Source function `ListOptions::ParseOption`. -/
def ListOptions.ParseOption (o : ListOptions) (option : Char) : ListOptions :=
  match option with
  | 'a' => { o with all := true }
  | 'A' => { o with all := true }
  | 'l' => { o with longFormat := true }
  | 'p' => { o with slashDirs := true }
  | 'r' => { o with reverse := true }
  | 'R' => { o with recursive := true }
  | 'S' => { o with sizeSort := true, modTimeSort := false }
  | 't' => { o with modTimeSort := true, sizeSort := false }
  | 'o' => { o with noGroup := true }
  | 'z' => { o with sizeName := true }
  | 'y' => { o with noOwners := true }
  | _ => o

/-- Source constructor `ListOptions::ListOptions(userDefined, forced)`. -/
def ListOptions.construct (userDefined forced : String) : ListOptions :=
  (forced ++ userDefined).data.foldl ListOptions.ParseOption {}

/-- Library flag `std::ios_base::adjustfield` as far as the lister sets it. -/
inductive Adjust where
  | left
  | right
  deriving DecidableEq, Repr

/-- A `std::ostringstream`: the text written so far, the adjustment flag, which
stays until it is set again, and the field width, which holds for the next
output only. -/
structure OStream where
  str : String := ""
  adjustfield : Option Adjust := none
  width : Nat := 0
  deriving DecidableEq, Repr

/-- Library manipulator `std::setw(n)`. -/
def OStream.setw (o : OStream) (n : Nat) : OStream := { o with width := n }

/-- Library manipulator `std::left`. -/
def OStream.left (o : OStream) : OStream := { o with adjustfield := some Adjust.left }

/-- Library manipulator `std::right`. -/
def OStream.right (o : OStream) : OStream := { o with adjustfield := some Adjust.right }

/-- Library operator `<<` for a text, a character or a number in decimal: the
output is filled with spaces up to the field width, after the text when the
adjustment is `left` and before it otherwise, and the width returns to zero. -/
def OStream.put (o : OStream) (text : String) : OStream :=
  let fill := String.mk (List.replicate (o.width - text.length) ' ')
  { o with
    str := o.str ++ (if o.adjustfield = some Adjust.left then text ++ fill else fill ++ text)
    width := 0 }

/-- Library constant of `sys/stat.h`. -/
def S_IRUSR : Nat := 0o400

/-- Library constant of `sys/stat.h`. -/
def S_IWUSR : Nat := 0o200

/-- Library constant of `sys/stat.h`. -/
def S_IXUSR : Nat := 0o100

/-- Library constant of `sys/stat.h`. -/
def S_IRGRP : Nat := 0o040

/-- Library constant of `sys/stat.h`. -/
def S_IWGRP : Nat := 0o020

/-- Library constant of `sys/stat.h`. -/
def S_IXGRP : Nat := 0o010

/-- Library constant of `sys/stat.h`. -/
def S_IROTH : Nat := 0o004

/-- Library constant of `sys/stat.h`. -/
def S_IWOTH : Nat := 0o002

/-- Library constant of `sys/stat.h`. -/
def S_IXOTH : Nat := 0o001

/-- The statement `if (native.st_mode & bit) perms[i] = ch;`. -/
def DirectoryList.Permissions.mark (mode bit : Nat) (i : Nat) (ch : Char)
    (perms : List Char) : List Char :=
  if mode &&& bit ≠ 0 then perms.set i ch else perms

/-- Source function `DirectoryList::Permissions`. -/
def DirectoryList.Permissions (status : Status) : String :=
  let perms := List.replicate 10 '-'
  let perms := if status.IsSymLink then perms.set 0 'l'
    else if status.IsDirectory then perms.set 0 'd' else perms
  let perms := DirectoryList.Permissions.mark status.st_mode S_IRUSR 1 'r' perms
  let perms := DirectoryList.Permissions.mark status.st_mode S_IWUSR 2 'w' perms
  let perms := DirectoryList.Permissions.mark status.st_mode S_IXUSR 3 'x' perms
  let perms := DirectoryList.Permissions.mark status.st_mode S_IRGRP 4 'r' perms
  let perms := DirectoryList.Permissions.mark status.st_mode S_IWGRP 5 'w' perms
  let perms := DirectoryList.Permissions.mark status.st_mode S_IXGRP 6 'x' perms
  let perms := DirectoryList.Permissions.mark status.st_mode S_IROTH 7 'r' perms
  let perms := DirectoryList.Permissions.mark status.st_mode S_IWOTH 8 'w' perms
  let perms := DirectoryList.Permissions.mark status.st_mode S_IXOTH 9 'x' perms
  String.mk perms

/-- Source function `DirectoryList::Timestamp`, without its cache: the
modification time is cut to the minute and formatted as local time. -/
def DirectoryList.Timestamp (env : Env) (status : Status) : String :=
  env.strftime (status.st_mtime - status.st_mtime.tmod 60)

/-- Source function `DirectoryList::UIDToName`, without its cache. -/
def DirectoryList.UIDToName (env : Env) (uid : Int) : String :=
  substring (env.UIDToName uid) 0 10

/-- Source function `DirectoryList::GIDToName`, without its cache. -/
def DirectoryList.GIDToName (env : Env) (gid : Int) : String :=
  substring (env.GIDToName gid) 0 10

/-- The test `pathStr[0] == '.' && !options.All()` together with the test of
the mask, after which the loops of `ListPath` skip an entry. -/
def DirectoryList.ListPath.skipped (env : Env) (options : ListOptions) (mask : String)
    (de : DirEntry) : Bool :=
  (de.Path.data.head? = some '.' && !options.all) ||
    (mask ≠ "" && !env.WildcardMatch mask de.Path false)

/-- Body of the first loop of `DirectoryList::ListPath` (lines 245-291): what
one entry of the directory `path` adds to the stream `message`. -/
def DirectoryList.ListPath.entry (env : Env) (options : ListOptions) (path mask : String)
    (message : OStream) (de : DirEntry) : OStream :=
  if DirectoryList.ListPath.skipped env options mask de then message
  else if options.longFormat then
    let m1 :=
      if options.sizeName then
        (((message.left.setw 10).put (toString de.Status.Size)).put " ").put de.Path
      else
        let m := (message.put (DirectoryList.Permissions de.Status)).put " "
        let m := ((m.setw 3).put (toString de.Status.st_nlink)).put " "
        let m := ((m.left.setw 10).put (DirectoryList.UIDToName env de.UID)).put " "
        let m := if !options.noGroup then
            ((m.left.setw 10).put (DirectoryList.GIDToName env de.GID)).put " "
          else m
        let m := ((m.right.setw 10).put (toString de.Status.Size)).put " "
        ((m.put (DirectoryList.Timestamp env de.Status)).put " ").put de.Path
    let m2 :=
      if de.Status.IsSymLink then
        match env.Readlink path de.Path with
        | some dest => (m1.put " -> ").put dest
        | none => m1
      else m1
    let m3 := if options.slashDirs && de.Status.IsDirectory then m2.put "/" else m2
    m3.put "\r\n"
  else (message.put de.Path).put "\r\n"

/-- The message that one call of `DirectoryList::ListPath` builds and passes
to `Output` (lines 223-294), for the entries and the total size that `Readdir`
has delivered for the directory `path`. -/
def DirectoryList.ListPath.message (env : Env) (options : ListOptions) (path : String)
    (masks : List String) (depth : Nat) (entries : List DirEntry) (totalBytes : Nat) :
    String :=
  let m0 : OStream := {}
  let m1 := if depth > 1 then m0.put "\r\n" else m0
  let m2 := if path ≠ "" ∧ depth > 1 ∧ (options.recursive = true ∨ masks ≠ []) then
      (m1.put path).put ":\r\n"
    else m1
  let m3 := if options.longFormat then
      ((m2.put "total ").put (toString (totalBytes / 1024))).put "\r\n"
    else m2
  let mask := masks.head?.getD ""
  let m4 := if masks.drop 1 = [] then
      entries.foldl (DirectoryList.ListPath.entry env options path mask) m3
    else m3
  m4.str

/-- A text of at least `width` characters with `text` at its end. -/
def rightAligned (width : Nat) (text : String) : String :=
  String.mk (List.replicate (width - text.length) ' ') ++ text

/-- A text of at least `width` characters with `text` at its start. -/
def leftAligned (width : Nat) (text : String) : String :=
  text ++ String.mk (List.replicate (width - text.length) ' ')

/-- The line of the long format as the listing format describes it:
permissions, link count in width 3, owner and group in 10 characters each,
size in width 10, timestamp and name, each followed by a space, then the
target of a symlink, the slash of a directory under option `p`, and CRLF. -/
def longFormatLine (env : Env) (options : ListOptions) (path : String) (de : DirEntry) :
    String :=
  DirectoryList.Permissions de.Status ++ " " ++
  rightAligned 3 (toString de.Status.st_nlink) ++ " " ++
  leftAligned 10 (String.mk ((env.UIDToName de.UID).data.take 10)) ++ " " ++
  leftAligned 10 (String.mk ((env.GIDToName de.GID).data.take 10)) ++ " " ++
  rightAligned 10 (toString de.Status.Size) ++ " " ++
  DirectoryList.Timestamp env de.Status ++ " " ++
  de.Path ++
  (if de.Status.IsSymLink then
    match env.Readlink path de.Path with
    | some dest => " -> " ++ dest
    | none => ""
   else "") ++
  (if options.slashDirs && de.Status.IsDirectory then "/" else "") ++
  "\r\n"

/-- The listing environment of the example: owner 1000 is `alice`, group 50 is
`staff`, and the time 1371287040 reads `Jun 15 09:04`. -/
def sampleListing : Env :=
  { UIDToName := fun uid => if uid = 1000 then "alice" else "nobody"
    GIDToName := fun gid => if gid = 50 then "staff" else "nogroup"
    strftime := fun t => if t = 1371287040 then "Jun 15 09:04" else "Jan 01 00:00" }

/-- The entry of the example: a regular file `file` of 17 bytes with mode
0644 and one link, owned by 1000 and 50, last modified at 1371287049. -/
def sampleFile : DirEntry :=
  { Path := "file"
    Status := { st_mode := 0o100644, st_nlink := 1, Size := 17, st_mtime := 1371287049 }
    UID := 1000
    GID := 50 }

/-- A directory `pub` with mode 0755 and two links, of the same owner, group
and time as the file of the example. -/
def sampleDirectory : DirEntry :=
  { Path := "pub"
    Status := { IsDirectory := true, st_mode := 0o040755, st_nlink := 2, Size := 4096,
                st_mtime := 1371287049 }
    UID := 1000
    GID := 50 }

/-- The replacement of which the equivalence of the options `A` and `a`
speaks: every `A` of an option string becomes `a`. -/
def replaceAlmostAll (s : String) : String :=
  String.mk (s.data.map (fun ch => if ch = 'A' then 'a' else ch))

/-! ## Child process reader (`exec/reader.cpp`) -/

/-- What `exec::Reader` does to the outside: its calls on `child`, a
`util::ProcessReader`, and the lines it writes to `std::cout`. -/
inductive ChildCall where
  /-- Call `child.Close(util::TimePair(1, 0))`, the graceful close. -/
  | Close
  /-- Call `child.Kill(util::TimePair(1, 0))`, which sends `SIGTERM`. -/
  | Kill
  /-- Call `child.Kill(SIGKILL, util::TimePair(1, 0))`. -/
  | KillSIGKILL
  /-- A line on `std::cout`. -/
  | Print (line : String)
  deriving DecidableEq, Repr

/-- What the child answers to the three calls; nothing stands for a
`util::SystemError`. -/
structure ChildAnswers where
  Close : Option Bool := some true
  Kill : Option Bool := some true
  KillSIGKILL : Option Bool := some true
  deriving DecidableEq, Repr

/-- The state of an `exec::Reader`: its member `open` (a reserved word here,
so the field is `isOpen`) and the calls made so far. -/
structure Reader where
  isOpen : Bool := false
  calls : List ChildCall := []
  deriving DecidableEq, Repr

/-- Records a call. -/
def Reader.call (r : Reader) (e : ChildCall) : Reader :=
  { r with calls := r.calls ++ [e] }

/-- Source function `Reader::Close`. It returns with the reader after it, or a
`util::SystemError` of the child leaves it, with the reader as it is then. -/
def Reader.Close (child : ChildAnswers) (r : Reader) : Outcome Reader Reader :=
  if r.isOpen then
    let r1 := r.call ChildCall.Close
    match child.Close with
    | none => Outcome.raised r1
    | some true => Outcome.returned r1
    | some false =>
      let r2 := (r1.call (ChildCall.Print "SIGTERM")).call ChildCall.Kill
      match child.Kill with
      | none => Outcome.raised r2
      | some true => Outcome.returned r2
      | some false =>
        let r3 := (r2.call (ChildCall.Print "SIGKILL")).call ChildCall.KillSIGKILL
        match child.KillSIGKILL with
        | none => Outcome.raised r3
        | some _ => Outcome.returned { r3 with isOpen := false }
  else Outcome.returned r

/-- Source destructor `Reader::~Reader`: `Close` with a `util::SystemError`
caught and dropped. -/
def Reader.destroy (child : ChildAnswers) (r : Reader) : Reader :=
  match Reader.Close child r with
  | Outcome.returned r1 => r1
  | Outcome.raised r1 => r1

/-! ## Index tool (`tools/index/index.cpp`) -/

/-- Source function `VirtualPath` of the index tool, for the site path that
`config->Sitepath()` gives. `path.compare(0, n, sitepath)` is zero when the
first `n` characters of the path are the site path, and `path[n]` at the end
of the path is the terminating zero, which is no slash. -/
def VirtualPath (sitepath path : String) : String :=
  if substring path 0 sitepath.length = sitepath ∧
      (path.data.get? sitepath.length = some '/' ∨ path.length = sitepath.length) then
    let path := substr path sitepath.length
    if path = "" then "/"
    else if path.data.getLast? = some '/' then String.mk path.data.dropLast
    else path
  else ""

/-! ## Word wrap (`util/string.cpp` lines 74-92) -/

/-- Library function `std::string::find_last_of(chars)`: the last position
that holds one of the characters; nothing is `npos`. -/
def find_last_of_any (s : String) (chars : String) : Option Nat :=
  if s.data.reverse.findIdx (fun ch => chars.data.contains ch) < s.data.length then
    some (s.data.length - 1 - s.data.reverse.findIdx (fun ch => chars.data.contains ch))
  else none

/-- Source function `util::WordWrap`: the part it returns and the source it
leaves behind. -/
def WordWrap (source : String) (length : Nat) : String × String :=
  if source.length < length then (source, "")
  else
    let part := substring source 0 length
    match find_last_of_any part "- \t" with
    | none => (part, substr source part.length)
    | some pos => (substring part 0 pos, substr source (pos + 1))

/-- No two neighbours in the text are both white space. -/
def noAdjacentSpace : List Char → Bool
  | a :: b :: rest => !(isspace a && isspace b) && noAdjacentSpace (b :: rest)
  | _ => true

/-! ## Recursion of the directory lister (`cmd/dirlist.cpp` lines 180-313) -/

/-- Library function `std::sort` for a comparison `less`. Of the orders that
`std::sort` may give to entries that compare equal, this is one. -/
def std_sort (less : DirEntry → DirEntry → Bool) (entries : List DirEntry) : List DirEntry :=
  entries.insertionSort (fun a b => less a b = true)

/-- Source function `DirectoryList::Readdir`: the sorted entries of the
directory and their total size; nothing stands for a `util::SystemError`. -/
def DirectoryList.Readdir (env : Env) (options : ListOptions) (path : String) :
    Option (List DirEntry × Nat) :=
  match env.DirEnumeratorReaddir path (!options.noOwners && !options.sizeName) with
  | none => none
  | some (entries, totalBytes) =>
    if options.sizeSort then
      if options.reverse then some (std_sort env.DirEntrySizeGreater entries, totalBytes)
      else some (std_sort env.DirEntrySizeLess entries, totalBytes)
    else if options.modTimeSort then
      if options.reverse then some (std_sort env.DirEntryModTimeGreater entries, totalBytes)
      else some (std_sort env.DirEntryModTimeLess entries, totalBytes)
    else
      if options.reverse then some (std_sort env.DirEntryPathGreater entries, totalBytes)
      else some (std_sort env.DirEntryPathLess entries, totalBytes)

/-- What a call `ListPath(path, masks, depth)` does to the outside, with the
depth of the call that does it: it reads the directory `path`, and it passes
a message to `Output`. -/
inductive ListEvent where
  | Readdir (path : String) (depth : Nat)
  | Output (message : String) (depth : Nat)
  deriving DecidableEq, Repr

/-- Depth of the call of `ListPath` that an event comes from. -/
def ListEvent.depth : ListEvent → Nat
  | ListEvent.Readdir _ depth => depth
  | ListEvent.Output _ depth => depth

/-- Runs a call for each element, one after the other, and joins their events;
nothing when one of the calls does not return. -/
def collectEvents {α : Type} (call : α → Option (List ListEvent)) :
    List α → Option (List ListEvent)
  | [] => some []
  | a :: rest =>
    match call a with
    | none => none
    | some events =>
      match collectEvents call rest with
      | none => none
      | some more => some (events ++ more)

/-- The entries that the second loop of `ListPath` (lines 298-311) descends
into: directories that are no symlinks and are not skipped. -/
def DirectoryList.ListPath.subdirectories (env : Env) (options : ListOptions) (mask : String)
    (entries : List DirEntry) : List DirEntry :=
  entries.filter (fun de => de.Status.IsDirectory && !de.Status.IsSymLink &&
    !DirectoryList.ListPath.skipped env options mask de)

/-- Source function `DirectoryList::ListPath` for the member `maxRecursion`,
an `int`: the events of the call and of the calls it makes, in their order.
The first argument bounds the number of nested calls; nothing is returned
when it does not suffice. The depth counts up from the first call and stays
far below the range of `int`. -/
def DirectoryList.ListPath (env : Env) (options : ListOptions) (maxRecursion : Int) :
    Nat → String → List String → Nat → Option (List ListEvent)
  | 0, _, _, _ => none
  | fuel + 1, path, masks, depth =>
    if maxRecursion ≠ 0 ∧ (depth : Int) > maxRecursion then some []
    else
      match DirectoryList.Readdir env options path with
      | none => some [ListEvent.Readdir path depth]
      | some (entries, totalBytes) =>
        let message :=
          DirectoryList.ListPath.message env options path masks depth entries totalBytes
        let mask := masks.head?.getD ""
        let own := [ListEvent.Readdir path depth, ListEvent.Output message depth]
        if options.recursive = true ∨ mask ≠ "" then
          match collectEvents
            (fun de => DirectoryList.ListPath env options maxRecursion fuel
              (env.PathAppend path de.Path) (masks.drop 1) (depth + 1))
            (DirectoryList.ListPath.subdirectories env options mask entries) with
          | none => none
          | some more => some (own ++ more)
        else some own

/-- A tree of `n` directories, each with the next as its only entry `d`: the
directory at depth `k` has the path of `k - 1` times `/d`. -/
def nestedDirectories (n : Nat) : Env :=
  { DirEnumeratorReaddir := fun path _ =>
      if path.length / 2 + 1 < n then
        some ([{ Path := "d", Status := { IsDirectory := true } }], 0)
      else some ([], 0) }

/-- An environment that knows the addresses `10.0.0.1` and `::ffff:10.0.0.1`,
the second being the v4-mapped form of the first. -/
def sampleAddresses : Env :=
  { IPValid := fun ip => ip = "10.0.0.1" || ip = "::ffff:10.0.0.1"
    Unmappedv4 := fun ip => if ip = "::ffff:10.0.0.1" then some "10.0.0.1" else none }

/-! ## Sequences of state operations -/

/-- The operations that change the protocol state. `SetLoggedIn` carries what
the login counter answers to its `Start`. -/
inductive Op where
  | SetState (state : ClientState)
  | SetWaitingPassword (user : User) (kickLogin : Bool)
  | SetLoggedIn (kicked : Bool) (result : CounterResult)
  | Interrupt
  deriving DecidableEq, Repr

/-- One operation on a session. -/
def Op.apply (env : Env) (c : ClientImpl) : Op → Result Unit
  | Op.SetState state => ftp.SetState c state
  | Op.SetWaitingPassword user kickLogin => ftp.SetWaitingPassword c user kickLogin
  | Op.SetLoggedIn kicked result =>
    ftp.SetLoggedIn c kicked result env.cfgIdleTimeout env.now
  | Op.Interrupt => ftp.Interrupt c

/-- A sequence of operations, one after the other. An exception thrown by an
operation is caught by its caller and the sequence goes on; an abort ends the
process, and there is no session afterwards. -/
def runOps (env : Env) : ClientImpl → List Op → Option ClientImpl
  | c, [] => some c
  | c, op :: ops =>
    match (op.apply env c).client with
    | none => none
    | some c1 => runOps env c1 ops

/-- The effect is a `Counter::Login().Start` call. -/
def Effect.isLoginStart : Effect → Bool
  | Effect.LoginStart _ _ _ _ _ => true
  | _ => false

/-- The effect is a `Counter::Login().Start` call that returned `Okay`. -/
def Effect.isLoginStartOkay : Effect → Bool
  | Effect.LoginStart _ _ _ _ CounterResult.Okay => true
  | _ => false

/-- The effect is a `Counter::Login().Stop` call. -/
def Effect.isLoginStop : Effect → Bool
  | Effect.LoginStop _ => true
  | _ => false

/-- The effect is a `LOGOUT` event sent to the logger. -/
def Effect.isLogout : Effect → Bool
  | Effect.Event what _ => what = "LOGOUT"
  | _ => false

/-- Number of `Counter::Login().Start` calls in a trace. -/
def loginStarts (t : List Effect) : Nat := t.countP Effect.isLoginStart

/-- Number of `Counter::Login().Start` calls that returned `Okay`. -/
def loginStartsOkay (t : List Effect) : Nat := t.countP Effect.isLoginStartOkay

/-- Number of `Counter::Login().Stop` calls in a trace. -/
def loginStops (t : List Effect) : Nat := t.countP Effect.isLoginStop

/-- Number of `LOGOUT` events in a trace. -/
def logoutEvents (t : List Effect) : Nat := t.countP Effect.isLogout

/-- Operations that do not move a `Finished` session: the two that set
`Finished`, and a `SetLoggedIn` the counter refuses (it needs a bound user). -/
def Op.keepsFinished (userBound : Bool) : Op → Bool
  | Op.SetState state => state = ClientState.Finished
  | Op.SetWaitingPassword _ _ => false
  | Op.SetLoggedIn _ result => result ≠ CounterResult.Okay && userBound
  | Op.Interrupt => true

/-- The session on which `ExecuteCommand` executes a handler it has reached:
`currentCommand` is set, and the PRE cscript (for a `LoggedIn` session) and the
creation of the handler are in the trace. -/
def ExecuteCommand.beforeHandler (c : ClientImpl) (d : CommandDef) (verb argStr : String)
    (args : List String) : ClientImpl :=
  let c0 : ClientImpl := { c with currentCommand := commandText verb argStr }
  let c2 := if c.state = ClientState.LoggedIn then
      c0.emit (Effect.Cscript verb (commandText verb argStr) CscriptType.PRE d.FailCode)
    else c0
  c2.emit (Effect.Create argStr args)

/-- A descriptor for any state and any arguments whose handler does nothing. -/
def noopCommand : CommandDef :=
  { CheckArgs := fun _ => true
    Syntax := "NOOP"
    RequiredState := ClientState.AnyState
    FailCode := 500
    Create := fun _ _ => some (fun c => Result.ok () c) }

/-- A descriptor for any state and any arguments whose handler fails with a
`RuntimeError`. -/
def failingCommand : CommandDef :=
  { CheckArgs := fun _ => true
    Syntax := "NOOP"
    RequiredState := ClientState.AnyState
    FailCode := 500
    Create := fun _ _ => some (fun c => Result.threw (Exn.RuntimeError "failed") c) }

/-- A descriptor like the one of `PASS`: it requires `WaitingPassword`, and its
handler logs the user in while the login counter answers `PersonalFail`. -/
def refusedLogin : CommandDef :=
  { CheckArgs := fun args => args.length = 2
    Syntax := "PASS <password>"
    RequiredState := ClientState.WaitingPassword
    FailCode := 530
    Create := fun _ _ =>
      some (fun c => SetLoggedIn c false CounterResult.PersonalFail 0 0) }

theorem emit_state (c : ClientImpl) (e : Effect) : (c.emit e).state = c.state := rfl

theorem emit_user (c : ClientImpl) (e : Effect) : (c.emit e).user = c.user := rfl

theorem emit_trace (c : ClientImpl) (e : Effect) : (c.emit e).trace = c.trace ++ [e] := rfl

theorem loginStarts_append (t l : List Effect) :
    loginStarts (t ++ l) = loginStarts t + loginStarts l := by
  simp [loginStarts, List.countP_append]

theorem loginStarts_cons (e : Effect) (l : List Effect) :
    loginStarts (e :: l) = loginStarts l + (if e.isLoginStart then 1 else 0) := by
  simp [loginStarts, List.countP_cons]

theorem loginStops_append (t l : List Effect) :
    loginStops (t ++ l) = loginStops t + loginStops l := by
  simp [loginStops, List.countP_append]

theorem loginStops_cons (e : Effect) (l : List Effect) :
    loginStops (e :: l) = loginStops l + (if e.isLoginStop then 1 else 0) := by
  simp [loginStops, List.countP_cons]

theorem logoutEvents_append (t l : List Effect) :
    logoutEvents (t ++ l) = logoutEvents t + logoutEvents l := by
  simp [logoutEvents, List.countP_append]

theorem logoutEvents_cons (e : Effect) (l : List Effect) :
    logoutEvents (e :: l) = logoutEvents l + (if e.isLogout then 1 else 0) := by
  simp [logoutEvents, List.countP_cons]

theorem counts_nil : loginStarts [] = 0 ∧ loginStartsOkay [] = 0 ∧ loginStops [] = 0 ∧
    logoutEvents [] = 0 := by
  simp [loginStarts, loginStartsOkay, loginStops, logoutEvents]

/-- Setting `Finished` on a session that is not `LoggedIn` only stores the state. -/
theorem SetState_Finished_of_ne (c : ClientImpl) (h : c.state ≠ ClientState.LoggedIn) :
    SetState c ClientState.Finished =
      Result.ok () { c with state := ClientState.Finished } := by
  simp [SetState, h]

/-- Setting `Finished` on a `LoggedIn` session with a bound user stops the
login counter and logs `LOGOUT`. -/
theorem SetState_Finished_of_LoggedIn (c : ClientImpl) (u : User)
    (h : c.state = ClientState.LoggedIn) (hu : c.user = some u) :
    SetState c ClientState.Finished =
      Result.ok () (({ c with state := ClientState.Finished }.emit
        (Effect.LoginStop u.ID)).emit (Effect.Event "LOGOUT"
          (eventFields { c with state := ClientState.Finished } u "ident_address"))) := by
  simp [SetState, h, hu]

/-- The worker of `Split` always yields a token. -/
theorem Split.go_ne_nil (delims : List Char) (tokenCompress : Bool) (s cur : List Char)
    (inRun : Bool) : Split.go delims tokenCompress s cur inRun ≠ [] := by
  induction s generalizing cur inRun with
  | nil => simp [Split.go]
  | cons ch rest ih =>
    unfold Split.go
    split_ifs
    · exact ih cur true
    · simp
    · exact ih (ch :: cur) false

/-- There is always a first token: `Split` never returns an empty vector. -/
theorem Split_ne_nil (s delims : String) (tokenCompress : Bool) :
    Split s delims tokenCompress ≠ [] :=
  Split.go_ne_nil _ _ _ _ _

/-- What `CheckState` can do: pass and leave the session alone, abort on a
`Finished` session, or return false after at most one reply. -/
theorem CheckState_cases (c : ClientImpl) (reqdState : ClientState) :
    CheckState c reqdState = Result.ok true c ∨
    (CheckState c reqdState = Result.aborted ∧ c.state = ClientState.Finished) ∨
    ∃ replies, CheckState c reqdState = Result.ok false { c with trace := c.trace ++ replies } ∧
      replies.length ≤ 1 ∧ ∀ e ∈ replies, ∃ code message, e = Effect.Reply code message := by
  obtain ⟨user, uu, state, pa, kl, ito, it, ie, lia, ident, ip, hn, cc, cfc, tls, trace⟩ := c
  cases state <;> cases reqdState <;> cases tls <;>
    simp [CheckState, ClientImpl.emit]

/-- The check does not look at `currentCommand`. -/
theorem CheckState_currentCommand (c : ClientImpl) (reqdState : ClientState) (text : String) :
    CheckState { c with currentCommand := text } reqdState =
      match CheckState c reqdState with
      | Result.ok b c1 => Result.ok b { c1 with currentCommand := text }
      | Result.threw e c1 => Result.threw e { c1 with currentCommand := text }
      | Result.aborted => Result.aborted := by
  obtain ⟨user, uu, state, pa, kl, ito, it, ie, lia, ident, ip, hn, cc, cfc, tls, trace⟩ := c
  cases state <;> cases reqdState <;> cases tls <;>
    simp [CheckState, ClientImpl.emit]

/-- When the checks pass and the handler is created, `ExecuteCommand` is the
guarded execution of the handler on a session that has `currentCommand` set,
after the PRE cscript (for a `LoggedIn` session) and the creation. -/
theorem ExecuteCommand_reaches_run (env : Env) (c : ClientImpl) (commandLine arg0 : String)
    (rest : List String) (d : CommandDef) (command : ClientImpl → Result Unit)
    (hsplit : Split commandLine " " true = arg0 :: rest)
    (hdef : env.Lookup (ToUpper arg0) = some d)
    (hargs : d.CheckArgs (ToUpper arg0 :: rest) = true)
    (hstate : CheckState c d.RequiredState = Result.ok true c)
    (hpre : c.state ≠ ClientState.LoggedIn ∨
      env.Cscripts (ToUpper arg0)
        (commandText (ToUpper arg0) (Trim (substr commandLine arg0.length)))
        CscriptType.PRE d.FailCode = true)
    (hcreate : d.Create (Trim (substr commandLine arg0.length)) (ToUpper arg0 :: rest)
      = some command) :
    ExecuteCommand env c commandLine =
      ExecuteCommand.run env d (ToUpper arg0) commandLine command
        (ExecuteCommand.beforeHandler c d (ToUpper arg0)
          (Trim (substr commandLine arg0.length)) (ToUpper arg0 :: rest)) := by
  unfold ExecuteCommand ExecuteCommand.beforeHandler
  simp only [hsplit, hdef, hargs, CheckState_currentCommand, hstate]
  by_cases hl : c.state = ClientState.LoggedIn
  · rcases hpre with hpre | hpre
    · exact absurd hl hpre
    · simp [hl, hpre, hcreate]
  · simp [hl, hcreate]

/-- The handler runs on a session that holds the command text. -/
theorem ExecuteCommand.beforeHandler_currentCommand (c : ClientImpl) (d : CommandDef)
    (verb argStr : String) (args : List String) :
    (ExecuteCommand.beforeHandler c d verb argStr args).currentCommand
      = commandText verb argStr := by
  unfold ExecuteCommand.beforeHandler
  split_ifs <;> rfl

/-- The last statement of `ExecuteCommand` leaves `currentCommand` empty. -/
theorem ExecuteCommand.done_currentCommand (c c1 : ClientImpl)
    (h : ExecuteCommand.done c = Result.ok () c1) : c1.currentCommand = "" := by
  simp only [ExecuteCommand.done, Result.ok.injEq, true_and] at h
  rw [← h]

/-- When the guarded execution of a handler returns normally, `currentCommand`
is empty. -/
theorem ExecuteCommand.run_ok_currentCommand (env : Env) (d : CommandDef)
    (verb commandLine : String) (command : ClientImpl → Result Unit) (c c1 : ClientImpl)
    (h : ExecuteCommand.run env d verb commandLine command c = Result.ok () c1) :
    c1.currentCommand = "" := by
  unfold ExecuteCommand.run at h
  split at h
  · cases h
  · exact ExecuteCommand.done_currentCommand _ _ h
  · exact ExecuteCommand.done_currentCommand _ _ h
  · exact ExecuteCommand.done_currentCommand _ _ h
  · cases h

/-- When `ExecuteCommand` returns normally, `currentCommand` is empty. -/
theorem ExecuteCommand_ok_currentCommand (env : Env) (c : ClientImpl) (commandLine : String)
    (c1 : ClientImpl) (h : ExecuteCommand env c commandLine = Result.ok () c1) :
    c1.currentCommand = "" := by
  unfold ExecuteCommand at h
  split at h
  · cases h
  · dsimp only at h
    split at h
    · exact ExecuteCommand.done_currentCommand _ _ h
    · split_ifs at h
      · exact ExecuteCommand.done_currentCommand _ _ h
      · split at h
        · cases h
        · cases h
        · exact ExecuteCommand.done_currentCommand _ _ h
        · split_ifs at h
          all_goals first
            | exact ExecuteCommand.done_currentCommand _ _ h
            | (split at h
               · exact ExecuteCommand.done_currentCommand _ _ h
               · exact ExecuteCommand.run_ok_currentCommand _ _ _ _ _ _ _ h)

/-- One operation that keeps `Finished` returns, and leaves the state, the
user and the numbers of counter stops and `LOGOUT` events as they were. -/
theorem apply_keepsFinished (env : Env) (c : ClientImpl) (op : Op)
    (hfin : c.state = ClientState.Finished)
    (hop : op.keepsFinished c.user.isSome = true) :
    ∃ c1, (op.apply env c).client = some c1 ∧ c1.state = ClientState.Finished ∧
      c1.user = c.user ∧ loginStops c1.trace = loginStops c.trace ∧
      logoutEvents c1.trace = logoutEvents c.trace := by
  have hne : c.state ≠ ClientState.LoggedIn := by simp [hfin]
  cases op with
  | SetState state =>
    have hs : state = ClientState.Finished := by simpa [Op.keepsFinished] using hop
    subst hs
    refine ⟨{ c with state := ClientState.Finished }, ?_, rfl, rfl, rfl, rfl⟩
    simp [Op.apply, SetState_Finished_of_ne c hne, Result.client]
  | SetWaitingPassword user kickLogin => simp [Op.keepsFinished] at hop
  | SetLoggedIn kicked result =>
    simp only [Op.keepsFinished, Bool.and_eq_true, decide_eq_true_eq] at hop
    obtain ⟨hr, hu⟩ := hop
    obtain ⟨u, hu⟩ := Option.isSome_iff_exists.mp hu
    cases result with
    | Okay => exact absurd rfl hr
    | PersonalFail =>
      refine ⟨c.emit (Effect.LoginStart u.ID u.NumLogins kicked u.Exempt
        CounterResult.PersonalFail), ?_, hfin, rfl, ?_, ?_⟩
      · simp [Op.apply, SetLoggedIn, hu, Result.client]
      · simp [emit_trace, loginStops_append, loginStops_cons, counts_nil, Effect.isLoginStop]
      · simp [emit_trace, logoutEvents_append, logoutEvents_cons, counts_nil, Effect.isLogout]
    | GlobalFail =>
      refine ⟨c.emit (Effect.LoginStart u.ID u.NumLogins kicked u.Exempt
        CounterResult.GlobalFail), ?_, hfin, rfl, ?_, ?_⟩
      · simp [Op.apply, SetLoggedIn, hu, Result.client]
      · simp [emit_trace, loginStops_append, loginStops_cons, counts_nil, Effect.isLoginStop]
      · simp [emit_trace, logoutEvents_append, logoutEvents_cons, counts_nil, Effect.isLogout]
  | Interrupt =>
    refine ⟨((((({ c with state := ClientState.Finished } : ClientImpl).emit
      Effect.ThreadStop).emit Effect.ControlInterrupt).emit Effect.DataInterrupt).emit
      Effect.ChildInterrupt).emit Effect.KillSIGUSR1, ?_, rfl, rfl, ?_, ?_⟩
    · simp only [Op.apply, ftp.Interrupt, SetState_Finished_of_ne c hne, Result.client]
    · simp [emit_trace, loginStops_append, loginStops_cons, counts_nil, Effect.isLoginStop]
    · simp [emit_trace, logoutEvents_append, logoutEvents_cons, counts_nil, Effect.isLogout]

/-- A sequence of operations that keep `Finished` runs to its end on a
`Finished` session, without a counter stop or a `LOGOUT` event. -/
theorem runOps_keepsFinished (env : Env) (c : ClientImpl) (ops : List Op)
    (hfin : c.state = ClientState.Finished)
    (hops : ∀ op ∈ ops, op.keepsFinished c.user.isSome = true) :
    ∃ c1, runOps env c ops = some c1 ∧ c1.state = ClientState.Finished ∧
      loginStops c1.trace = loginStops c.trace ∧
      logoutEvents c1.trace = logoutEvents c.trace := by
  induction ops generalizing c with
  | nil => exact ⟨c, rfl, hfin, rfl, rfl⟩
  | cons op ops ih =>
    obtain ⟨c1, h1, hs, hu, hst, hlo⟩ :=
      apply_keepsFinished env c op hfin (hops op (List.mem_cons_self _ _))
    have hrest : ∀ o ∈ ops, o.keepsFinished c1.user.isSome = true := by
      intro o ho
      rw [hu]
      exact hops o (List.mem_cons_of_mem _ ho)
    obtain ⟨c2, h2, hs2, hst2, hlo2⟩ := ih c1 hs hrest
    exact ⟨c2, by simp [runOps, h1, h2], hs2, hst2.trans hst, hlo2.trans hlo⟩

/-- What `PreCheckAddress` returns: it refuses exactly the sessions whose IP is
not allowed and whose hostname differs from the IP and is not allowed. -/
theorem PreCheckAddress_value (env : Env) (c : ClientImpl) :
    (PreCheckAddress env c).value =
      some (env.IPAllowed c.ip || c.ip == c.hostname || env.IPAllowed c.hostname) := by
  unfold PreCheckAddress
  cases env.IPAllowed c.ip <;> cases env.IPAllowed c.hostname <;>
    by_cases h : c.ip = c.hostname <;> simp [h, Result.value]

/-! ## Session state machine -/

/-- C1 (as stated, refuted): from a `Finished` session, `SetWaitingPassword`
leads to `WaitingPassword`, `SetState(LoggedOut)` to `LoggedOut` and an
admitted `SetLoggedIn` to `LoggedIn`. -/
theorem Finished_left_by_setters :
    (runOps {} {} [Op.SetState ClientState.Finished]).map (fun c => c.state)
      = some ClientState.Finished ∧
    (runOps {} {} [Op.SetState ClientState.Finished,
        Op.SetWaitingPassword {} false]).map (fun c => c.state)
      = some ClientState.WaitingPassword ∧
    (runOps {} {} [Op.SetState ClientState.Finished,
        Op.SetState ClientState.LoggedOut]).map (fun c => c.state)
      = some ClientState.LoggedOut ∧
    (runOps {} { user := some {} } [Op.SetState ClientState.Finished,
        Op.SetLoggedIn false CounterResult.Okay]).map (fun c => c.state)
      = some ClientState.LoggedIn := by
  decide

/-- C1 (amended): once the session is `Finished`, every sequence made of
`Interrupt`, `SetState(Finished)` and `SetLoggedIn` calls that the login
counter refuses runs to its end and leaves the session `Finished`. The other
operations store their state whatever the state before, `Finished` included:
`SetWaitingPassword` returns with the session in `WaitingPassword`, a
`SetLoggedIn` that the counter admits returns with the session in `LoggedIn`
(it needs a bound user), and `SetState` with a state other than `Finished`
that its assertions let pass returns with the session in that state. -/
theorem Finished_kept_by_teardown (env : Env) :
    (∀ (c : ClientImpl) (ops : List Op), c.state = ClientState.Finished →
      (∀ op ∈ ops, op.keepsFinished c.user.isSome = true) →
      ∃ c1, runOps env c ops = some c1 ∧ c1.state = ClientState.Finished) ∧
    (∀ (c : ClientImpl) (user : User) (kickLogin : Bool),
      ∃ c1, SetWaitingPassword c user kickLogin = Result.ok () c1 ∧
        c1.state = ClientState.WaitingPassword ∧
        runOps env c [Op.SetWaitingPassword user kickLogin] = some c1) ∧
    (∀ (c : ClientImpl) (u : User) (kicked : Bool), c.user = some u →
      ∃ c1, SetLoggedIn c kicked CounterResult.Okay env.cfgIdleTimeout env.now
          = Result.ok () c1 ∧
        c1.state = ClientState.LoggedIn ∧
        runOps env c [Op.SetLoggedIn kicked CounterResult.Okay] = some c1) ∧
    (∀ (c : ClientImpl) (state : ClientState), state ≠ ClientState.LoggedIn →
      state ≠ ClientState.WaitingPassword → state ≠ ClientState.Finished →
      ∃ c1, SetState c state = Result.ok () c1 ∧ c1.state = state ∧
        runOps env c [Op.SetState state] = some c1) := by
  refine ⟨fun c ops hfin hops => ?_, fun c user kickLogin => ?_, fun c u kicked hu => ?_,
    fun c state h1 h2 h3 => ?_⟩
  · obtain ⟨c1, hr, hs, _⟩ := runOps_keepsFinished env c ops hfin hops
    exact ⟨c1, hr, hs⟩
  · exact ⟨_, rfl, rfl, rfl⟩
  · have hrun : ∃ c1, SetLoggedIn c kicked CounterResult.Okay env.cfgIdleTimeout env.now
        = Result.ok () c1 ∧ c1.state = ClientState.LoggedIn := by
      unfold SetLoggedIn
      rw [hu]
      exact ⟨_, rfl, rfl⟩
    obtain ⟨c1, hc1, hs⟩ := hrun
    exact ⟨c1, hc1, hs, by simp [runOps, Op.apply, hc1, Result.client]⟩
  · have hrun : SetState c state = Result.ok () { c with state := state } := by
      unfold SetState
      rw [if_neg h1, if_neg h2]
      simp [h3]
    exact ⟨_, hrun, rfl, by simp [runOps, Op.apply, hrun, Result.client]⟩

/-- C1 (amended), at a concrete session: a `Finished` session with a bound
user stays `Finished` through an interrupt, a refused login and the teardown. -/
theorem Finished_kept_by_teardown_witness :
    ∃ c1, runOps {} { state := ClientState.Finished, user := some {} }
        [Op.Interrupt, Op.SetLoggedIn false CounterResult.GlobalFail,
         Op.SetState ClientState.Finished] = some c1 ∧
      c1.state = ClientState.Finished :=
  (Finished_kept_by_teardown {}).1 { state := ClientState.Finished, user := some {} }
    [Op.Interrupt, Op.SetLoggedIn false CounterResult.GlobalFail,
     Op.SetState ClientState.Finished] rfl (by decide)

/-- C3: on a session whose user is bound when it is `LoggedIn`,
`SetState(Finished)` returns with the session `Finished`; it calls
`Login.Stop` once and logs `LOGOUT` once when the state before was `LoggedIn`,
and has no effect on the collaborators otherwise. After it, every sequence of
further `SetState(Finished)` and `Interrupt` calls completes without another
`Login.Stop` or `LOGOUT`. -/
theorem SetState_Finished_logout_once (env : Env) (c : ClientImpl)
    (hu : c.state = ClientState.LoggedIn → c.user.isSome = true) :
    ∃ c1, SetState c ClientState.Finished = Result.ok () c1 ∧
      c1.state = ClientState.Finished ∧
      (c.state = ClientState.LoggedIn ↔ loginStops c1.trace = loginStops c.trace + 1) ∧
      (c.state = ClientState.LoggedIn ↔ logoutEvents c1.trace = logoutEvents c.trace + 1) ∧
      (c.state ≠ ClientState.LoggedIn → c1.trace = c.trace) ∧
      ∀ ops : List Op,
        (∀ op ∈ ops, op = Op.SetState ClientState.Finished ∨ op = Op.Interrupt) →
        ∃ c2, runOps env c1 ops = some c2 ∧ c2.state = ClientState.Finished ∧
          loginStops c2.trace = loginStops c1.trace ∧
          logoutEvents c2.trace = logoutEvents c1.trace := by
  have later : ∀ c1 : ClientImpl, c1.state = ClientState.Finished → ∀ ops : List Op,
      (∀ op ∈ ops, op = Op.SetState ClientState.Finished ∨ op = Op.Interrupt) →
      ∃ c2, runOps env c1 ops = some c2 ∧ c2.state = ClientState.Finished ∧
        loginStops c2.trace = loginStops c1.trace ∧
        logoutEvents c2.trace = logoutEvents c1.trace := by
    intro c1 hfin ops hops
    apply runOps_keepsFinished env c1 ops hfin
    intro op hop
    rcases hops op hop with h | h <;> subst h <;> simp [Op.keepsFinished]
  by_cases hs : c.state = ClientState.LoggedIn
  · obtain ⟨u, hcu⟩ := Option.isSome_iff_exists.mp (hu hs)
    refine ⟨_, SetState_Finished_of_LoggedIn c u hs hcu, rfl, ?_, ?_, ?_, later _ rfl⟩
    · simp [hs, emit_trace, loginStops_append, loginStops_cons, counts_nil,
        Effect.isLoginStop]
    · simp [hs, emit_trace, logoutEvents_append, logoutEvents_cons, counts_nil,
        Effect.isLogout]
    · intro h
      exact absurd hs h
  · refine ⟨_, SetState_Finished_of_ne c hs, rfl, ?_, ?_, ?_, later _ rfl⟩
    · simp [hs]
    · simp [hs]
    · intro _
      rfl

/-- C3, at concrete sessions: the teardown of a `LoggedIn` session on which a
second `SetState(Finished)` and two interrupts follow. -/
theorem SetState_Finished_logout_once_witness :
    ∃ c1, SetState { state := ClientState.LoggedIn, user := some {} } ClientState.Finished
        = Result.ok () c1 ∧
      c1.state = ClientState.Finished ∧
      ((({ state := ClientState.LoggedIn, user := some {} } : ClientImpl).state
          = ClientState.LoggedIn ↔
        loginStops c1.trace = loginStops
          ({ state := ClientState.LoggedIn, user := some {} } : ClientImpl).trace + 1)) ∧
      ((({ state := ClientState.LoggedIn, user := some {} } : ClientImpl).state
          = ClientState.LoggedIn ↔
        logoutEvents c1.trace = logoutEvents
          ({ state := ClientState.LoggedIn, user := some {} } : ClientImpl).trace + 1)) ∧
      ((({ state := ClientState.LoggedIn, user := some {} } : ClientImpl).state
          ≠ ClientState.LoggedIn →
        c1.trace = ({ state := ClientState.LoggedIn, user := some {} } : ClientImpl).trace)) ∧
      ∀ ops : List Op,
        (∀ op ∈ ops, op = Op.SetState ClientState.Finished ∨ op = Op.Interrupt) →
        ∃ c2, runOps {} c1 ops = some c2 ∧ c2.state = ClientState.Finished ∧
          loginStops c2.trace = loginStops c1.trace ∧
          logoutEvents c2.trace = logoutEvents c1.trace :=
  SetState_Finished_logout_once {} { state := ClientState.LoggedIn, user := some {} }
    (fun _ => rfl)

/-! ## Required-state check -/

/-- C4 (as stated, refuted): with TLS active on the control channel,
`CheckState(NotBeforeAuth)` returns false with `530 Already logged in.` on a
`LoggedIn` session and with `503 Expecting PASS comamnd.` on a
`WaitingPassword` session. -/
theorem CheckState_NotBeforeAuth_refused_with_TLS :
    CheckState { state := ClientState.LoggedIn, controlTLS := true }
        ClientState.NotBeforeAuth
      = Result.ok false (({ state := ClientState.LoggedIn, controlTLS := true } :
          ClientImpl).emit (Effect.Reply 530 "Already logged in.")) ∧
    CheckState { state := ClientState.WaitingPassword, controlTLS := true }
        ClientState.NotBeforeAuth
      = Result.ok false (({ state := ClientState.WaitingPassword, controlTLS := true } :
          ClientImpl).emit (Effect.Reply 503 "Expecting PASS comamnd.")) := by
  decide

/-- C4 (amended): in state `LoggedOut`, `CheckState(NotBeforeAuth)` returns
true without replying when the control channel is TLS-wrapped and otherwise
returns false after replying 503 `AUTH command must be issued first.`; in
state `WaitingPassword` it replies 503 `Expecting PASS comamnd.` and in state
`LoggedIn` 530 `Already logged in.`, and returns false, with or without TLS. -/
theorem CheckState_NotBeforeAuth (c : ClientImpl)
    (hs : c.state = ClientState.LoggedOut ∨ c.state = ClientState.WaitingPassword ∨
      c.state = ClientState.LoggedIn) :
    CheckState c ClientState.NotBeforeAuth =
      match c.state with
      | ClientState.LoggedIn =>
        Result.ok false (c.emit (Effect.Reply 530 "Already logged in."))
      | ClientState.WaitingPassword =>
        Result.ok false (c.emit (Effect.Reply 503 "Expecting PASS comamnd."))
      | _ =>
        if c.controlTLS = true then Result.ok true c
        else Result.ok false (c.emit (Effect.Reply 503 "AUTH command must be issued first.")) := by
  rcases hs with h | h | h
  · cases htls : c.controlTLS <;>
      simp [CheckState, h, htls, NotLoggedIn, BadCommandSequence, emit_state]
  · simp [CheckState, h, NotLoggedIn, BadCommandSequence, emit_state]
  · simp [CheckState, h, NotLoggedIn, BadCommandSequence, emit_state]

/-- C4 (amended), at a concrete session: a new session on a TLS-wrapped
control channel passes the check without a reply. -/
theorem CheckState_NotBeforeAuth_witness :
    CheckState { controlTLS := true } ClientState.NotBeforeAuth
      = Result.ok true { controlTLS := true } :=
  CheckState_NotBeforeAuth { controlTLS := true } (Or.inl rfl)

/-- C6: in state `WaitingPassword`, `CheckState` returns true, without a
reply, exactly for the required states `WaitingPassword` and `AnyState`; for
every other required state, `NotBeforeAuth` on a TLS-wrapped channel included,
it replies 503 and returns false. -/
theorem CheckState_WaitingPassword (c : ClientImpl) (reqdState : ClientState)
    (hs : c.state = ClientState.WaitingPassword) :
    CheckState c reqdState =
      if reqdState = ClientState.WaitingPassword ∨ reqdState = ClientState.AnyState then
        Result.ok true c
      else Result.ok false (c.emit (Effect.Reply 503 "Expecting PASS comamnd.")) := by
  cases reqdState <;> simp [CheckState, hs, BadCommandSequence, emit_state]

/-- C6, at a concrete session: `NotBeforeAuth` on a TLS-wrapped channel is
refused with 503 while the password is awaited. -/
theorem CheckState_WaitingPassword_witness :
    CheckState { state := ClientState.WaitingPassword, controlTLS := true }
        ClientState.NotBeforeAuth
      = Result.ok false (({ state := ClientState.WaitingPassword, controlTLS := true } :
          ClientImpl).emit (Effect.Reply 503 "Expecting PASS comamnd.")) :=
  CheckState_WaitingPassword { state := ClientState.WaitingPassword, controlTLS := true }
    ClientState.NotBeforeAuth rfl

/-- C7: in each of the states `LoggedOut`, `WaitingPassword` and `LoggedIn`
and for every required state, `CheckState` returns. It returns true, with the
session untouched and so without a reply, exactly when the state is the
required one, the requirement is `AnyState`, or the session is `LoggedOut`,
the requirement `NotBeforeAuth` and the channel under TLS. In every other case
it returns false and has sent exactly one reply, nothing else being changed:
530 `Already logged in.` when the session is `LoggedIn`, 503 when it is
`WaitingPassword`, and for a `LoggedOut` session 503 when the command requires
`WaitingPassword` (`PASS` before `USER`) or `NotBeforeAuth`, and 530
`Not logged in.` otherwise, so when it requires `LoggedIn`. -/
theorem CheckState_replies (c : ClientImpl) (reqdState : ClientState)
    (hs : c.state = ClientState.LoggedOut ∨ c.state = ClientState.WaitingPassword ∨
      c.state = ClientState.LoggedIn) :
    CheckState c reqdState =
      (if c.state = reqdState ∨ reqdState = ClientState.AnyState ∨
          (c.state = ClientState.LoggedOut ∧ reqdState = ClientState.NotBeforeAuth ∧
            c.controlTLS = true) then
        Result.ok true c
      else if c.state = ClientState.LoggedIn then
        Result.ok false (c.emit (Effect.Reply 530 "Already logged in."))
      else if c.state = ClientState.WaitingPassword then
        Result.ok false (c.emit (Effect.Reply 503 "Expecting PASS comamnd."))
      else if reqdState = ClientState.WaitingPassword then
        Result.ok false (c.emit (Effect.Reply 503 "Expecting USER command first."))
      else if reqdState = ClientState.NotBeforeAuth then
        Result.ok false (c.emit (Effect.Reply 503 "AUTH command must be issued first."))
      else Result.ok false (c.emit (Effect.Reply 530 "Not logged in."))) ∧
    (∃ (value : Bool) (c1 : ClientImpl), CheckState c reqdState = Result.ok value c1 ∧
      (value = true → c1 = c) ∧
      (value = false → ∃ code message, c1 = c.emit (Effect.Reply code message) ∧
        c1.trace = c.trace ++ [Effect.Reply code message] ∧
        (c.state = ClientState.LoggedIn → code = 530) ∧
        (c.state = ClientState.WaitingPassword → code = 503) ∧
        (c.state = ClientState.LoggedOut → reqdState = ClientState.WaitingPassword →
          code = 503) ∧
        (c.state = ClientState.LoggedOut → reqdState = ClientState.LoggedIn →
          code = 530))) ∧
    (c.state = ClientState.LoggedIn → reqdState ≠ ClientState.LoggedIn →
      reqdState ≠ ClientState.AnyState → (CheckState c reqdState).value = some false) ∧
    (c.state = ClientState.WaitingPassword → reqdState ≠ ClientState.WaitingPassword →
      reqdState ≠ ClientState.AnyState → (CheckState c reqdState).value = some false) ∧
    (c.state = ClientState.LoggedOut →
      reqdState = ClientState.WaitingPassword ∨ reqdState = ClientState.LoggedIn →
      (CheckState c reqdState).value = some false) := by
  have key : CheckState c reqdState =
      (if c.state = reqdState ∨ reqdState = ClientState.AnyState ∨
          (c.state = ClientState.LoggedOut ∧ reqdState = ClientState.NotBeforeAuth ∧
            c.controlTLS = true) then
        Result.ok true c
      else if c.state = ClientState.LoggedIn then
        Result.ok false (c.emit (Effect.Reply 530 "Already logged in."))
      else if c.state = ClientState.WaitingPassword then
        Result.ok false (c.emit (Effect.Reply 503 "Expecting PASS comamnd."))
      else if reqdState = ClientState.WaitingPassword then
        Result.ok false (c.emit (Effect.Reply 503 "Expecting USER command first."))
      else if reqdState = ClientState.NotBeforeAuth then
        Result.ok false (c.emit (Effect.Reply 503 "AUTH command must be issued first."))
      else Result.ok false (c.emit (Effect.Reply 530 "Not logged in."))) := by
    rcases hs with h | h | h <;> cases reqdState <;> cases htls : c.controlTLS <;>
      simp [CheckState, h, htls, NotLoggedIn, BadCommandSequence, emit_state]
  refine ⟨key, ?_, ?_, ?_, ?_⟩
  · rw [key]
    rcases hs with h | h | h <;> cases reqdState <;> cases htls : c.controlTLS <;>
      simp [h, htls, emit_trace]
    all_goals exact ⟨_, _, rfl, by simp⟩
  · intro h h1 h2
    rw [key]
    cases reqdState <;> simp_all [Result.value]
  · intro h h1 h2
    rw [key]
    cases reqdState <;> simp_all [Result.value]
  · intro h h1
    rw [key]
    rcases h1 with h1 | h1 <;> simp [h, h1, Result.value]

/-- C7, at a concrete session: `PASS` before `USER`, a command that requires
`WaitingPassword` on a `LoggedOut` session, is refused with the one reply
503. -/
theorem CheckState_replies_witness :
    CheckState {} ClientState.WaitingPassword
      = Result.ok false (({} : ClientImpl).emit
          (Effect.Reply 503 "Expecting USER command first.")) :=
  (CheckState_replies {} ClientState.WaitingPassword (Or.inl rfl)).1.trans (by decide)

/-! ## Command dispatch -/

/-- C5: when the descriptor of the command line fails `CheckState`,
`ExecuteCommand` either aborts with the failed assertion of a `Finished`
session, or returns normally having sent at most one reply and cleared
`currentCommand`, and nothing else: the trace gains no PRE or POST cscript,
no handler creation and no handler execution, and `idleTime` and
`idleExpires` are unchanged. -/
theorem ExecuteCommand_state_not_met (env : Env) (c : ClientImpl)
    (commandLine arg0 : String) (rest : List String) (d : CommandDef)
    (hsplit : Split commandLine " " true = arg0 :: rest)
    (hdef : env.Lookup (ToUpper arg0) = some d)
    (hfail : (CheckState c d.RequiredState).value ≠ some true) :
    (ExecuteCommand env c commandLine = Result.aborted ∧ c.state = ClientState.Finished) ∨
    ∃ c1 replies, ExecuteCommand env c commandLine = Result.ok () c1 ∧
      c1 = { c with currentCommand := "", trace := c.trace ++ replies } ∧
      replies.length ≤ 1 ∧
      (∀ e ∈ replies, ∃ code message, e = Effect.Reply code message) ∧
      c1.idleTime = c.idleTime ∧ c1.idleExpires = c.idleExpires := by
  unfold ExecuteCommand
  simp only [hsplit, hdef]
  by_cases ha : d.CheckArgs (ToUpper arg0 :: rest) = true
  · simp only [ha, Bool.not_true, Bool.false_eq_true, if_false, CheckState_currentCommand]
    rcases CheckState_cases c d.RequiredState with h | ⟨h, hf⟩ | ⟨replies, h, hl, hr⟩
    · rw [h] at hfail
      exact absurd rfl hfail
    · left
      rw [h]
      exact ⟨rfl, hf⟩
    · right
      rw [h]
      exact ⟨_, replies, rfl, rfl, hl, hr, rfl, rfl⟩
  · right
    simp only [ha, Bool.not_false, if_true]
    exact ⟨_, [Effect.Reply SyntaxErrorCode ("Syntax: " ++ d.Syntax)], rfl, rfl, by simp,
      by simp, rfl, rfl⟩

/-- C5, at a concrete session: `PASS secret` before `USER` is answered with one
reply and nothing is run. -/
theorem ExecuteCommand_state_not_met_witness :
    (ExecuteCommand { Lookup := fun _ => some refusedLogin } {} "pass secret"
        = Result.aborted ∧ ({} : ClientImpl).state = ClientState.Finished) ∨
    ∃ c1 replies, ExecuteCommand { Lookup := fun _ => some refusedLogin } {} "pass secret"
        = Result.ok () c1 ∧
      c1 = { ({} : ClientImpl) with currentCommand := "",
                                    trace := ({} : ClientImpl).trace ++ replies } ∧
      replies.length ≤ 1 ∧
      (∀ e ∈ replies, ∃ code message, e = Effect.Reply code message) ∧
      c1.idleTime = ({} : ClientImpl).idleTime ∧
      c1.idleExpires = ({} : ClientImpl).idleExpires :=
  ExecuteCommand_state_not_met { Lookup := fun _ => some refusedLogin } {} "pass secret"
    "pass" ["secret"] refusedLogin (by decide) rfl (by decide)

/-- C8 (as stated, refuted): the handler of `noop x` fails with a
`RuntimeError`; the exception leaves `ExecuteCommand` and `currentCommand`
still holds `NOOP x`. -/
theorem currentCommand_kept_on_exception :
    ExecuteCommand { Lookup := fun _ => some failingCommand } {} "noop x"
      = Result.threw (Exn.RuntimeError "failed")
          ((({ currentCommand := "NOOP x" } : ClientImpl).emit
            (Effect.Create "x" ["NOOP", "x"])).emit Effect.Execute) := by
  decide

/-- C8 (amended): `ExecuteCommand` stores the upper-cased verb, followed by a
space and the trimmed argument string when that is not empty, in
`currentCommand` before dispatch: a handler that is reached is executed on a
session that holds this text. Whenever `ExecuteCommand` returns normally,
`currentCommand` is empty again; that includes a handler that returns and a
handler that raises `SyntaxError` or `NoPostScriptError`. -/
theorem ExecuteCommand_currentCommand (env : Env) (c : ClientImpl)
    (commandLine arg0 verb argStr : String) (rest : List String)
    (hsplit : Split commandLine " " true = arg0 :: rest)
    (hverb : verb = ToUpper arg0)
    (hargStr : argStr = Trim (substr commandLine arg0.length)) :
    (∀ c1, ExecuteCommand env c commandLine = Result.ok () c1 → c1.currentCommand = "") ∧
    (∀ d command,
      env.Lookup verb = some d →
      d.CheckArgs (verb :: rest) = true →
      CheckState c d.RequiredState = Result.ok true c →
      (c.state ≠ ClientState.LoggedIn ∨
        env.Cscripts verb (commandText verb argStr) CscriptType.PRE d.FailCode = true) →
      d.Create argStr (verb :: rest) = some command →
      (ExecuteCommand.beforeHandler c d verb argStr (verb :: rest)).currentCommand
        = (if argStr = "" then verb else verb ++ (" " ++ argStr)) ∧
      ExecuteCommand env c commandLine
        = ExecuteCommand.run env d verb commandLine command
            (ExecuteCommand.beforeHandler c d verb argStr (verb :: rest)) ∧
      ∀ c2,
        (command ((ExecuteCommand.beforeHandler c d verb argStr (verb :: rest)).emit
            Effect.Execute) = Result.ok () c2 ∨
         command ((ExecuteCommand.beforeHandler c d verb argStr (verb :: rest)).emit
            Effect.Execute) = Result.threw Exn.SyntaxError c2 ∨
         command ((ExecuteCommand.beforeHandler c d verb argStr (verb :: rest)).emit
            Effect.Execute) = Result.threw Exn.NoPostScriptError c2) →
        ∃ c3, ExecuteCommand env c commandLine = Result.ok () c3 ∧
          c3.currentCommand = "") := by
  subst hverb hargStr
  refine ⟨fun c1 h => ExecuteCommand_ok_currentCommand env c commandLine c1 h, ?_⟩
  intro d command hdef hargs hstate hpre hcreate
  have hrun := ExecuteCommand_reaches_run env c commandLine arg0 rest d command hsplit hdef
    hargs hstate hpre hcreate
  refine ⟨ExecuteCommand.beforeHandler_currentCommand _ _ _ _ _, hrun, ?_⟩
  intro c2 h2
  rw [hrun]
  unfold ExecuteCommand.run
  rcases h2 with h2 | h2 | h2 <;> rw [h2] <;> exact ⟨_, rfl, rfl⟩

/-- C8 (amended), at a concrete session: `noop x` with a handler that returns
leaves `currentCommand` empty. -/
theorem ExecuteCommand_currentCommand_witness :
    ∃ c3, ExecuteCommand { Lookup := fun _ => some noopCommand } {} "noop x"
        = Result.ok () c3 ∧ c3.currentCommand = "" :=
  ((ExecuteCommand_currentCommand { Lookup := fun _ => some noopCommand } {} "noop x"
      "noop" "NOOP" "x" ["x"] (by decide) (by decide) (by decide)).2
    noopCommand (fun c => Result.ok () c) rfl rfl (by decide) (Or.inl (by decide)) rfl).2.2
    _ (Or.inl rfl)

/-- C9 (as stated, refuted): the handler of `PASS secret` raises the
`RuntimeError` of a refused login; `ExecuteCommand` does not catch it and
sends no reply, the descriptor's failure code 530 included. -/
theorem RuntimeError_leaves_ExecuteCommand :
    ExecuteCommand { Lookup := fun _ => some refusedLogin }
        { state := ClientState.WaitingPassword, user := some {} } "PASS secret"
      = Result.threw (Exn.RuntimeError "You've reached your maximum of 0 login(s).")
          (((({ state := ClientState.WaitingPassword, user := some {},
                currentCommand := "PASS secret" } : ClientImpl).emit
            (Effect.Create "secret" ["PASS", "secret"])).emit Effect.Execute).emit
            (Effect.LoginStart 0 0 false false CounterResult.PersonalFail)) := by
  decide

/-- C9 (amended): when a handler that is reached raises a failure other than
`SyntaxError` and `NoPostScriptError`, `ExecuteCommand` does not catch it: the
exception leaves `ExecuteCommand` with the session as the handler left it, so
no reply is sent on its behalf, the idle clock is not reset and
`currentCommand` is not cleared. -/
theorem ExecuteCommand_propagates (env : Env) (c : ClientImpl)
    (commandLine arg0 verb argStr : String) (rest : List String) (d : CommandDef)
    (command : ClientImpl → Result Unit) (e : Exn) (c2 : ClientImpl)
    (hsplit : Split commandLine " " true = arg0 :: rest)
    (hverb : verb = ToUpper arg0)
    (hargStr : argStr = Trim (substr commandLine arg0.length))
    (hdef : env.Lookup verb = some d)
    (hargs : d.CheckArgs (verb :: rest) = true)
    (hstate : CheckState c d.RequiredState = Result.ok true c)
    (hpre : c.state ≠ ClientState.LoggedIn ∨
      env.Cscripts verb (commandText verb argStr) CscriptType.PRE d.FailCode = true)
    (hcreate : d.Create argStr (verb :: rest) = some command)
    (hthrow : command ((ExecuteCommand.beforeHandler c d verb argStr (verb :: rest)).emit
      Effect.Execute) = Result.threw e c2)
    (hne : e ≠ Exn.SyntaxError) (hpost : e ≠ Exn.NoPostScriptError) :
    ExecuteCommand env c commandLine = Result.threw e c2 := by
  subst hverb hargStr
  rw [ExecuteCommand_reaches_run env c commandLine arg0 rest d command hsplit hdef
    hargs hstate hpre hcreate]
  unfold ExecuteCommand.run
  rw [hthrow]
  cases e with
  | SyntaxError => exact absurd rfl hne
  | NoPostScriptError => exact absurd rfl hpost
  | RuntimeError m => rfl
  | ProtocolError m => rfl
  | NetworkError m => rfl

/-- C9 (amended), at a concrete session: the `RuntimeError` of the failing
handler of `noop x` leaves `ExecuteCommand`. -/
theorem ExecuteCommand_propagates_witness :
    ExecuteCommand { Lookup := fun _ => some failingCommand } {} "noop x"
      = Result.threw (Exn.RuntimeError "failed")
          ((ExecuteCommand.beforeHandler {} failingCommand "NOOP" "x" ["NOOP", "x"]).emit
            Effect.Execute) :=
  ExecuteCommand_propagates { Lookup := fun _ => some failingCommand } {} "noop x"
    "noop" "NOOP" "x" ["x"] failingCommand
    (fun c => Result.threw (Exn.RuntimeError "failed") c) (Exn.RuntimeError "failed") _
    (by decide) (by decide) (by decide) rfl rfl (by decide) (Or.inl (by decide)) rfl rfl
    (by decide) (by decide)

/-! ## Address check -/

/-- C10 (the code at the failing input): the reverse lookup of `10.0.0.1`
fails, so the hostname is the IP; the ACL allows no address, and
`PreCheckAddress` returns true without a `BADADDRESS` log. `PostCheckAddress`,
on the same session with a user bound, returns false. -/
theorem PreCheckAddress_admits_unresolved_address :
    (HostnameLookup {} { ip := "10.0.0.1" }).hostname = "10.0.0.1" ∧
    PreCheckAddress {} (HostnameLookup {} { ip := "10.0.0.1" })
      = Result.ok true { ip := "10.0.0.1", hostname := "10.0.0.1" } ∧
    PostCheckAddress {} (HostnameLookup {} { ip := "10.0.0.1", user := some {} })
      = Result.ok false { ip := "10.0.0.1", hostname := "10.0.0.1", user := some {} } := by
  decide

/-! ## Password attempts -/

theorem passwordChecks_append (t l : List Effect) :
    passwordChecks (t ++ l) = passwordChecks t + passwordChecks l := by
  simp [passwordChecks, List.countP_append]

/-- One `VerifyPassword` call on a session with a bound user returns, counts
one attempt and calls the user's password verification once. -/
theorem VerifyPassword_step (env : Env) (c : ClientImpl) (password : String)
    (hu : c.user.isSome = true) :
    ∃ c1, (VerifyPassword env c password).client = some c1 ∧ c1.user = c.user ∧
      c1.passwordAttemps = c.passwordAttemps + 1 ∧
      passwordChecks c1.trace = passwordChecks c.trace + 1 := by
  obtain ⟨u, hu⟩ := Option.isSome_iff_exists.mp hu
  refine ⟨({ c with passwordAttemps := c.passwordAttemps + 1 } : ClientImpl).emit
    (Effect.VerifyPassword u.ID password), ?_, rfl, rfl, ?_⟩
  · simp [VerifyPassword, hu, Result.client]
  · simp [emit_trace, passwordChecks_append, passwordChecks, Effect.isVerifyPassword]

/-- C12 (as stated, refuted): with `maxPasswordAttemps = 1`, the limit is
reached after the first attempt, and the second `VerifyPassword` call still
calls the user's password verification. -/
theorem VerifyPassword_not_refused :
    (verifyPasswords { maxPasswordAttemps := 1 } { user := some {} } ["first"]).map
      (fun c => (PasswordAttemptsExceeded { maxPasswordAttemps := 1 } c,
        passwordChecks c.trace)) = some (true, 1) ∧
    (verifyPasswords { maxPasswordAttemps := 1 } { user := some {} }
      ["first", "second"]).map
      (fun c => (PasswordAttemptsExceeded { maxPasswordAttemps := 1 } c,
        passwordChecks c.trace)) = some (true, 2) := by
  decide

/-- C12 (amended): on a session with a bound user, every `VerifyPassword`
call counts exactly one attempt and calls the user's password verification,
whatever the number of attempts before; after `n` calls the counter has grown
by `n`, `SetWaitingPassword` does not reset it, and
`PasswordAttemptsExceeded` is true exactly when the counter has reached
`maxPasswordAttemps`, so it is true after `maxPasswordAttemps` attempts on a
new session and after every further one. -/
theorem VerifyPassword_counts (env : Env) (c : ClientImpl) (passwords : List String)
    (hu : c.user.isSome = true) :
    ∃ c1, verifyPasswords env c passwords = some c1 ∧
      c1.passwordAttemps = c.passwordAttemps + passwords.length ∧
      passwordChecks c1.trace = passwordChecks c.trace + passwords.length ∧
      (PasswordAttemptsExceeded env c1 = true ↔
        env.maxPasswordAttemps ≤ c.passwordAttemps + passwords.length) ∧
      ∀ (user : User) (kickLogin : Bool) (c2 : ClientImpl),
        (SetWaitingPassword c1 user kickLogin).client = some c2 →
        c2.passwordAttemps = c1.passwordAttemps := by
  induction passwords generalizing c with
  | nil =>
    refine ⟨c, rfl, rfl, rfl, ?_, ?_⟩
    · simp [PasswordAttemptsExceeded]
    · intro user kickLogin c2 h
      simp only [SetWaitingPassword, Result.client, Option.some.injEq] at h
      rw [← h]
  | cons password more ih =>
    obtain ⟨c1, h1, hu1, ha1, hc1⟩ := VerifyPassword_step env c password hu
    obtain ⟨c2, h2, ha2, hc2, he2, hs2⟩ := ih c1 (by rw [hu1]; exact hu)
    refine ⟨c2, by simp [verifyPasswords, h1, h2], ?_, ?_, ?_, hs2⟩
    · rw [ha2, ha1, List.length_cons]
      omega
    · rw [hc2, hc1, List.length_cons]
      omega
    · rw [he2, ha1, List.length_cons]
      constructor <;> intro h <;> omega

/-- C12 (amended), at a concrete session: three attempts on a new session with
the limit at three. -/
theorem VerifyPassword_counts_witness :
    ∃ c1, verifyPasswords {} { user := some {} } ["a", "b", "c"] = some c1 ∧
      c1.passwordAttemps = ({ user := some {} } : ClientImpl).passwordAttemps
        + ["a", "b", "c"].length ∧
      passwordChecks c1.trace = passwordChecks ({ user := some {} } : ClientImpl).trace
        + ["a", "b", "c"].length ∧
      (PasswordAttemptsExceeded {} c1 = true ↔
        ({} : Env).maxPasswordAttemps ≤ ({ user := some {} } : ClientImpl).passwordAttemps
          + ["a", "b", "c"].length) ∧
      ∀ (user : User) (kickLogin : Bool) (c2 : ClientImpl),
        (SetWaitingPassword c1 user kickLogin).client = some c2 →
        c2.passwordAttemps = c1.passwordAttemps :=
  VerifyPassword_counts {} { user := some {} } ["a", "b", "c"] rfl

/-! ## Traffic accounting -/

/-- Within the range of `long long`, a sum that is not negative is reported
in whole kilobytes, rounded down. -/
theorem toLongLong_kilobytes (n : Int) (h0 : 0 ≤ n) (h1 : n < 9223372036854775808) :
    0 ≤ (toLongLong n).tdiv 1024 ∧ (toLongLong n).tdiv 1024 * 1024 ≤ n ∧
    n < ((toLongLong n).tdiv 1024 + 1) * 1024 := by
  have hn : toLongLong n = n := by
    unfold toLongLong
    omega
  rw [hn, Int.tdiv_eq_ediv h0 (by norm_num)]
  omega

/-- C15 (as stated, refuted): with 1000 bytes written and 2047 bytes read on
the control channel and nothing on the data channel, `LogTraffic` reports 0
sent and 1 received; and with 2^63 - 1 and 1025 bytes written on the two
channels the sum leaves the range of `long long` and the report is
negative. -/
theorem LogTraffic_not_bytes :
    LogTraffic { controlBytesWrite := 1000, controlBytesRead := 2047 }
      = ({ controlBytesWrite := 1000, controlBytesRead := 2047 } : ClientImpl).emit
          (Effect.ProtocolUpdate (-1) 0 1) ∧
    LogTraffic { controlBytesWrite := 9223372036854775807, dataBytesWrite := 1025 }
      = ({ controlBytesWrite := 9223372036854775807, dataBytesWrite := 1025 } :
          ClientImpl).emit (Effect.ProtocolUpdate (-1) (-9007199254740991) 0) := by
  decide

/-- C15 (amended): `LogTraffic` makes one report to the stats store, for the
bound user or for -1 without one. For counters that are not negative and
whose sums, of the bytes written and of the bytes read, are below 2^63, the
totals are these sums in whole kilobytes, rounded down: `sent` is the largest
number with `sent * 1024 ≤ control.BytesWrite + data.BytesWrite`, and
`received` likewise for the bytes read. Nothing else changes. -/
theorem LogTraffic_kilobytes (c : ClientImpl)
    (hcw : 0 ≤ c.controlBytesWrite) (hdw : 0 ≤ c.dataBytesWrite)
    (hcr : 0 ≤ c.controlBytesRead) (hdr : 0 ≤ c.dataBytesRead)
    (hw : c.controlBytesWrite + c.dataBytesWrite < 9223372036854775808)
    (hr : c.controlBytesRead + c.dataBytesRead < 9223372036854775808) :
    ∃ sent received : Int,
      LogTraffic c = c.emit (Effect.ProtocolUpdate
        (match c.user with
          | some u => u.ID
          | none => -1) sent received) ∧
      0 ≤ sent ∧
      sent * 1024 ≤ c.controlBytesWrite + c.dataBytesWrite ∧
      c.controlBytesWrite + c.dataBytesWrite < (sent + 1) * 1024 ∧
      0 ≤ received ∧
      received * 1024 ≤ c.controlBytesRead + c.dataBytesRead ∧
      c.controlBytesRead + c.dataBytesRead < (received + 1) * 1024 := by
  obtain ⟨w0, w1, w2⟩ := toLongLong_kilobytes (c.controlBytesWrite + c.dataBytesWrite)
    (by omega) hw
  obtain ⟨r0, r1, r2⟩ := toLongLong_kilobytes (c.controlBytesRead + c.dataBytesRead)
    (by omega) hr
  exact ⟨_, _, rfl, w0, w1, w2, r0, r1, r2⟩

/-- C15 (amended), at a concrete session: 3000 bytes written and 5000 bytes
read on the two channels together are reported as 2 and 4 kilobytes. -/
theorem LogTraffic_kilobytes_witness :
    LogTraffic { controlBytesWrite := 1000, dataBytesWrite := 2000,
                 controlBytesRead := 904, dataBytesRead := 4096 }
      = ({ controlBytesWrite := 1000, dataBytesWrite := 2000,
           controlBytesRead := 904, dataBytesRead := 4096 } : ClientImpl).emit
          (Effect.ProtocolUpdate (-1) 2 4) ∧
    ∃ sent received : Int,
      LogTraffic { controlBytesWrite := 1000, dataBytesWrite := 2000,
                   controlBytesRead := 904, dataBytesRead := 4096 }
        = ({ controlBytesWrite := 1000, dataBytesWrite := 2000,
             controlBytesRead := 904, dataBytesRead := 4096 } : ClientImpl).emit
            (Effect.ProtocolUpdate (-1) sent received) ∧
      0 ≤ sent ∧ sent * 1024 ≤ 1000 + 2000 ∧ 1000 + 2000 < (sent + 1) * 1024 ∧
      0 ≤ received ∧ received * 1024 ≤ 904 + 4096 ∧ 904 + 4096 < (received + 1) * 1024 :=
  ⟨by decide,
   LogTraffic_kilobytes { controlBytesWrite := 1000, dataBytesWrite := 2000,
                          controlBytesRead := 904, dataBytesRead := 4096 }
     (by decide) (by decide) (by decide) (by decide) (by decide) (by decide)⟩

/-! ## Two-step confirmation -/

/-- C20 (as stated, refuted): the first `ConfirmCommand` call on a new session
returns true for the empty argument and for an argument of white space. -/
theorem ConfirmCommand_empty_confirmed_at_once :
    (ConfirmCommand {} "").1 = true ∧ (ConfirmCommand {} "   ").1 = true := by
  decide

/-- C20 (amended): for every argument whose whitespace-compressed form is not
empty, `ConfirmCommand` returns true exactly when the call before it on the
session returned false with the same whitespace-compressed argument; the first
call on a new session, whose token is empty, returns false; and a call that
returns true leaves the token empty. -/
theorem ConfirmCommand_two_step (c : ClientImpl) (before argStr : String)
    (hne : CompressWhitespace argStr ≠ "") :
    ((ConfirmCommand (ConfirmCommand c before).2 argStr).1 = true ↔
      (ConfirmCommand c before).1 = false ∧
        CompressWhitespace before = CompressWhitespace argStr) ∧
    (c.confirmCommand = "" → (ConfirmCommand c argStr).1 = false) ∧
    ((ConfirmCommand c argStr).1 = true →
      (ConfirmCommand c argStr).2.confirmCommand = "") := by
  refine ⟨?_, ?_, ?_⟩
  · by_cases h1 : CompressWhitespace before = c.confirmCommand
    · by_cases h2 : CompressWhitespace argStr = ""
      · exact absurd h2 hne
      · simp [ConfirmCommand, CompressWhitespaceCopy, h1, h2]
    · by_cases h2 : CompressWhitespace argStr = CompressWhitespace before
      · simp [ConfirmCommand, CompressWhitespaceCopy, h1, h2]
      · have h3 : ¬ CompressWhitespace before = CompressWhitespace argStr :=
          fun h => h2 h.symm
        simp [ConfirmCommand, CompressWhitespaceCopy, h1, h2, h3]
  · intro h
    simp [ConfirmCommand, CompressWhitespaceCopy, h, hne]
  · intro h
    by_cases h1 : CompressWhitespace argStr = c.confirmCommand
    · simp [ConfirmCommand, CompressWhitespaceCopy, h1]
    · simp [ConfirmCommand, CompressWhitespaceCopy, h1] at h

/-- C20 (amended), at a concrete session: `deluser  bob` is confirmed by a
second call that differs in white space only. -/
theorem ConfirmCommand_two_step_witness :
    ((ConfirmCommand (ConfirmCommand {} "deluser  bob").2 " deluser bob").1 = true ↔
      (ConfirmCommand {} "deluser  bob").1 = false ∧
        CompressWhitespace "deluser  bob" = CompressWhitespace " deluser bob") ∧
    (({} : ClientImpl).confirmCommand = "" →
      (ConfirmCommand {} " deluser bob").1 = false) ∧
    ((ConfirmCommand {} " deluser bob").1 = true →
      (ConfirmCommand {} " deluser bob").2.confirmCommand = "") :=
  ConfirmCommand_two_step {} "deluser  bob" " deluser bob" (by decide)

/-! ## Bouncer identification -/

/-- Without a delimiter in the text, the worker of `Split` ends the token it is
reading. -/
theorem Split.go_no_delim (delims : List Char) (tokenCompress : Bool) (l cur : List Char)
    (inRun : Bool) (h : ∀ ch ∈ l, delims.contains ch = false) :
    Split.go delims tokenCompress l cur inRun = [String.mk (cur.reverse ++ l)] := by
  induction l generalizing cur inRun with
  | nil => simp [Split.go]
  | cons ch rest ih =>
    have hch : delims.contains ch = false := h ch (List.mem_cons_self _ _)
    have hrest : ∀ x ∈ rest, delims.contains x = false :=
      fun x hx => h x (List.mem_cons_of_mem _ hx)
    have hmem : ch ∉ delims := by simpa using hch
    simp [Split.go, hmem, ih (ch :: cur) false hrest]

/-- The line `IDNT`, one space and a word without a space splits into the two
words, with or without token compression. -/
theorem Split_IDNT (word : String) (tokenCompress : Bool) (h : ' ' ∉ word.data) :
    Split ("IDNT " ++ word) " " tokenCompress = ["IDNT", word] := by
  have hw : ∀ ch ∈ word.data, [' '].contains ch = false := by
    intro ch hch
    have : ch ≠ ' ' := fun e => h (e ▸ hch)
    simp [this]
  have hdata : ("IDNT " ++ word).data = 'I' :: 'D' :: 'N' :: 'T' :: ' ' :: word.data := by
    simp [String.data_append]
  unfold Split
  rw [hdata]
  simp [Split.go, Split.go_no_delim [' '] tokenCompress word.data [] true hw]

theorem find_first_of_append (front back : List Char) (ch : Char) (h : ch ∉ front) :
    find_first_of (String.mk (front ++ ch :: back)) ch = some front.length := by
  simp [find_first_of, List.indexOf_append_of_not_mem h]

theorem find_last_of_append (front back : List Char) (ch : Char) (h : ch ∉ back) :
    find_last_of (String.mk (front ++ ch :: back)) ch = some front.length := by
  have hr : ch ∉ back.reverse := by simpa using h
  have hi : (front ++ ch :: back).reverse.indexOf ch = back.length := by
    simp [List.reverse_append, List.indexOf_append_of_not_mem hr]
  simp only [find_last_of, hi, List.length_append, List.length_cons]
  rw [if_pos (by omega)]
  congr 1
  omega

/-- What `IdntParse` does with a well-formed line. -/
theorem IdntParse_wellformed (env : Env) (c : ClientImpl) (ident ip host : List Char)
    (hident : ident ≠ []) (hat : '@' ∉ ident) (hisp : ' ' ∉ ident)
    (hip : ip ≠ []) (hpsp : ' ' ∉ ip)
    (hhost : host ≠ []) (hcolon : ':' ∉ host) (hhsp : ' ' ∉ host) :
    IdntParse env c ("IDNT " ++ String.mk (ident ++ '@' :: (ip ++ ':' :: host))) =
      IdntUpdate env c (String.mk ident) (String.mk ip) (String.mk host) := by
  have hsp : ' ' ∉ (String.mk (ident ++ '@' :: (ip ++ ':' :: host))).data := by
    simp [hisp, hpsp, hhsp]
  have hfirst := find_first_of_append ident (ip ++ ':' :: host) '@' hat
  have hlast := find_last_of_append (ident ++ '@' :: ip) host ':' hcolon
  have hre : (ident ++ '@' :: ip) ++ ':' :: host = ident ++ '@' :: (ip ++ ':' :: host) := by
    simp
  rw [hre] at hlast
  unfold IdntParse
  rw [Split_IDNT _ _ hsp]
  simp only [hfirst, hlast]
  have hlen : (ident ++ '@' :: ip).length = ident.length + (ip.length + 1) := by
    simp [Nat.add_comm]
  rw [hlen, if_neg (by omega)]
  have h1 : substring (String.mk (ident ++ '@' :: (ip ++ ':' :: host))) 0 ident.length
      = String.mk ident := by
    simp [substring]
  have h2 : substring (String.mk (ident ++ '@' :: (ip ++ ':' :: host))) (ident.length + 1)
      (ident.length + (ip.length + 1) - ident.length - 1) = String.mk ip := by
    have : ident.length + (ip.length + 1) - ident.length - 1 = ip.length := by omega
    rw [this]
    simp [substring, List.drop_append]
  have h3 : substr (String.mk (ident ++ '@' :: (ip ++ ':' :: host)))
      (ident.length + (ip.length + 1) + 1) = String.mk host := by
    have : ident.length + (ip.length + 1) + 1 = ident.length + ((ip.length + 1) + 1) := by
      omega
    rw [this]
    simp only [substr, List.drop_append, List.drop_succ_cons]
    simp
  rw [h1, h2, h3]
  have e1 : String.mk ident ≠ "" := by simpa [String.ext_iff] using hident
  have e2 : String.mk ip ≠ "" := by simpa [String.ext_iff] using hip
  have e3 : String.mk host ≠ "" := by simpa [String.ext_iff] using hhost
  simp [e1, e2, e3]

/-- C11 (as stated, refuted): a host that equals the IP is not stored as
hostname, a v4-mapped IP is stored in unmapped form, and an ident with a space
makes `IdntParse` return false. -/
theorem IdntParse_not_exact :
    IdntParse sampleAddresses {} "IDNT user@10.0.0.1:10.0.0.1"
      = (true, { ident := "user", ip := "10.0.0.1", hostname := "" }) ∧
    IdntParse sampleAddresses {} "IDNT user@::ffff:10.0.0.1:host.example"
      = (true, { ident := "user", ip := "10.0.0.1", hostname := "host.example" }) ∧
    IdntParse sampleAddresses {} "IDNT a b@10.0.0.1:host.example" = (false, {}) := by
  decide

/-- C11 (amended): for every non-empty ident without `@` and without a space,
every valid IP address (not empty, without a space) and every non-empty
hostname without `:` and without a space, `IdntParse` of
`IDNT ident@ip:host` returns true; afterwards the ident of the session is
`ident`, its IP is `ip`, in unmapped form when `ip` is a v4-mapped address,
and its hostname is `host` when `host` differs from the stored IP and is
unchanged otherwise; nothing else changes. So for an IP that is not v4-mapped
and a host that differs from it, the three are exactly `ident`, `ip` and
`host`. -/
theorem IdntParse_roundtrip (env : Env) (c : ClientImpl) (ident ip host : String)
    (hident : ident ≠ "") (hat : '@' ∉ ident.data) (hisp : ' ' ∉ ident.data)
    (hip : ip ≠ "") (hpsp : ' ' ∉ ip.data) (hvalid : env.IPValid ip = true)
    (hhost : host ≠ "") (hcolon : ':' ∉ host.data) (hhsp : ' ' ∉ host.data) :
    IdntParse env c ("IDNT " ++ ident ++ "@" ++ ip ++ ":" ++ host) =
      (true, { c with ident := ident, ip := (env.Unmappedv4 ip).getD ip,
                      hostname := if (env.Unmappedv4 ip).getD ip ≠ host then host
                                  else c.hostname }) ∧
    (env.Unmappedv4 ip = none → ip ≠ host →
      IdntParse env c ("IDNT " ++ ident ++ "@" ++ ip ++ ":" ++ host) =
        (true, { c with ident := ident, ip := ip, hostname := host })) := by
  obtain ⟨I⟩ := ident
  obtain ⟨P⟩ := ip
  obtain ⟨H⟩ := host
  have hline : "IDNT " ++ String.mk I ++ "@" ++ String.mk P ++ ":" ++ String.mk H
      = "IDNT " ++ String.mk (I ++ '@' :: (P ++ ':' :: H)) := by
    apply String.ext
    simp [String.data_append]
  have e1 : I ≠ [] := by simpa [String.ext_iff] using hident
  have e2 : P ≠ [] := by simpa [String.ext_iff] using hip
  have e3 : H ≠ [] := by simpa [String.ext_iff] using hhost
  have hparse := IdntParse_wellformed env c I P H e1 hat hisp e2 hpsp e3 hcolon hhsp
  rw [hline, hparse]
  constructor
  · cases hu : env.Unmappedv4 (String.mk P) <;> simp [IdntUpdate, hvalid, hu]
  · intro hu hne
    simp [IdntUpdate, hvalid, hu, hne]

/-- C11 (amended), at a concrete line: `IDNT user@10.0.0.1:host.example`. -/
theorem IdntParse_roundtrip_witness :
    IdntParse sampleAddresses {} ("IDNT " ++ "user" ++ "@" ++ "10.0.0.1" ++ ":" ++ "host.example")
      = (true, { ident := "user", ip := "10.0.0.1", hostname := "host.example" }) :=
  (IdntParse_roundtrip sampleAddresses {} "user" "10.0.0.1" "host.example"
    (by decide) (by decide) (by decide) (by decide) (by decide) (by decide)
    (by decide) (by decide) (by decide)).2 (by decide) (by decide)

/-! ## Connection admission -/

/-- C13: for a remote address that is not a configured bouncer, `InnerRun`
refuses the connection when `BouncerOnly` is configured and the remote address
is not loopback: it returns with the `NONBOUNCER` security log as its only
effect, so without hostname lookup, banner or reply. In every other case it
goes on with the hostname lookup and the address check: it returns with what
`PreCheckAddress` has logged when that refuses the looked-up session, and
otherwise looks up the ident, sends the banner and handles the commands. -/
theorem InnerRun_nonbouncer (env : Env) (c : ClientImpl) (input : List Incoming)
    (hnb : env.IsBouncer c.ip = false) :
    (env.BouncerOnly = true ∧ env.RemoteIsLoopback = false →
      InnerRun env c input = Result.ok () (c.emit (Effect.Security "NONBOUNCER"
        ("Refused connection not from a bouncer address: " ++ HostnameAndIP c)))) ∧
    (¬ (env.BouncerOnly = true ∧ env.RemoteIsLoopback = false) →
      InnerRun env c input =
        match PreCheckAddress env (HostnameLookup env c) with
        | Result.aborted => Result.aborted
        | Result.threw e c1 => Result.threw e c1
        | Result.ok false c1 => Result.ok () c1
        | Result.ok true c1 =>
          Handle env (DisplayBanner env ((LookupIdent env c1).emit
            (Effect.Debug "Servicing client connected from %1%@%2%"))) input) := by
  constructor
  · rintro ⟨hb, hl⟩
    simp [InnerRun, hnb, hb, hl]
  · intro h
    have : (env.BouncerOnly && !env.RemoteIsLoopback) = false := by
      cases hb : env.BouncerOnly <;> cases hl : env.RemoteIsLoopback <;> simp_all
    simp only [InnerRun, hnb, this]
    rfl

/-- C13, at a concrete connection: a server that accepts bouncers only refuses
`192.0.2.7`, which is neither a bouncer nor loopback. -/
theorem InnerRun_nonbouncer_witness :
    InnerRun { BouncerOnly := true } { ip := "192.0.2.7" } []
      = Result.ok () (({ ip := "192.0.2.7" } : ClientImpl).emit
          (Effect.Security "NONBOUNCER"
            ("Refused connection not from a bouncer address: "
              ++ HostnameAndIP { ip := "192.0.2.7" }))) :=
  (InnerRun_nonbouncer { BouncerOnly := true } { ip := "192.0.2.7" } [] rfl).1 ⟨rfl, rfl⟩

/-! ## Idle clock -/

/-- C16 (as stated, refuted): with `STAT` in the list of commands that do not
reset the idle clock, and `fnmatch` answering as it does for a mask without
wildcards, the line `stat` leaves the clock alone, and the line `STAT -l`,
whose verb is in the list, resets it. -/
theorem IdleReset_verb_with_arguments :
    IdleReset { IdleCommands := ["STAT"], WildcardMatch := literalMatch, now := 100 }
        { idleTimeout := 60 } "stat"
      = { idleTimeout := 60 } ∧
    IdleReset { IdleCommands := ["STAT"], WildcardMatch := literalMatch, now := 100 }
        { idleTimeout := 60 } "STAT -l"
      = { idleTimeout := 60, idleTime := 100, idleExpires := 160 } := by
  decide

/-- C16 (amended): after a command's handler has run and returned,
`ExecuteCommand` resets the idle clock with `IdleReset`: `idleTime` becomes
the current time and `idleExpires` becomes `idleTime + idleTimeout`, unless
the whole command line as it was received, arguments included, matches an
entry of the configured list as a wildcard pattern without regard to case, in
which case `idleTime` and `idleExpires` are unchanged. -/
theorem IdleReset_after_handler (env : Env) (d : CommandDef) (verb commandLine : String)
    (command : ClientImpl → Result Unit) (c c2 : ClientImpl)
    (hrun : command (c.emit Effect.Execute) = Result.ok () c2) :
    ∃ c3, ExecuteCommand.run env d verb commandLine command c = Result.ok () c3 ∧
      ((∀ mask ∈ env.IdleCommands, env.WildcardMatch mask commandLine true = false) →
        c3.idleTime = env.now ∧ c3.idleExpires = env.now + c2.idleTimeout ∧
        IdleReset env c2 commandLine
          = { c2 with idleTime := env.now, idleExpires := env.now + c2.idleTimeout }) ∧
      ((∃ mask ∈ env.IdleCommands, env.WildcardMatch mask commandLine true = true) →
        c3.idleTime = c2.idleTime ∧ c3.idleExpires = c2.idleExpires ∧
        IdleReset env c2 commandLine = c2) := by
  have key : ExecuteCommand.run env d verb commandLine command c =
      Result.ok () { IdleReset env (if c2.state = ClientState.LoggedIn then
          c2.emit (Effect.Cscript verb c2.currentCommand CscriptType.POST ActionNotOkay)
        else c2) commandLine with currentCommand := "" } := by
    unfold ExecuteCommand.run
    rw [hrun]
    rfl
  refine ⟨_, key, ?_, ?_⟩
  · intro h
    have hany : env.IdleCommands.any (fun mask => env.WildcardMatch mask commandLine true)
        = false := by
      simpa [List.any_eq_false] using h
    refine ⟨?_, ?_, ?_⟩
    · simp [IdleReset, hany]
    · simp only [IdleReset, hany, Bool.false_eq_true, if_false]
      split_ifs <;> rfl
    · simp [IdleReset, hany]
  · intro h
    have hany : env.IdleCommands.any (fun mask => env.WildcardMatch mask commandLine true)
        = true := by
      simpa [List.any_eq_true] using h
    refine ⟨?_, ?_, ?_⟩
    · simp only [IdleReset, hany, if_true]
      split_ifs <;> rfl
    · simp only [IdleReset, hany, if_true]
      split_ifs <;> rfl
    · simp [IdleReset, hany]

/-- C16 (amended), at a concrete command: `STAT -l` with a handler that
returns, on a session with an idle timeout of 60 at time 100. -/
theorem IdleReset_after_handler_witness :
    ∃ c3, ExecuteCommand.run
        { IdleCommands := ["STAT"], WildcardMatch := literalMatch, now := 100 }
        noopCommand "STAT" "STAT -l" (fun c => Result.ok () c) { idleTimeout := 60 }
          = Result.ok () c3 ∧
      c3.idleTime = 100 ∧ c3.idleExpires = 160 := by
  obtain ⟨c3, h, hreset, _⟩ := IdleReset_after_handler
    { IdleCommands := ["STAT"], WildcardMatch := literalMatch, now := 100 }
    noopCommand "STAT" "STAT -l" (fun c => Result.ok () c) { idleTimeout := 60 }
    (({ idleTimeout := 60 } : ClientImpl).emit Effect.Execute) rfl
  obtain ⟨h1, h2, _⟩ := hreset (by decide)
  exact ⟨c3, h, h1, h2⟩

/-! ## Minimum speed -/

/-- More than five whole seconds have passed exactly when six seconds have. -/
theorem total_seconds_gt_kick (duration : Int) :
    total_seconds duration > SpeedControl.minimumSpeedKickTime ↔ 6000000 ≤ duration := by
  unfold total_seconds SpeedControl.minimumSpeedKickTime
  by_cases h : 0 ≤ duration
  · rw [Int.tdiv_eq_ediv h (by norm_num)]
    omega
  · have hneg : duration = -(-duration) := by omega
    have hle : (-duration).tdiv 1000000 ≥ 0 := Int.tdiv_nonneg (by omega) (by norm_num)
    rw [hneg, Int.neg_tdiv]
    omega

/-- C14 (as stated, refuted): with a minimum of 100 last exceeded at time 0,
a speed equal to the minimum raises `MinimumSpeedError` after 10 seconds, and
a speed of 50 does not raise after 5.5 seconds. -/
theorem CheckMinimum_boundaries :
    SpeedControl.CheckMinimum { minimumSpeed := 100 } 100 10000000
      = Outcome.raised { limit := 100, speed := 100 } ∧
    SpeedControl.CheckMinimum { minimumSpeed := 100 } 50 5500000
      = Outcome.returned { minimumSpeed := 100 } := by
  decide

/-- C14 (amended): `CheckMinimum` raises `MinimumSpeedError` exactly when the
current speed is not above the configured minimum, that is below it or equal
to it, and more than 5 whole seconds, so 6 seconds or more, have passed since
the speed was last above the minimum. A speed above the minimum restarts the
window at the current time and never raises; a speed that is not above it
leaves the window as it is. `Apply` makes the check only for a minimum greater
than zero. -/
theorem CheckMinimum_raises_iff (sc : SpeedControl) (speed : ℚ) (now : Int) :
    (sc.CheckMinimum speed now = Outcome.raised { limit := sc.minimumSpeed, speed := speed } ↔
      speed ≤ (sc.minimumSpeed : ℚ) ∧ 6000000 ≤ now - sc.lastMinimumOk) ∧
    (∀ e, sc.CheckMinimum speed now = Outcome.raised e →
      e = { limit := sc.minimumSpeed, speed := speed }) ∧
    (speed > (sc.minimumSpeed : ℚ) →
      sc.CheckMinimum speed now = Outcome.returned { sc with lastMinimumOk := now }) ∧
    (speed ≤ (sc.minimumSpeed : ℚ) → now - sc.lastMinimumOk < 6000000 →
      sc.CheckMinimum speed now = Outcome.returned sc) ∧
    (∀ (info : SpeedInfo) (limitSleep globalSleep : Int) (e : MinimumSpeedError),
      sc.Apply info now limitSleep globalSleep = Outcome.raised e ↔
        sc.minimumSpeed > 0 ∧ sc.CheckMinimum info.Speed now = Outcome.raised e) := by
  have hk := total_seconds_gt_kick (now - sc.lastMinimumOk)
  refine ⟨?_, ?_, ?_, ?_, ?_⟩
  · unfold SpeedControl.CheckMinimum
    by_cases h1 : speed > (sc.minimumSpeed : ℚ)
    · simp only [h1, if_true]
      constructor
      · intro h
        cases h
      · rintro ⟨h2, _⟩
        exact absurd h1 (not_lt.mpr h2)
    · by_cases h2 : 6000000 ≤ now - sc.lastMinimumOk
      · simp [h1, hk.mpr h2, h2, not_lt.mp h1]
      · have h3 : ¬ total_seconds (now - sc.lastMinimumOk)
            > SpeedControl.minimumSpeedKickTime := fun h => h2 (hk.mp h)
        simp [h1, h3, h2]
  · intro e h
    unfold SpeedControl.CheckMinimum at h
    split_ifs at h
    cases h
    rfl
  · intro h1
    simp [SpeedControl.CheckMinimum, h1]
  · intro h1 h2
    have h3 : ¬ total_seconds (now - sc.lastMinimumOk)
        > SpeedControl.minimumSpeedKickTime := fun h => absurd (hk.mp h) (by omega)
    simp [SpeedControl.CheckMinimum, not_lt.mpr h1, h3]
  · intro info limitSleep globalSleep e
    unfold SpeedControl.Apply
    by_cases h0 : sc.minimumSpeed > 0
    · have hne : ¬ (sc.minimumSpeed = 0 ∧ sc.maximumSpeed = 0 ∧ sc.hasGlobalLimits = false) :=
        fun h => by omega
      simp only [hne, if_false, h0, if_true, true_and]
      cases hc : sc.CheckMinimum info.Speed now with
      | returned sc1 => simp
      | raised e1 => simp
    · simp only [h0, if_false, false_and, iff_false]
      split_ifs <;> simp

/-! ## TLS error translation -/

/-- C17 (as stated, refuted): for the SSL error `SSL_ERROR_WANT_X509_LOOKUP`,
and for the codes 7 and 8 of a pending connect or accept, `EvaluateResult`
raises the general `TLSError`, which is none of timeout, end of stream,
protocol error and system error. -/
theorem EvaluateResult_general_error :
    TLSSocket.EvaluateResult SSL_ERROR_WANT_X509_LOOKUP (-1) 0 0
      = Outcome.raised TLSException.TLSError ∧
    TLSSocket.EvaluateResult 7 (-1) 0 0 = Outcome.raised TLSException.TLSError ∧
    TLSSocket.EvaluateResult 8 (-1) 0 0 = Outcome.raised TLSException.TLSError := by
  decide

/-- C17 (amended): for every SSL error code, call result, error queue and
`errno`, `EvaluateResult` returns normally exactly for `SSL_ERROR_WANT_READ`
and `SSL_ERROR_WANT_WRITE`, and otherwise raises exactly one exception, which
is a timeout, an end of stream, a TLS protocol error, a TLS system error that
carries `errno`, or the general `TLSError`; the general error is raised for
every code other than the five that have a case of their own, and for
`SSL_ERROR_SYSCALL` with an empty error queue and a result other than 0 and
-1. -/
theorem EvaluateResult_closed (sslError result : Int) (queued : Nat) (errno : Int) :
    (TLSSocket.EvaluateResult sslError result queued errno = Outcome.returned () ↔
      sslError = SSL_ERROR_WANT_READ ∨ sslError = SSL_ERROR_WANT_WRITE) ∧
    (∀ e, TLSSocket.EvaluateResult sslError result queued errno = Outcome.raised e →
      e = TLSException.TimeoutError ∨ e = TLSException.EndOfStream ∨
      e = TLSException.TLSProtocolError ∨ e = TLSException.TLSSystemError errno ∨
      e = TLSException.TLSError) ∧
    (TLSSocket.EvaluateResult sslError result queued errno
        = Outcome.raised TLSException.TLSError ↔
      (sslError ≠ SSL_ERROR_WANT_READ ∧ sslError ≠ SSL_ERROR_WANT_WRITE ∧
        sslError ≠ SSL_ERROR_SSL ∧ sslError ≠ SSL_ERROR_ZERO_RETURN ∧
        sslError ≠ SSL_ERROR_SYSCALL) ∨
      (sslError = SSL_ERROR_SYSCALL ∧ queued = 0 ∧ result ≠ 0 ∧ result ≠ -1)) := by
  unfold TLSSocket.EvaluateResult
  refine ⟨?_, ?_, ?_⟩
  · split_ifs <;> simp_all
  · intro e h
    split_ifs at h <;> cases h <;> simp
  · simp only [SSL_ERROR_WANT_READ, SSL_ERROR_WANT_WRITE, SSL_ERROR_SSL,
      SSL_ERROR_ZERO_RETURN, SSL_ERROR_SYSCALL]
    split_ifs <;> simp_all
    all_goals omega

/-! ## Directory listing -/

/-- Writing back what a position holds changes nothing. -/
theorem set_getD_self (l : List Char) (i : Nat) (ch : Char) :
    l.set i (l.getD i ch) = l := by
  induction l generalizing i with
  | nil => simp
  | cons a t ih =>
    cases i with
    | zero => simp
    | succ n =>
      have := ih n
      simp only [List.getD_eq_getElem?_getD] at this
      simp [this]

/-- The statement `if (mode & bit) perms[i] = ch;` for a bit that is a power of
two: position `i` holds `ch` when that bit of the mode is set, and what it held
before otherwise. -/
theorem DirectoryList.Permissions.mark_testBit (mode k i : Nat) (ch : Char)
    (perms : List Char) :
    DirectoryList.Permissions.mark mode (2 ^ k) i ch perms =
      perms.set i (if mode.testBit k = true then ch else perms.getD i ch) := by
  unfold DirectoryList.Permissions.mark
  rw [Nat.and_two_pow]
  cases mode.testBit k
  · simp only [Bool.toNat_false, zero_mul, ne_eq, not_true_eq_false, if_false,
      Bool.false_eq_true]
    exact (set_getD_self perms i ch).symm
  · simp

/-- C19: for every file status, `Permissions` returns the ten characters of
the `ls -l` field: first `l` for a symlink, `d` for a directory and `-`
otherwise, then for user, group and others the letters `r`, `w` and `x`, each
replaced by `-` when the bit of the mode is clear (bits 8 down to 0). Mode
0644 on a regular file gives `-rw-r--r--`. -/
theorem Permissions_format (status : Status) :
    DirectoryList.Permissions status = String.mk
      [if status.IsSymLink = true then 'l' else if status.IsDirectory = true then 'd' else '-',
       if status.st_mode.testBit 8 = true then 'r' else '-',
       if status.st_mode.testBit 7 = true then 'w' else '-',
       if status.st_mode.testBit 6 = true then 'x' else '-',
       if status.st_mode.testBit 5 = true then 'r' else '-',
       if status.st_mode.testBit 4 = true then 'w' else '-',
       if status.st_mode.testBit 3 = true then 'x' else '-',
       if status.st_mode.testBit 2 = true then 'r' else '-',
       if status.st_mode.testBit 1 = true then 'w' else '-',
       if status.st_mode.testBit 0 = true then 'x' else '-'] ∧
    (DirectoryList.Permissions status).length = 10 ∧
    DirectoryList.Permissions { st_mode := 0o644 } = "-rw-r--r--" := by
  have key : DirectoryList.Permissions status = String.mk
      [if status.IsSymLink = true then 'l' else if status.IsDirectory = true then 'd' else '-',
       if status.st_mode.testBit 8 = true then 'r' else '-',
       if status.st_mode.testBit 7 = true then 'w' else '-',
       if status.st_mode.testBit 6 = true then 'x' else '-',
       if status.st_mode.testBit 5 = true then 'r' else '-',
       if status.st_mode.testBit 4 = true then 'w' else '-',
       if status.st_mode.testBit 3 = true then 'x' else '-',
       if status.st_mode.testBit 2 = true then 'r' else '-',
       if status.st_mode.testBit 1 = true then 'w' else '-',
       if status.st_mode.testBit 0 = true then 'x' else '-'] := by
    have e8 : S_IRUSR = 2 ^ 8 := by decide
    have e7 : S_IWUSR = 2 ^ 7 := by decide
    have e6 : S_IXUSR = 2 ^ 6 := by decide
    have e5 : S_IRGRP = 2 ^ 5 := by decide
    have e4 : S_IWGRP = 2 ^ 4 := by decide
    have e3 : S_IXGRP = 2 ^ 3 := by decide
    have e2 : S_IROTH = 2 ^ 2 := by decide
    have e1 : S_IWOTH = 2 ^ 1 := by decide
    have e0 : S_IXOTH = 2 ^ 0 := by decide
    have h0 : (if status.IsSymLink = true then (List.replicate 10 '-').set 0 'l'
        else if status.IsDirectory = true then (List.replicate 10 '-').set 0 'd'
        else List.replicate 10 '-') =
        [if status.IsSymLink = true then 'l'
          else if status.IsDirectory = true then 'd' else '-',
         '-', '-', '-', '-', '-', '-', '-', '-', '-'] := by
      cases status.IsSymLink <;> cases status.IsDirectory <;> rfl
    unfold DirectoryList.Permissions
    simp only [e8, e7, e6, e5, e4, e3, e2, e1, e0, DirectoryList.Permissions.mark_testBit, h0]
    simp [List.set, List.getD]
  refine ⟨key, ?_, by decide⟩
  rw [key]
  rfl

/-- What one option character does to the four flags that shape a line of the
long format. -/
theorem ListOptions.ParseOption_flags (o : ListOptions) (ch : Char) :
    (o.ParseOption ch).longFormat = (o.longFormat || decide (ch = 'l')) ∧
    (o.ParseOption ch).sizeName = (o.sizeName || decide (ch = 'z')) ∧
    (o.ParseOption ch).noGroup = (o.noGroup || decide (ch = 'o')) ∧
    (o.ParseOption ch).slashDirs = (o.slashDirs || decide (ch = 'p')) := by
  unfold ListOptions.ParseOption
  split <;> simp_all

/-- The four flags after a string of options. -/
theorem ListOptions.foldl_flags (l : List Char) (o : ListOptions) :
    (l.foldl ListOptions.ParseOption o).longFormat = (o.longFormat || decide ('l' ∈ l)) ∧
    (l.foldl ListOptions.ParseOption o).sizeName = (o.sizeName || decide ('z' ∈ l)) ∧
    (l.foldl ListOptions.ParseOption o).noGroup = (o.noGroup || decide ('o' ∈ l)) ∧
    (l.foldl ListOptions.ParseOption o).slashDirs = (o.slashDirs || decide ('p' ∈ l)) := by
  induction l generalizing o with
  | nil => simp
  | cons ch rest ih =>
    obtain ⟨h1, h2, h3, h4⟩ := ih (o.ParseOption ch)
    obtain ⟨p1, p2, p3, p4⟩ := ListOptions.ParseOption_flags o ch
    simp only [List.foldl_cons, h1, h2, h3, h4, p1, p2, p3, p4, List.mem_cons]
    refine ⟨?_, ?_, ?_, ?_⟩ <;>
      simp [Bool.or_assoc, eq_comm]

/-- In the long format with owner and group, an entry that is not skipped adds
its line to the stream and leaves the adjustment `right`; the link count is
right-aligned because the adjustment is never `left` when an entry starts. -/
theorem DirectoryList.ListPath.entry_long (env : Env) (options : ListOptions)
    (path mask : String) (message : OStream) (de : DirEntry)
    (hlong : options.longFormat = true) (hz : options.sizeName = false)
    (ho : options.noGroup = false) (hw : message.width = 0)
    (hadj : message.adjustfield ≠ some Adjust.left) :
    DirectoryList.ListPath.entry env options path mask message de =
      if DirectoryList.ListPath.skipped env options mask de = true then message
      else { str := message.str ++ longFormatLine env options path de,
             adjustfield := some Adjust.right, width := 0 } := by
  unfold DirectoryList.ListPath.entry
  by_cases hs : DirectoryList.ListPath.skipped env options mask de = true
  · simp [hs]
  · simp only [hs, hlong, hz, ho, if_true, if_false, Bool.false_eq_true, Bool.not_false]
    obtain ⟨str, adj, width⟩ := message
    simp only at hw hadj
    subst hw
    simp only [OStream.put, OStream.setw, OStream.left, OStream.right, longFormatLine,
      rightAligned, leftAligned, DirectoryList.UIDToName, DirectoryList.GIDToName, substring,
      List.drop_zero, hadj, if_false, if_true]
    cases hsym : de.Status.IsSymLink <;>
      cases hp : (options.slashDirs && de.Status.IsDirectory) <;>
      cases hr : env.Readlink path de.Path <;>
      simp [String.append_assoc]

/-- Joining texts that start from a text puts that text in front. -/
theorem foldl_append_start (l : List String) (start : String) :
    l.foldl (fun r s => r ++ s) start = start ++ l.foldl (fun r s => r ++ s) "" := by
  induction l generalizing start with
  | nil => simp
  | cons a rest ih =>
    rw [List.foldl_cons, ih, List.foldl_cons, ih ("" ++ a)]
    simp [String.append_assoc]

/-- The join of a list of texts starts with its first text. -/
theorem join_cons (a : String) (l : List String) :
    String.join (a :: l) = a ++ String.join l := by
  unfold String.join
  rw [List.foldl_cons, foldl_append_start]
  simp

/-- In the long format with owner and group, the loop over the entries adds
the lines of the entries that are not skipped, in their order. -/
theorem DirectoryList.ListPath.foldl_long (env : Env) (options : ListOptions)
    (path mask : String) (entries : List DirEntry) (message : OStream)
    (hlong : options.longFormat = true) (hz : options.sizeName = false)
    (ho : options.noGroup = false) (hw : message.width = 0)
    (hadj : message.adjustfield ≠ some Adjust.left) :
    (entries.foldl (DirectoryList.ListPath.entry env options path mask) message).str =
      message.str ++ String.join
        ((entries.filter (fun de => !DirectoryList.ListPath.skipped env options mask de)).map
          (longFormatLine env options path)) := by
  induction entries generalizing message with
  | nil => simp [String.join]
  | cons de rest ih =>
    rw [List.foldl_cons,
      DirectoryList.ListPath.entry_long env options path mask message de hlong hz ho hw hadj]
    by_cases hs : DirectoryList.ListPath.skipped env options mask de = true
    · simp only [hs, if_true]
      rw [ih message hw hadj]
      simp [List.filter_cons, hs]
    · simp only [hs, if_false]
      rw [ih _ rfl (by simp)]
      simp [List.filter_cons, hs, join_cons, String.append_assoc]

/-- C18 (as stated, refuted): with the options `l` and `p`, the line of the
directory `pub` has a slash between the name and CRLF. -/
theorem ListPath_slash_after_name :
    DirectoryList.ListPath.message sampleListing (ListOptions.construct "lp" "") "/" [] 1
        [sampleDirectory] 4096
      = "total 4\r\n" ++
        "drwxr-xr-x   2 alice      staff            4096 Jun 15 09:04 pub/" ++ "\r\n" := by
  decide

/-- C18 (amended): with the option `l` and without the options `z` and `o`,
the message that `ListPath` outputs for a directory is its heading (the
message for a directory without entries) followed, for every entry that is not
skipped, by one line: permissions, a space, the link count right-aligned in
width 3, a space, the owner name cut to 10 characters and filled with spaces
on the right to exactly 10, a space, the group name likewise, a space, the
size right-aligned in width 10, a space, the timestamp, a space, the name,
and, for an entry that is not a symlink, a slash when option `p` is set and
the entry is a directory, and CRLF. -/
theorem ListPath_long_format (env : Env) (userDefined forced path : String)
    (masks : List String) (depth : Nat) (entries : List DirEntry) (totalBytes : Nat)
    (hl : 'l' ∈ (forced ++ userDefined).data) (hz : 'z' ∉ (forced ++ userDefined).data)
    (ho : 'o' ∉ (forced ++ userDefined).data) (hmasks : masks.drop 1 = []) :
    DirectoryList.ListPath.message env (ListOptions.construct userDefined forced) path masks
        depth entries totalBytes =
      DirectoryList.ListPath.message env (ListOptions.construct userDefined forced) path masks
          depth [] totalBytes ++
        String.join ((entries.filter (fun de => !DirectoryList.ListPath.skipped env
            (ListOptions.construct userDefined forced) (masks.head?.getD "") de)).map
          (longFormatLine env (ListOptions.construct userDefined forced) path)) ∧
    (∀ de : DirEntry, de.Status.IsSymLink = false →
      longFormatLine env (ListOptions.construct userDefined forced) path de =
        DirectoryList.Permissions de.Status ++ " " ++
        rightAligned 3 (toString de.Status.st_nlink) ++ " " ++
        leftAligned 10 (String.mk ((env.UIDToName de.UID).data.take 10)) ++ " " ++
        leftAligned 10 (String.mk ((env.GIDToName de.GID).data.take 10)) ++ " " ++
        rightAligned 10 (toString de.Status.Size) ++ " " ++
        DirectoryList.Timestamp env de.Status ++ " " ++
        de.Path ++
        (if 'p' ∈ (forced ++ userDefined).data ∧ de.Status.IsDirectory = true then "/"
          else "") ++
        "\r\n") ∧
    (∀ name : String, (leftAligned 10 (String.mk (name.data.take 10))).length = 10) ∧
    (∀ (width : Nat) (text : String),
      (rightAligned width text).length = max width text.length ∧
      (rightAligned width text).data.drop (max width text.length - text.length)
        = text.data) := by
  obtain ⟨f1, f2, f3, f4⟩ := ListOptions.foldl_flags (forced ++ userDefined).data {}
  have hlong : (ListOptions.construct userDefined forced).longFormat = true := by
    unfold ListOptions.construct
    rw [f1]
    simpa using hl
  have hsize : (ListOptions.construct userDefined forced).sizeName = false := by
    unfold ListOptions.construct
    rw [f2]
    simpa using hz
  have hgroup : (ListOptions.construct userDefined forced).noGroup = false := by
    unfold ListOptions.construct
    rw [f3]
    simpa using ho
  have hslash : (ListOptions.construct userDefined forced).slashDirs
      = decide ('p' ∈ (forced ++ userDefined).data) := by
    unfold ListOptions.construct
    rw [f4]
    simp
  refine ⟨?_, ?_, ?_, ?_⟩
  · unfold DirectoryList.ListPath.message
    simp only [hmasks, if_true, List.foldl_nil, hlong]
    rw [DirectoryList.ListPath.foldl_long env _ path _ entries _ hlong hsize hgroup rfl]
    split_ifs <;> simp [OStream.put]
  · intro de hsym
    simp only [longFormatLine, hsym, hslash, Bool.false_eq_true, if_false]
    by_cases hp : 'p' ∈ (forced ++ userDefined).data <;>
      cases hd : de.Status.IsDirectory <;> simp [hp]
  · intro name
    simp only [leftAligned, String.length, String.data_append, List.length_append,
      List.length_replicate, List.length_take]
    omega
  · intro width text
    constructor
    · simp only [rightAligned, String.length, String.data_append, List.length_append,
        List.length_replicate]
      omega
    · simp only [rightAligned, String.length, String.data_append]
      have : max width text.data.length - text.data.length
          = (List.replicate (width - text.data.length) ' ').length := by
        simp only [List.length_replicate]
        omega
      rw [this, List.drop_left]

/-- C18 (amended), at the example of the listing format: a regular file `file`
of 17 bytes with mode 0644 and one link, owned by `alice` and `staff`, last
modified on Jun 15 at 09:04. -/
theorem ListPath_long_format_witness :
    DirectoryList.ListPath.message sampleListing (ListOptions.construct "l" "") "/pub" [] 1
        [sampleFile] 17
      = "total 0\r\n" ++
        "-rw-r--r--   1 alice      staff              17 Jun 15 09:04 file" ++ "\r\n" :=
  (ListPath_long_format sampleListing "l" "" "/pub" [] 1 [sampleFile] 17
    (by decide) (by decide) (by decide) rfl).1.trans (by decide)

/-! ## Listing options -/

/-- Parsing the option `A` is parsing the option `a`. -/
theorem ListOptions.ParseOption_replace (o : ListOptions) (ch : Char) :
    o.ParseOption (if ch = 'A' then 'a' else ch) = o.ParseOption ch := by
  by_cases h : ch = 'A'
  · subst h
    rfl
  · simp [h]

/-- C21: replacing every `A` by `a` in the forced and in the user-defined
option string gives a `ListOptions` with the same flags, so the lister skips
the same entries and builds the same message with either string. -/
theorem ListOptions_AlmostAll_is_All (userDefined forced : String) :
    ListOptions.construct (replaceAlmostAll userDefined) (replaceAlmostAll forced)
      = ListOptions.construct userDefined forced ∧
    (ListOptions.construct "A" "" = ListOptions.construct "a" "" ∧
      (ListOptions.construct "A" "").all = true) ∧
    (∀ (env : Env) (mask : String) (de : DirEntry),
      DirectoryList.ListPath.skipped env
          (ListOptions.construct (replaceAlmostAll userDefined) (replaceAlmostAll forced))
          mask de
        = DirectoryList.ListPath.skipped env (ListOptions.construct userDefined forced)
          mask de) ∧
    (∀ (env : Env) (path : String) (masks : List String) (depth : Nat)
        (entries : List DirEntry) (totalBytes : Nat),
      DirectoryList.ListPath.message env
          (ListOptions.construct (replaceAlmostAll userDefined) (replaceAlmostAll forced))
          path masks depth entries totalBytes
        = DirectoryList.ListPath.message env (ListOptions.construct userDefined forced)
          path masks depth entries totalBytes) := by
  have key : ListOptions.construct (replaceAlmostAll userDefined) (replaceAlmostAll forced)
      = ListOptions.construct userDefined forced := by
    unfold ListOptions.construct replaceAlmostAll
    rw [String.data_append, String.data_append, ← List.map_append, List.foldl_map]
    congr 1
    funext o ch
    exact ListOptions.ParseOption_replace o ch
  refine ⟨key, ⟨by decide, by decide⟩, ?_, ?_⟩
  · intro env mask de
    rw [key]
  · intro env path masks depth entries totalBytes
    rw [key]

/-- C22 (the code at the failing input): with the option `p` alone the flag
`slashDirs` is set and the lister writes the name-only format, in which the
directory `pub` is listed without a slash; with the options `lp` the line of
the long format for the same directory ends in `pub/`. -/
theorem ListPath_short_format_without_slash :
    (ListOptions.construct "p" "").slashDirs = true ∧
    sampleDirectory.Status.IsDirectory = true ∧
    DirectoryList.ListPath.message sampleListing (ListOptions.construct "p" "") "/" [] 1
        [sampleDirectory] 4096
      = "pub" ++ "\r\n" ∧
    DirectoryList.ListPath.message sampleListing (ListOptions.construct "lp" "") "/" [] 1
        [sampleDirectory] 4096
      = "total 4\r\n" ++
        "drwxr-xr-x   2 alice      staff            4096 Jun 15 09:04 pub/" ++ "\r\n" := by
  decide

/-! ## Empty command line -/

/-- C23 (the code at the failing inputs): the split of a command line never
gives an empty vector, so the test `args.empty()` never holds; for the empty
line and for a line of three spaces the first word is empty, the command of
that name is looked up, and when there is none `ExecuteCommand` replies 500
`Command not understood` and returns without an exception. -/
theorem ExecuteCommand_empty_line_is_looked_up :
    (∀ commandLine : String, Split commandLine " " true ≠ []) ∧
    Split "" " " true = [""] ∧
    Split "   " " " true = ["", ""] ∧
    ExecuteCommand {} {} ""
      = Result.ok () (({} : ClientImpl).emit
          (Effect.Reply CommandUnrecognised "Command not understood")) ∧
    ExecuteCommand {} {} "   "
      = Result.ok () (({} : ClientImpl).emit
          (Effect.Reply CommandUnrecognised "Command not understood")) :=
  ⟨fun commandLine => Split_ne_nil commandLine " " true, by decide, by decide, by decide,
    by decide⟩

/-! ## Bouncer identification, failure -/

/-- A refusal of `IdntUpdate` leaves the session as it was. -/
theorem IdntUpdate_refused (env : Env) (c : ClientImpl) (ident ip hostname : String)
    (h : (IdntUpdate env c ident ip hostname).1 = false) :
    (IdntUpdate env c ident ip hostname).2 = c := by
  unfold IdntUpdate at h ⊢
  split_ifs at h ⊢
  rfl

/-- Without the character in the text, `find_first_of` finds nothing. -/
theorem find_first_of_not_mem (l : List Char) (ch : Char) (h : ch ∉ l) :
    find_first_of (String.mk l) ch = none := by
  simp [find_first_of, List.indexOf_eq_length.2 h]

/-- When the character does not come after the position of `front.length`, the
last place that `find_last_of` can find is in `front`. -/
theorem find_last_of_front (front back : List Char) (ch other : Char) (hne : other ≠ ch)
    (h : ch ∉ back) (pos : Nat)
    (hpos : find_last_of (String.mk (front ++ other :: back)) ch = some pos) :
    pos < front.length := by
  have hr : ch ∉ back.reverse := by simpa using h
  have hi : (front ++ other :: back).reverse.indexOf ch
      = back.length + (1 + front.reverse.indexOf ch) := by
    simp [List.reverse_append, List.indexOf_append_of_not_mem hr, List.indexOf_cons_ne _ hne,
      Nat.add_comm]
  simp only [find_last_of, hi, List.length_append, List.length_cons] at hpos
  split_ifs at hpos with hlt
  simp only [Option.some.injEq] at hpos
  omega

/-- What `IdntParse` does with a line of two words of which the second is
`ident@ip:host`, the ident without `@` and the host without `:`. -/
theorem IdntParse_parts (env : Env) (c : ClientImpl) (command w0 : String)
    (ident ip host : List Char)
    (hsplit : Split command " " env.SplitTokenCompress
      = [w0, String.mk (ident ++ '@' :: (ip ++ ':' :: host))])
    (hat : '@' ∉ ident) (hcolon : ':' ∉ host) :
    IdntParse env c command =
      if ident = [] ∨ host = [] ∨ ip = [] then (false, c)
      else IdntUpdate env c (String.mk ident) (String.mk ip) (String.mk host) := by
  have hfirst := find_first_of_append ident (ip ++ ':' :: host) '@' hat
  have hlast := find_last_of_append (ident ++ '@' :: ip) host ':' hcolon
  have hre : (ident ++ '@' :: ip) ++ ':' :: host = ident ++ '@' :: (ip ++ ':' :: host) := by
    simp
  rw [hre] at hlast
  unfold IdntParse
  rw [hsplit]
  simp only [hfirst, hlast]
  have hlen : (ident ++ '@' :: ip).length = ident.length + (ip.length + 1) := by
    simp [Nat.add_comm]
  rw [hlen, if_neg (by omega)]
  have h1 : substring (String.mk (ident ++ '@' :: (ip ++ ':' :: host))) 0 ident.length
      = String.mk ident := by
    simp [substring]
  have h2 : substring (String.mk (ident ++ '@' :: (ip ++ ':' :: host))) (ident.length + 1)
      (ident.length + (ip.length + 1) - ident.length - 1) = String.mk ip := by
    have : ident.length + (ip.length + 1) - ident.length - 1 = ip.length := by omega
    rw [this]
    simp [substring, List.drop_append]
  have h3 : substr (String.mk (ident ++ '@' :: (ip ++ ':' :: host)))
      (ident.length + (ip.length + 1) + 1) = String.mk host := by
    have : ident.length + (ip.length + 1) + 1 = ident.length + ((ip.length + 1) + 1) := by
      omega
    rw [this]
    simp only [substr, List.drop_append, List.drop_succ_cons]
    simp
  rw [h1, h2, h3]
  simp [String.ext_iff]

/-- C24: `IdntParse` returns false when the line does not split at its spaces
into exactly two words (with the token compression that `util::Split` has by
default; without it every single space separates); when the second word has
no `@`; when it has no `:` after the first `@`; when, the second word being
`ident@ip:host` with the first `@` and the last `:` as separators, the ident,
the IP or the host is empty or the IP is not a valid address. Whenever
`IdntParse` returns false the session, and so its ident, IP and hostname, is
what it was before. -/
theorem IdntParse_atomic (env : Env) (c : ClientImpl) (command : String) :
    ((IdntParse env c command).1 = false →
      (IdntParse env c command).2 = c ∧
      (IdntParse env c command).2.ident = c.ident ∧
      (IdntParse env c command).2.ip = c.ip ∧
      (IdntParse env c command).2.hostname = c.hostname) ∧
    ((Split command " " env.SplitTokenCompress).length ≠ 2 →
      (IdntParse env c command).1 = false) ∧
    (∀ w0 word : String, Split command " " env.SplitTokenCompress = [w0, word] →
      ('@' ∉ word.data → (IdntParse env c command).1 = false) ∧
      (∀ ident rest : List Char, word.data = ident ++ '@' :: rest → '@' ∉ ident →
        ':' ∉ rest → (IdntParse env c command).1 = false) ∧
      (∀ ident ip host : List Char, word.data = ident ++ '@' :: (ip ++ ':' :: host) →
        '@' ∉ ident → ':' ∉ host →
        (ident = [] ∨ ip = [] ∨ host = [] ∨ env.IPValid (String.mk ip) = false) →
        (IdntParse env c command).1 = false)) := by
  have unchanged : (IdntParse env c command).1 = false → (IdntParse env c command).2 = c := by
    unfold IdntParse
    split
    · split
      · intro _; rfl
      · split
        · intro _; rfl
        · dsimp only
          split_ifs
          · intro _; rfl
          · intro _; rfl
          · exact IdntUpdate_refused env c _ _ _
    · intro _; rfl
  refine ⟨fun h => ?_, ?_, ?_⟩
  · have e := unchanged h
    exact ⟨e, by rw [e], by rw [e], by rw [e]⟩
  · intro hlen
    unfold IdntParse
    split
    · rename_i heq
      rw [heq] at hlen
      simp at hlen
    · rfl
  · intro w0 word hsplit
    obtain ⟨w⟩ := word
    refine ⟨?_, ?_, ?_⟩
    · intro hno
      unfold IdntParse
      rw [hsplit]
      simp only [find_first_of_not_mem w '@' hno]
    · intro ident rest hw hat hcolon
      simp only at hw
      subst hw
      have hfirst := find_first_of_append ident rest '@' hat
      unfold IdntParse
      rw [hsplit]
      simp only [hfirst]
      split
      · rfl
      · rename_i pos2 hpos
        have := find_last_of_front ident rest ':' '@' (by decide) hcolon pos2 hpos
        rw [if_pos (by omega)]
    · intro ident ip host hw hat hcolon hbad
      simp only at hw
      subst hw
      rw [IdntParse_parts env c command w0 ident ip host hsplit hat hcolon]
      split_ifs with hempty
      · rfl
      · rcases hbad with h | h | h | h
        · exact absurd (Or.inl h) hempty
        · exact absurd (Or.inr (Or.inr h)) hempty
        · exact absurd (Or.inr (Or.inl h)) hempty
        · simp [IdntUpdate, h]

/-- C24, at lines that a bouncer could send: no second word, no `@`, no `:`
after the `@`, an empty host, and an IP that is not an address; each is
refused and the session keeps its ident, IP and hostname. -/
theorem IdntParse_atomic_witness :
    (IdntParse sampleAddresses { ident := "old", ip := "192.0.2.7", hostname := "relay" }
        "IDNT user@300.0.0.1:host.example").1 = false ∧
    (IdntParse sampleAddresses { ident := "old", ip := "192.0.2.7", hostname := "relay" }
        "IDNT user@300.0.0.1:host.example").2
      = { ident := "old", ip := "192.0.2.7", hostname := "relay" } ∧
    (IdntParse sampleAddresses {} "IDNT").1 = false ∧
    (IdntParse sampleAddresses {} "IDNT user").1 = false ∧
    (IdntParse sampleAddresses {} "IDNT a:b@10.0.0.1").1 = false ∧
    (IdntParse sampleAddresses {} "IDNT user@10.0.0.1:").1 = false :=
  ⟨by decide,
   ((IdntParse_atomic sampleAddresses { ident := "old", ip := "192.0.2.7", hostname := "relay" }
      "IDNT user@300.0.0.1:host.example").1 (by decide)).1,
   (IdntParse_atomic sampleAddresses {} "IDNT").2.1 (by decide),
   ((IdntParse_atomic sampleAddresses {} "IDNT user").2.2 "IDNT" "user" (by decide)).1
      (by decide),
   ((IdntParse_atomic sampleAddresses {} "IDNT a:b@10.0.0.1").2.2 "IDNT" "a:b@10.0.0.1"
      (by decide)).2.1 "a:b".data "10.0.0.1".data (by decide) (by decide) (by decide),
   ((IdntParse_atomic sampleAddresses {} "IDNT user@10.0.0.1:").2.2 "IDNT" "user@10.0.0.1:"
      (by decide)).2.2 "user".data "10.0.0.1".data [] (by decide) (by decide) (by decide)
      (Or.inr (Or.inr (Or.inl rfl)))⟩

/-! ## Child process reader -/

/-- C26 (the code at the failing input): for a child that closes gracefully,
`Close` returns after the one call `child.Close` and leaves the reader marked
open, so the `Close` of the destructor calls `child.Close` again; the same
holds when `SIGTERM` ends the child. Only when both fail does `Close` mark
the reader not open, and then a second `Close` calls nothing. -/
theorem Reader_Close_leaves_open :
    Reader.Close { Close := some true } { isOpen := true }
      = Outcome.returned { isOpen := true, calls := [ChildCall.Close] } ∧
    (Reader.destroy { Close := some true }
        { isOpen := true, calls := [ChildCall.Close] }).calls
      = [ChildCall.Close, ChildCall.Close] ∧
    Reader.Close { Close := some false, Kill := some true } { isOpen := true }
      = Outcome.returned
          { isOpen := true
            calls := [ChildCall.Close, ChildCall.Print "SIGTERM", ChildCall.Kill] } ∧
    Reader.Close { Close := some false, Kill := some false } { isOpen := true }
      = Outcome.returned
          { isOpen := false
            calls := [ChildCall.Close, ChildCall.Print "SIGTERM", ChildCall.Kill,
              ChildCall.Print "SIGKILL", ChildCall.KillSIGKILL] } ∧
    (∀ (child : ChildAnswers) (calls : List ChildCall),
      Reader.Close child { isOpen := false, calls := calls }
        = Outcome.returned { isOpen := false, calls := calls }) :=
  ⟨by decide, by decide, by decide, by decide, fun _ _ => rfl⟩

/-! ## Index tool -/

/-- C27 (the code at the failing input): with the site path `/site` the real
path `/site/` is cut to `/`, which is not empty, so its last character, the
slash, is erased and `VirtualPath` returns the empty string, as it does for
`/other` outside the site path; the site path itself gives `/`. The one erase
at the end also turns `/site/pub/` into `/pub` and `/site/pub//` into
`/pub/`. -/
theorem VirtualPath_root_with_slash :
    VirtualPath "/site" "/site/" = "" ∧
    VirtualPath "/site" "/site" = "/" ∧
    VirtualPath "/site" "/other" = "" ∧
    VirtualPath "/site" "/site/pub" = "/pub" ∧
    VirtualPath "/site" "/site/pub/" = "/pub" ∧
    VirtualPath "/site" "/site/pub//" = "/pub/" := by
  decide

/-! ## Word wrap -/

/-- A position that `find_last_of_any` finds lies in the text and holds one of
the characters. -/
theorem find_last_of_any_spec (l : List Char) (chars : String) (pos : Nat)
    (h : find_last_of_any (String.mk l) chars = some pos) :
    ∃ hlt : pos < l.length, l[pos] ∈ chars.data := by
  unfold find_last_of_any at h
  simp only at h
  split_ifs at h with hi
  simp only [Option.some.injEq] at h
  have hi2 : l.reverse.findIdx (fun ch => chars.data.contains ch) < l.reverse.length := by
    simpa using hi
  have hp := List.findIdx_getElem (w := hi2)
  rw [List.getElem_reverse] at hp
  have hpos : l.length - 1 - l.reverse.findIdx (fun ch => chars.data.contains ch) = pos := h
  refine ⟨by omega, ?_⟩
  simp only [hpos] at hp
  simpa using hp

/-- C28: for every source and every length of at least 1, the part that
`WordWrap` returns has at most `length` characters; the source is the part
followed by the source left behind, with at most one character between them,
which is `-`, a space or a tab; and a source that is not empty is left
strictly shorter. -/
theorem WordWrap_keeps_text (source : String) (length : Nat) (hlen : 1 ≤ length) :
    (WordWrap source length).1.length ≤ length ∧
    (source = (WordWrap source length).1 ++ (WordWrap source length).2 ∨
      ∃ ch : Char, (ch = '-' ∨ ch = ' ' ∨ ch = '\t') ∧
        source = (WordWrap source length).1 ++ String.singleton ch ++
          (WordWrap source length).2) ∧
    (source ≠ "" → (WordWrap source length).2.length < source.length) := by
  obtain ⟨l⟩ := source
  unfold WordWrap
  by_cases h : (String.mk l).length < length
  · rw [if_pos h]
    refine ⟨Nat.le_of_lt h, Or.inl (by simp), ?_⟩
    intro hne
    have : l ≠ [] := by simpa [String.ext_iff] using hne
    have := List.length_pos.2 this
    simpa using this
  · rw [if_neg h]
    have hl : length ≤ l.length := by simpa using h
    simp only [substring, substr, List.drop_zero]
    cases hf : find_last_of_any (String.mk (List.take length l)) "- \t" with
    | none =>
      simp only [String.length, List.length_take]
      refine ⟨by omega, Or.inl ?_, ?_⟩
      · apply String.ext
        simp [String.data_append, Nat.min_eq_left hl]
      · intro _
        simp only [List.length_drop]
        omega
    | some pos =>
      obtain ⟨hlt, hmem⟩ := find_last_of_any_spec _ _ _ hf
      simp only [List.length_take] at hlt
      have hpos : pos < l.length := by omega
      simp only [String.length, List.length_take]
      refine ⟨by omega, Or.inr ⟨l[pos], ?_, ?_⟩, ?_⟩
      · rw [List.getElem_take] at hmem
        simpa using hmem
      · apply String.ext
        have h1 : List.take pos (List.take length l) = List.take pos l := by
          rw [List.take_take, Nat.min_eq_left (by omega)]
        simp only [String.data_append, h1, String.singleton, String.data_push]
        simp
      · intro _
        simp only [List.length_drop]
        omega

/-- C28, at a concrete text: `hello world` wrapped at 8 characters gives
`hello`, drops the space and leaves `world`. -/
theorem WordWrap_keeps_text_witness :
    WordWrap "hello world" 8 = ("hello", "world") ∧
    (WordWrap "hello world" 8).1.length ≤ 8 ∧
    ("hello world" = (WordWrap "hello world" 8).1 ++ (WordWrap "hello world" 8).2 ∨
      ∃ ch : Char, (ch = '-' ∨ ch = ' ' ∨ ch = '\t') ∧
        "hello world" = (WordWrap "hello world" 8).1 ++ String.singleton ch ++
          (WordWrap "hello world" 8).2) ∧
    ("hello world" ≠ "" → (WordWrap "hello world" 8).2.length < "hello world".length) :=
  ⟨by decide, WordWrap_keeps_text "hello world" 8 (by decide)⟩

/-! ## White space compression -/

/-- A text has no two neighbours that are both white space when its first
character and the next are not, and the rest has none. -/
theorem noAdjacentSpace_cons (a : Char) (l : List Char) :
    noAdjacentSpace (a :: l) = true ↔
      (∀ b, l.head? = some b → isspace a = false ∨ isspace b = false) ∧
      noAdjacentSpace l = true := by
  cases l with
  | nil => simp [noAdjacentSpace]
  | cons b rest =>
    simp only [noAdjacentSpace, Bool.and_eq_true, Bool.not_eq_true', Bool.and_eq_false_iff,
      List.head?_cons, Option.some.injEq]
    constructor
    · rintro ⟨h1, h2⟩
      exact ⟨fun x hx => hx ▸ h1, h2⟩
    · rintro ⟨h1, h2⟩
      exact ⟨h1 b rfl, h2⟩

/-- The first loop leaves no two neighbours that are both white space, and
after a white space character its output does not start with one. -/
theorem CompressWhitespace.runs_spec (l : List Char) (afterSpace : Bool) :
    noAdjacentSpace (CompressWhitespace.runs afterSpace l) = true ∧
    (afterSpace = true →
      ∀ x, (CompressWhitespace.runs afterSpace l).head? = some x → isspace x = false) := by
  induction l generalizing afterSpace with
  | nil => simp [CompressWhitespace.runs, noAdjacentSpace]
  | cons ch rest ih =>
    unfold CompressWhitespace.runs
    by_cases hch : isspace ch = true
    · cases afterSpace with
      | true =>
        simpa [hch] using ih true
      | false =>
        simp only [hch, if_true, Bool.false_eq_true, if_false]
        refine ⟨(noAdjacentSpace_cons _ _).2 ⟨fun b hb => Or.inr ((ih true).2 rfl b hb),
          (ih true).1⟩, fun h => ?_⟩
        simp at h
    · have hch2 : isspace ch = false := by simpa using hch
      simp only [hch2, Bool.false_eq_true, if_false]
      refine ⟨(noAdjacentSpace_cons _ _).2 ⟨fun b _ => Or.inl hch2, (ih false).1⟩, ?_⟩
      intro _ x hx
      simp only [List.head?_cons, Option.some.injEq] at hx
      exact hx ▸ hch2

/-- The first loop removes white space only. -/
theorem CompressWhitespace.runs_filter (l : List Char) (afterSpace : Bool) :
    (CompressWhitespace.runs afterSpace l).filter (fun ch => !isspace ch)
      = l.filter (fun ch => !isspace ch) := by
  induction l generalizing afterSpace with
  | nil => simp [CompressWhitespace.runs]
  | cons ch rest ih =>
    unfold CompressWhitespace.runs
    by_cases hch : isspace ch = true
    · cases afterSpace <;> simp [hch, ih, List.filter_cons]
    · simp [hch, ih, List.filter_cons]

/-- The first loop changes nothing in a text without two neighbours that are
both white space, when after a white space character the text does not start
with one. -/
theorem CompressWhitespace.runs_fixed (l : List Char) (afterSpace : Bool)
    (hadj : noAdjacentSpace l = true)
    (hhead : afterSpace = true → ∀ x, l.head? = some x → isspace x = false) :
    CompressWhitespace.runs afterSpace l = l := by
  induction l generalizing afterSpace with
  | nil => simp [CompressWhitespace.runs]
  | cons ch rest ih =>
    obtain ⟨h1, h2⟩ := (noAdjacentSpace_cons ch rest).1 hadj
    unfold CompressWhitespace.runs
    by_cases hch : isspace ch = true
    · cases afterSpace with
      | true =>
        have := hhead rfl ch rfl
        rw [hch] at this
        exact absurd this (by decide)
      | false =>
        simp only [hch, if_true, Bool.false_eq_true, if_false]
        rw [ih true h2 (fun _ x hx => by
          rcases h1 x hx with h | h
          · rw [hch] at h
            exact absurd h (by decide)
          · exact h)]
    · have hch2 : isspace ch = false := by simpa using hch
      simp only [hch2, Bool.false_eq_true, if_false]
      rw [ih false h2 (fun h => by simp at h)]

/-- Without its last character a text keeps the property; when that character
is white space, the one before it is not. -/
theorem noAdjacentSpace_concat (init : List Char) (last : Char)
    (h : noAdjacentSpace (init ++ [last]) = true) :
    noAdjacentSpace init = true ∧
    (isspace last = true → ∀ x, init.getLast? = some x → isspace x = false) := by
  induction init with
  | nil => simp [noAdjacentSpace]
  | cons a rest ih =>
    rw [List.cons_append] at h
    obtain ⟨h1, h2⟩ := (noAdjacentSpace_cons _ _).1 h
    obtain ⟨i1, i2⟩ := ih h2
    refine ⟨(noAdjacentSpace_cons _ _).2 ⟨fun b hb => h1 b (by
      cases rest with
      | nil => simp at hb
      | cons r rs => simpa using hb), i1⟩, ?_⟩
    intro hlast x hx
    cases rest with
    | nil =>
      simp only [List.getLast?_singleton, Option.some.injEq] at hx
      subst hx
      rcases h1 last (by simp) with h | h
      · exact h
      · rw [hlast] at h
        exact absurd h (by decide)
    | cons r rs =>
      rw [List.getLast?_cons_cons] at hx
      exact i2 hlast x hx

/-- The text that `CompressWhitespace` gives neither starts nor ends with
white space, has no two neighbours that are both white space, and has the
characters of the argument that are not white space, in their order. -/
theorem CompressWhitespace_clean (l : List Char) :
    (∀ ch, (CompressWhitespace (String.mk l)).data.head? = some ch → isspace ch = false) ∧
    (∀ ch, (CompressWhitespace (String.mk l)).data.getLast? = some ch →
      isspace ch = false) ∧
    noAdjacentSpace (CompressWhitespace (String.mk l)).data = true ∧
    (CompressWhitespace (String.mk l)).data.filter (fun ch => !isspace ch)
      = l.filter (fun ch => !isspace ch) := by
  have hspec := (CompressWhitespace.runs_spec l false).1
  have hfilter := CompressWhitespace.runs_filter l false
  unfold CompressWhitespace
  simp only
  cases hs1 : CompressWhitespace.runs false l with
  | nil =>
    rw [hs1] at hfilter
    simp [noAdjacentSpace, ← hfilter]
  | cons first rest =>
    rw [hs1] at hspec hfilter
    obtain ⟨n1, n2⟩ := (noAdjacentSpace_cons first rest).1 hspec
    have hs2 : ∃ s2, (if isspace first = true then rest else first :: rest) = s2 ∧
        noAdjacentSpace s2 = true ∧ (∀ x, s2.head? = some x → isspace x = false) ∧
        s2.filter (fun ch => !isspace ch) = l.filter (fun ch => !isspace ch) := by
      by_cases hf : isspace first = true
      · refine ⟨rest, by simp [hf], n2, ?_, ?_⟩
        · intro x hx
          rcases n1 x hx with h | h
          · rw [hf] at h
            exact absurd h (by decide)
          · exact h
        · rw [← hfilter]
          simp [List.filter_cons, hf]
      · have hf2 : isspace first = false := by simpa using hf
        refine ⟨first :: rest, by simp [hf2], hspec, ?_, hfilter⟩
        intro x hx
        simp only [List.head?_cons, Option.some.injEq] at hx
        exact hx ▸ hf2
    obtain ⟨s2, e2, a2, b2, c2⟩ := hs2
    simp only [e2]
    rcases List.eq_nil_or_concat s2 with rfl | ⟨init, last, rfl⟩
    · simp only [List.filter_nil] at c2
      simp [noAdjacentSpace, ← c2]
    · rw [List.concat_eq_append] at a2 b2 c2 ⊢
      obtain ⟨i1, i2⟩ := noAdjacentSpace_concat init last a2
      simp only [List.getLast?_concat, List.dropLast_concat]
      by_cases hl : isspace last = true
      · simp only [hl, if_true]
        refine ⟨fun x hx => b2 x ?_, i2 hl, i1, ?_⟩
        · cases init with
          | nil => simp at hx
          | cons a as => simpa using hx
        · rw [← c2]
          simp [List.filter_append, List.filter_cons, hl]
      · have hl2 : isspace last = false := by simpa using hl
        simp only [hl2, Bool.false_eq_true, if_false]
        refine ⟨b2, ?_, a2, c2⟩
        intro x hx
        simp only [List.getLast?_concat, Option.some.injEq] at hx
        exact hx ▸ hl2

/-- A text that neither starts nor ends with white space and has no two
neighbours that are both white space is what `CompressWhitespace` gives for
it. -/
theorem CompressWhitespace_fixed (l : List Char)
    (hhead : ∀ ch, l.head? = some ch → isspace ch = false)
    (hlast : ∀ ch, l.getLast? = some ch → isspace ch = false)
    (hadj : noAdjacentSpace l = true) :
    CompressWhitespace (String.mk l) = String.mk l := by
  unfold CompressWhitespace
  simp only
  rw [CompressWhitespace.runs_fixed l false hadj (fun h => by simp at h)]
  cases l with
  | nil => rfl
  | cons first rest =>
    have hf : isspace first = false := hhead first rfl
    simp only [hf, Bool.false_eq_true, if_false]
    rcases List.eq_nil_or_concat (first :: rest) with h | ⟨init, last, h⟩
    · simp at h
    · rw [h, List.concat_eq_append] at hlast ⊢
      have hl : isspace last = false := hlast last (by simp)
      simp [hl]

/-- C29: for every string, the result of `CompressWhitespace` neither begins
nor ends with a white space character, no two characters next to each other
in it are both white space, and its characters that are not white space are
those of the string, in their order; so `CompressWhitespace` of the result
is the result. -/
theorem CompressWhitespace_idempotent (str : String) :
    (∀ ch, (CompressWhitespace str).data.head? = some ch → isspace ch = false) ∧
    (∀ ch, (CompressWhitespace str).data.getLast? = some ch → isspace ch = false) ∧
    (∀ (i : Nat) (a b : Char), (CompressWhitespace str).data.get? i = some a →
      (CompressWhitespace str).data.get? (i + 1) = some b →
      isspace a = false ∨ isspace b = false) ∧
    noAdjacentSpace (CompressWhitespace str).data = true ∧
    (CompressWhitespace str).data.filter (fun ch => !isspace ch)
      = str.data.filter (fun ch => !isspace ch) ∧
    CompressWhitespace (CompressWhitespace str) = CompressWhitespace str := by
  obtain ⟨l⟩ := str
  obtain ⟨h1, h2, h3, h4⟩ := CompressWhitespace_clean l
  refine ⟨h1, h2, ?_, h3, h4, CompressWhitespace_fixed _ h1 h2 h3⟩
  generalize (CompressWhitespace (String.mk l)).data = r at h3
  intro i
  induction r generalizing i with
  | nil => simp
  | cons x rest ih =>
    obtain ⟨n1, n2⟩ := (noAdjacentSpace_cons x rest).1 h3
    intro a b ha hb
    cases i with
    | zero =>
      simp only [List.get?_cons_zero, Option.some.injEq] at ha
      simp only [List.get?_cons_succ] at hb
      subst ha
      exact n1 b (by
        cases rest with
        | nil => simp at hb
        | cons r rs => simpa using hb)
    | succ j =>
      simp only [List.get?_cons_succ] at ha hb
      exact ih n2 j a b ha hb

/-- C29, at a concrete text: the runs of white space of
`  site \t deluser  bob ` shrink to their first character and the ends are
cut; compressing the result again changes nothing. -/
theorem CompressWhitespace_idempotent_witness :
    CompressWhitespace "  site \t deluser  bob " = "site deluser bob" ∧
    CompressWhitespace (CompressWhitespace "  site \t deluser  bob ")
      = CompressWhitespace "  site \t deluser  bob " :=
  ⟨by decide, (CompressWhitespace_idempotent "  site \t deluser  bob ").2.2.2.2.2⟩

/-! ## Recursion of the directory lister -/

/-- Every event of the joined calls comes from one of the calls. -/
theorem collectEvents_mem {α : Type} (call : α → Option (List ListEvent)) (l : List α)
    (events : List ListEvent) (h : collectEvents call l = some events) (e : ListEvent)
    (he : e ∈ events) : ∃ a ∈ l, ∃ ev, call a = some ev ∧ e ∈ ev := by
  induction l generalizing events with
  | nil =>
    simp only [collectEvents, Option.some.injEq] at h
    subst h
    simp at he
  | cons a rest ih =>
    unfold collectEvents at h
    cases hc : call a with
    | none => simp [hc] at h
    | some ev =>
      cases hr : collectEvents call rest with
      | none => simp [hc, hr] at h
      | some more =>
        simp only [hc, hr, Option.some.injEq] at h
        subst h
        rcases List.mem_append.1 he with h1 | h1
        · exact ⟨a, List.mem_cons_self _ _, ev, hc, h1⟩
        · obtain ⟨b, hb, ev2, hev2, hin⟩ := ih more hr h1
          exact ⟨b, List.mem_cons_of_mem _ hb, ev2, hev2, hin⟩

/-- The joined calls return when each of them returns. -/
theorem collectEvents_returns {α : Type} (call : α → Option (List ListEvent)) (l : List α)
    (h : ∀ a ∈ l, ∃ ev, call a = some ev) : ∃ events, collectEvents call l = some events := by
  induction l with
  | nil => exact ⟨[], rfl⟩
  | cons a rest ih =>
    obtain ⟨ev, hev⟩ := h a (List.mem_cons_self _ _)
    obtain ⟨more, hmore⟩ := ih (fun b hb => h b (List.mem_cons_of_mem _ hb))
    exact ⟨ev ++ more, by simp [collectEvents, hev, hmore]⟩

/-- With a positive `maxRecursion`, no event of `ListPath` has a depth above
it. -/
theorem DirectoryList.ListPath_depth (env : Env) (options : ListOptions) (maxRecursion : Int)
    (hmax : 0 < maxRecursion) (fuel : Nat) (path : String) (masks : List String) (depth : Nat)
    (events : List ListEvent)
    (h : DirectoryList.ListPath env options maxRecursion fuel path masks depth = some events) :
    ∀ e ∈ events, (e.depth : Int) ≤ maxRecursion := by
  induction fuel generalizing path masks depth events with
  | zero => simp [DirectoryList.ListPath] at h
  | succ fuel ih =>
    unfold DirectoryList.ListPath at h
    split_ifs at h with hguard
    · simp only [Option.some.injEq] at h
      subst h
      simp
    · have hdepth : (depth : Int) ≤ maxRecursion := by
        by_contra hc
        exact hguard ⟨by omega, by omega⟩
      cases hread : DirectoryList.Readdir env options path with
      | none =>
        simp only [hread, Option.some.injEq] at h
        subst h
        intro e he
        simp only [List.mem_singleton] at he
        subst he
        exact hdepth
      | some found =>
        obtain ⟨entries, totalBytes⟩ := found
        simp only [hread] at h
        split_ifs at h with hrec
        · split at h
          · simp at h
          · rename_i more hcol
            simp only [Option.some.injEq] at h
            subst h
            intro e he
            simp only [List.mem_append, List.mem_cons, List.mem_singleton, List.not_mem_nil,
              or_false] at he
            rcases he with (h1 | h1) | h1
            · subst h1
              exact hdepth
            · subst h1
              exact hdepth
            · obtain ⟨de, _, ev, hev, hin⟩ := collectEvents_mem _ _ _ hcol e h1
              exact ih _ _ _ _ hev e hin
        · simp only [Option.some.injEq] at h
          subst h
          intro e he
          simp only [List.mem_cons, List.mem_singleton, List.not_mem_nil, or_false] at he
          rcases he with h1 | h1 <;> subst h1 <;> exact hdepth

/-- With a positive `maxRecursion`, `ListPath` returns whatever the tree is,
when the bound on the nested calls reaches one call past `maxRecursion`. -/
theorem DirectoryList.ListPath_returns (env : Env) (options : ListOptions)
    (maxRecursion : Int) (hmax : 0 < maxRecursion) (fuel : Nat) (path : String)
    (masks : List String) (depth : Nat) (hfuel : 1 ≤ fuel)
    (hsuffices : maxRecursion.toNat + 2 ≤ fuel + depth) :
    ∃ events, DirectoryList.ListPath env options maxRecursion fuel path masks depth
      = some events := by
  induction fuel generalizing path masks depth with
  | zero => omega
  | succ fuel ih =>
    unfold DirectoryList.ListPath
    split_ifs with hguard
    · exact ⟨[], rfl⟩
    · have hdepth : (depth : Int) ≤ maxRecursion := by
        by_contra hc
        exact hguard ⟨by omega, by omega⟩
      cases hread : DirectoryList.Readdir env options path with
      | none => exact ⟨_, rfl⟩
      | some found =>
        obtain ⟨entries, totalBytes⟩ := found
        simp only
        split_ifs with hrec
        · obtain ⟨more, hmore⟩ := collectEvents_returns
            (fun de => DirectoryList.ListPath env options maxRecursion fuel
              (env.PathAppend path de.Path) (masks.drop 1) (depth + 1))
            (DirectoryList.ListPath.subdirectories env options (masks.head?.getD "") entries)
            (fun de _ => ih _ _ _ (by omega) (by omega))
          exact ⟨_, by rw [hmore]⟩
        · exact ⟨_, rfl⟩

/-- What the lister reads in the tree of nested directories. -/
theorem nestedDirectories_Readdir (n : Nat) (path : String) :
    DirectoryList.Readdir (nestedDirectories n) { recursive := true } path =
      if path.length / 2 + 1 < n then
        some ([{ Path := "d", Status := { IsDirectory := true } }], 0)
      else some ([], 0) := by
  unfold DirectoryList.Readdir nestedDirectories
  by_cases h : path.length / 2 + 1 < n
  · simp [h, std_sort]
  · simp [h, std_sort]

/-- Without a limit, the recursive lister reaches the innermost of the nested
directories from each of them. -/
theorem nestedDirectories_reached (n fuel : Nat) (path : String) (k : Nat)
    (hk : 1 ≤ k) (hkn : k ≤ n) (hpath : path.length = 2 * (k - 1))
    (hfuel : n + 1 ≤ fuel + k) :
    ∃ events, DirectoryList.ListPath (nestedDirectories n) { recursive := true } 0 fuel
        path [] k = some events ∧
      ∃ message, ListEvent.Output message n ∈ events := by
  induction fuel generalizing path k with
  | zero => omega
  | succ fuel ih =>
    unfold DirectoryList.ListPath
    rw [if_neg (by simp), nestedDirectories_Readdir]
    by_cases hlast : k < n
    · rw [if_pos (by omega)]
      have hnext : ((nestedDirectories n).PathAppend path "d").length = 2 * (k + 1 - 1) := by
        simp only [nestedDirectories, String.length_append, hpath]
        have : "/".length = 1 := rfl
        have : "d".length = 1 := rfl
        omega
      obtain ⟨more, hmore, message, hin⟩ := ih _ (k + 1) (by omega) (by omega) hnext (by omega)
      have hsub : DirectoryList.ListPath.subdirectories (nestedDirectories n)
          { recursive := true } ((([] : List String).head?).getD "")
          [{ Path := "d", Status := { IsDirectory := true } }]
            = [{ Path := "d", Status := { IsDirectory := true } }] := rfl
      simp only [hsub, collectEvents, List.drop_nil, hmore, true_or, if_true]
      exact ⟨_, rfl, message, by simp [hin]⟩
    · have hkn2 : k = n := by omega
      subst hkn2
      rw [if_neg (by omega)]
      have hsub : DirectoryList.ListPath.subdirectories (nestedDirectories k)
          { recursive := true } ((([] : List String).head?).getD "") [] = [] := rfl
      simp only [hsub, collectEvents, true_or, if_true]
      exact ⟨_, rfl, _,
        List.mem_append_left _ (List.mem_cons_of_mem _ (List.mem_cons_self _ _))⟩

/-- C25: with a positive `maxRecursion`, every directory that `ListPath` reads
and every message it outputs belongs to a call of depth at most
`maxRecursion`; the call of depth 1 returns with at most `maxRecursion + 1`
nested calls, whatever the tree is and however deep, and so does a call of any
depth when the bound on the nested calls reaches one call past
`maxRecursion`. With `maxRecursion = 0` there is no limit: in a tree of `n`
nested directories the recursive lister outputs the directory of depth `n`,
for every `n`. -/
theorem ListPath_recursion_bound (env : Env) (options : ListOptions) (maxRecursion : Int)
    (hmax : 0 < maxRecursion) :
    (∀ (fuel : Nat) (path : String) (masks : List String) (depth : Nat)
        (events : List ListEvent),
      DirectoryList.ListPath env options maxRecursion fuel path masks depth = some events →
      ∀ e ∈ events, (e.depth : Int) ≤ maxRecursion) ∧
    (∀ (path : String) (masks : List String),
      ∃ events, DirectoryList.ListPath env options maxRecursion (maxRecursion.toNat + 1)
          path masks 1 = some events ∧
        ∀ e ∈ events, (e.depth : Int) ≤ maxRecursion) ∧
    (∀ (fuel : Nat) (path : String) (masks : List String) (depth : Nat),
      1 ≤ fuel → maxRecursion.toNat + 2 ≤ fuel + depth →
      ∃ events, DirectoryList.ListPath env options maxRecursion fuel path masks depth
        = some events) ∧
    (∀ n : Nat, 1 ≤ n →
      ∃ events, DirectoryList.ListPath (nestedDirectories n) { recursive := true } 0 n
          "" [] 1 = some events ∧
        ∃ message, ListEvent.Output message n ∈ events) := by
  refine ⟨fun fuel path masks depth events h =>
      DirectoryList.ListPath_depth env options maxRecursion hmax fuel path masks depth events h,
    fun path masks => ?_,
    fun fuel path masks depth hfuel hsuffices =>
      DirectoryList.ListPath_returns env options maxRecursion hmax fuel path masks depth
        hfuel hsuffices,
    fun n hn => nestedDirectories_reached n n "" 1 (le_refl 1) hn rfl (by omega)⟩
  obtain ⟨events, hev⟩ := DirectoryList.ListPath_returns env options maxRecursion hmax
    (maxRecursion.toNat + 1) path masks 1 (by omega) (by omega)
  exact ⟨events, hev,
    DirectoryList.ListPath_depth env options maxRecursion hmax _ path masks 1 events hev⟩

/-- C25, at a tree of five nested directories: with `maxRecursion = 2` the
recursive lister reads and outputs the directories of depth 1 and 2 and
returns. -/
theorem ListPath_recursion_bound_witness :
    DirectoryList.ListPath (nestedDirectories 5) { recursive := true } 2 3 "" [] 1
      = some [ListEvent.Readdir "" 1, ListEvent.Output "d\r\n" 1,
              ListEvent.Readdir "/d" 2, ListEvent.Output "\r\n/d:\r\nd\r\n" 2] ∧
    ∀ e ∈ [ListEvent.Readdir "" 1, ListEvent.Output "d\r\n" 1,
           ListEvent.Readdir "/d" 2, ListEvent.Output "\r\n/d:\r\nd\r\n" 2],
      (e.depth : Int) ≤ 2 :=
  ⟨by decide,
   (ListPath_recursion_bound (nestedDirectories 5) { recursive := true } 2 (by decide)).1
      3 "" [] 1 _ (by decide)⟩

end ftp
